import Mathlib

/-!
# commonTools: the NATS client, the trace helpers and the error taxonomy

A shallow embedding of `nats/nats/nats.go`, `trace/requestID/request_id.go`,
`trace/time/time.go` and `errors/exception.go`.

* Go's `context.Context` is the chain of `WithValue` layers, most recent first.
* `uuid.New()` and `time.Now()` are read from an explicit environment `Env`.
* The NATS connection is an arbitrary state machine `Transport σ`; every call the
  client makes on it is appended to an event log.
* A Go function that may panic returns `Exec`.
-/

namespace CommonTools

/-! ## strconv -/

namespace strconv

/-- The two failures `strconv` reports in a `*NumError`. -/
inductive NumError where
  | ErrSyntax
  | ErrRange
  deriving DecidableEq, Repr

def maxUint64 : Nat := 2 ^ 64 - 1
def maxInt64 : Int := 2 ^ 63 - 1
def minInt64 : Int := -(2 ^ 63)

/-- Value of a base-10 digit byte; `none` for every other character. -/
def digitVal (c : Char) : Option Nat :=
  if '0' ≤ c ∧ c ≤ '9' then some (c.toNat - '0'.toNat) else none

/-- The digit loop of `strconv.ParseUint(s, 10, 64)`: `n` is the `uint64` accumulator.
The result is the value returned together with the error, if any. -/
def parseUintLoop : Nat → List Char → Nat × Option NumError
  | n, [] => (n, none)
  | n, c :: cs =>
    match digitVal c with
    | none => (0, some .ErrSyntax)
    | some d =>
      -- cutoff = maxUint64/10 + 1
      if n ≥ maxUint64 / 10 + 1 then (maxUint64, some .ErrRange)
      else
        let n10 := n * 10
        let n1 := (n10 + d) % 2 ^ 64
        if n1 < n10 ∨ n1 > maxUint64 then (maxUint64, some .ErrRange)
        else parseUintLoop n1 cs

/-- Model of `strconv.ParseUint(s, 10, 64)`. -/
def ParseUint (s : List Char) : Nat × Option NumError :=
  match s with
  | [] => (0, some .ErrSyntax)
  | _ => parseUintLoop 0 s

/-- Model of `strconv.ParseInt(s, 10, 64)`: the value and the error, both of which Go returns. -/
def ParseInt (s : String) : Int × Option NumError :=
  match s.data with
  | [] => (0, some .ErrSyntax)
  | c :: cs =>
    let neg := c == '-'
    let body := if c == '+' ∨ c == '-' then cs else c :: cs
    match ParseUint body with
    | (_, some .ErrSyntax) => (0, some .ErrSyntax)
    | (un, _) =>
      -- cutoff = 1 << 63
      if ¬ neg ∧ un ≥ 2 ^ 63 then (maxInt64, some .ErrRange)
      else if neg ∧ un > 2 ^ 63 then (minInt64, some .ErrRange)
      else (if neg then -(un : Int) else (un : Int), none)

/-- Model of `strconv.FormatInt(i, 10)`. -/
def FormatInt (i : Int) : String :=
  if i < 0 then "-" ++ Nat.repr i.natAbs else Nat.repr i.natAbs

end strconv

/-! ## context -/

/-- The keys under which values are stored in a `context.Context`. The two trace packages
each declare their own `ctxKey` type, so their keys never collide with each other nor with
a key of any other package. -/
inductive CtxKey where
  /-- Constant `requestID.ctxKeyXRequestID`. -/
  | ctxKeyXRequestID
  /-- Constant `time.ctxKeyXTime`. -/
  | ctxKeyXTime
  /-- A key of any other package (zerolog's logger key, for instance). -/
  | foreign (name : String)
  deriving DecidableEq, Repr

/-- A dynamically typed value stored in a context. -/
inductive CtxValue where
  | str (s : String)
  | int64 (n : Int)
  | other (tag : String)
  deriving DecidableEq, Repr

/-- A `context.Context`: an optional deadline (epoch nanoseconds) and the `WithValue`
layers, the most recent one first. -/
structure Context where
  deadline : Option Int
  values : List (CtxKey × CtxValue)
  deriving DecidableEq, Repr

namespace Context

/-- Model of `context.Background()`. -/
def Background : Context := { deadline := none, values := [] }

/-- Model of `context.WithValue`. -/
def WithValue (ctx : Context) (k : CtxKey) (v : CtxValue) : Context :=
  { ctx with values := (k, v) :: ctx.values }

/-- Model of `ctx.Value(k)`: the innermost layer holding `k`. -/
def Value (ctx : Context) (k : CtxKey) : Option CtxValue :=
  (ctx.values.find? (fun kv => kv.1 == k)).map Prod.snd

/-- Model of `context.WithTimeout(parent, d)` at instant `now`; the earlier deadline wins. -/
def WithTimeout (parent : Context) (now d : Int) : Context :=
  match parent.deadline with
  | some cur => if cur < now + d then parent else { parent with deadline := some (now + d) }
  | none => { parent with deadline := some (now + d) }

end Context

/-- What the outside world supplies to one operation: the clock reading of `time.Now()`
(nanoseconds since the epoch), the identifier `uuid.New().String()` returns and the stack
frames `runtime.Caller` reports. -/
structure Env where
  nowNanos : Int
  uuid : String
  frames : List (String × Nat)
  deriving Repr

/-! ## trace/requestID -/

namespace traceRequestID

def NewRequestID (env : Env) : String := env.uuid

def FromContext (env : Env) (ctx : Context) : String :=
  match ctx.Value .ctxKeyXRequestID with
  | some (.str v) => v
  | _ => NewRequestID env

def ContextWithXRequestID (ctx : Context) (requestID : String) : Context :=
  ctx.WithValue .ctxKeyXRequestID (.str requestID)

end traceRequestID

/-! ## trace/time -/

namespace traceTime

/-- Go's `time.Now().UTC().UnixNano() / 1e6`: integer division truncates toward zero. -/
def NewTime (env : Env) : Int := Int.tdiv env.nowNanos 1000000

def GetFromContext (env : Env) (ctx : Context) : Int :=
  match ctx.Value .ctxKeyXTime with
  | some (.int64 v) => v
  | _ => NewTime env

def ContextWithTime (ctx : Context) (milliTime : Int) : Context :=
  ctx.WithValue .ctxKeyXTime (.int64 milliTime)

end traceTime

/-! ## errors -/

mutual
/-- The struct `exception` of `errors/exception.go`; `_e` is Go's `error` field, `GoError.nil`
when unset. `Details` keeps the detail values in rendered form. -/
inductive exception where
  | mk (Code : String) (Status : Int) (Message : String) (Details : List (String × String))
      (GRPCCode : Nat) (_e : GoError)
/-- The values of Go's `error` interface that occur in this repository. -/
inductive GoError where
  /-- The `nil` interface value. -/
  | nil
  /-- An error of another package (the transport's, for instance), known by its text. -/
  | foreignErr (text : String)
  /-- A pointer to an `exception`. -/
  | exc (e : exception)
  /-- The `*withMessage` of `github.com/pkg/errors`. -/
  | withMessage (cause : GoError) (msg : String)
  /-- The `*withStack` of `github.com/pkg/errors`. -/
  | withStack (inner : GoError)
end

deriving instance DecidableEq for exception, GoError
deriving instance Repr for exception, GoError

namespace exception

def Code : exception → String
  | .mk c _ _ _ _ _ => c

def Status : exception → Int
  | .mk _ s _ _ _ _ => s

def Message : exception → String
  | .mk _ _ m _ _ _ => m

def Details : exception → List (String × String)
  | .mk _ _ _ d _ _ => d

def GRPCCode : exception → Nat
  | .mk _ _ _ _ g _ => g

/-- The copy `_err := *_e; _err._e = w` made by `Wrap` and `Wrapf`. -/
def withInner : exception → GoError → exception
  | .mk c s m d g _, w => .mk c s m d g w

end exception

mutual
/-- Method `(*exception).Error`. -/
def exception.Error : exception → String
  | .mk c _ m _ _ e =>
    "[" ++ c ++ "] " ++ (match e with
      | .nil => m
      | w => w.Error)
/-- Method `Error()` of an error value (the empty text for `nil`, on which Go cannot call it). -/
def GoError.Error : GoError → String
  | .nil => ""
  | .foreignErr t => t
  | .exc e => e.Error
  | .withMessage c m => m ++ ": " ++ c.Error
  | .withStack i => i.Error
end

namespace errors

/-- Model of `errors.Cause` of `github.com/pkg/errors`: follow `Cause()` while the error has
that method; `*exception` does not have it. -/
def Cause : GoError → GoError
  | .withMessage c _ => Cause c
  | .withStack i => Cause i
  | e => e

/-- Model of `errors.Wrapf` of `github.com/pkg/errors`; `msg` is the formatted message. -/
def pkgWrapf (err : GoError) (msg : String) : GoError :=
  match err with
  | .nil => .nil
  | e => .withStack (.withMessage e msg)

/-- The type assertion `err.(*exception)`. -/
def asException : GoError → Option exception
  | .exc e => some e
  | _ => none

def Is (err target : GoError) : Bool :=
  match asException (Cause err) with
  | none => false
  | some causeErr =>
    match asException (Cause target) with
    | none => false
    | some causeTarget => causeErr.Code == causeTarget.Code

/-- Function `Wrapf`; `msg` is `fmt.Sprintf(format, args...)`. -/
def Wrapf (err : GoError) (msg : String) : GoError :=
  let _w := pkgWrapf err msg
  match asException err with
  | none => _w
  | some _e => .exc (_e.withInner _w)

end errors

/-! ## nats: data -/

/-- Go's `map[string][]string` (`nats.Header`), as the list of its entries. -/
abbrev Header := List (String × List String)

namespace Header

/-- The index expression `h[k]`: the `nil` slice when `k` is absent. -/
def get (h : Header) (k : String) : List String :=
  (h.lookup k).getD []

/-- The assignment `h[k] = v`. -/
def set : Header → String → List String → Header
  | [], k, v => [(k, v)]
  | (k0, v0) :: rest, k, v => if k0 = k then (k, v) :: rest else (k0, v0) :: set rest k v

/-- The keys of the map. -/
def keys (h : Header) : List String := h.map Prod.fst

end Header

/-- The fields of `nats.Msg` the client uses; `Data` is the payload bytes. -/
structure Msg where
  Subject : String
  Header : Header
  Data : List Nat
  deriving DecidableEq, Repr

/-- The value a goroutine panics with; `nilValue` is `panic(nil)` of Go before 1.21, for
which `recover()` returns `nil`. -/
inductive PanicValue where
  | nilValue
  | value (text : String)
  deriving DecidableEq, Repr

/-- Outcome of running a Go function body: it returns, or it leaves by a panic. -/
inductive Exec (α : Type) where
  | normal (a : α)
  | panic (r : PanicValue)
  deriving DecidableEq, Repr

/-- What a message handler does with one message. -/
inductive HandlerResult where
  | returned (err : GoError)
  | panicked (r : PanicValue)
  deriving DecidableEq, Repr

/-- The type `func(ctx context.Context, msg *nats.Msg) error`. -/
abbrev Handler := Context → Msg → HandlerResult

inductive LogLevel where
  | info
  | error
  deriving DecidableEq, Repr

/-- What a log line says; the layout of the text is zerolog's and is not modelled. -/
inductive LogBody where
  | text (s : String)
  | inbound (msg : Msg)
  | handlerError (endpoint : String) (err : GoError)
  | recovered (r : PanicValue) (stack : String)
  deriving DecidableEq, Repr

structure LogEntry where
  level : LogLevel
  fields : List (String × String)
  body : LogBody
  deriving DecidableEq, Repr

/-- A run of a callback: how it ended and what it logged. -/
structure Run where
  result : Exec Unit
  logs : List LogEntry
  deriving DecidableEq, Repr

structure Channel where
  ChannelName : String
  GroupName : String
  Handler : Handler

structure Config where
  Name : String
  Address : List String
  ClientID : String
  DurableName : String
  AppID : String
  Account : String
  Password : String
  deriving DecidableEq, Repr

/-- A handle on an established `*nats.Conn`. -/
structure Conn where
  id : Nat
  deriving DecidableEq, Repr

/-- The calls the client makes on the NATS library, with what each returned. -/
inductive Event where
  | connect (url name user password : String) (err : GoError)
  | publishMsg (msg : Msg) (err : GoError)
  | subscribe (subject : String) (err : GoError)
  | queueSubscribe (subject queue : String) (err : GoError)
  | drain (err : GoError)
  deriving DecidableEq, Repr

/-- The NATS library as the client sees it: a state machine over `σ`. Each operation takes
the receiver `*nats.Conn` (`none` is the nil pointer) and returns Go's results together with
the next state. Nothing is assumed about how it behaves. -/
structure Transport (σ : Type) where
  Connect : σ → String → String → String → String → (Option Conn × GoError) × σ
  PublishMsg : σ → Option Conn → Msg → GoError × σ
  Subscribe : σ → Option Conn → String → GoError × σ
  QueueSubscribe : σ → Option Conn → String → String → GoError × σ
  Drain : σ → Option Conn → GoError × σ

/-- A subscription the library accepted, with the callback it will run per message. -/
structure Registration where
  subject : String
  queue : String
  cb : Env → Msg → Run

/-- The process state: the library's state, the package-level `waitGroup` counter, the
subscriptions in place, the calls made so far and the lines logged so far. -/
structure World (σ : Type) where
  net : σ
  waitGroup : Int
  subs : List Registration
  events : List Event
  logs : List LogEntry

structure Client where
  natsConn : Option Conn
  cfg : Config
  Channels : List Channel

/-! ## nats: operations -/

namespace nats

open strconv

/-- Function `NewNatsConn`. The handlers it installs only log, except the closed handler,
which calls `waitGroup.Done()` when the library reports the connection closed. The result is
the returned pair, the configuration as the function leaves it, and the next state. -/
def NewNatsConn {σ : Type} (tr : Transport σ) (env : Env) (c : Config) (w : World σ) :
    (Option Conn × GoError) × Config × World σ :=
  let wg := w.waitGroup + 1
  let url := String.intercalate "," c.Address
  let ((natsConn, err), net1) := tr.Connect w.net url c.Name c.Account c.Password
  let logs1 :=
    if err ≠ .nil then
      w.logs ++ [⟨.error, [], .text ("connect to nats server error " ++ err.Error)⟩]
    else w.logs
  let c1 :=
    if c.ClientID = "" then
      if c.AppID ≠ "" then { c with ClientID := c.AppID ++ "_" ++ env.uuid }
      else { c with ClientID := env.uuid }
    else c
  ((natsConn, .nil), c1,
    { w with net := net1, waitGroup := wg, logs := logs1
             events := w.events ++ [.connect url c.Name c.Account c.Password err] })

/-- Function `NewClient`: the returned pair (`none` is the nil `*Client`), the configuration
and the next state. -/
def NewClient {σ : Type} (tr : Transport σ) (env : Env) (cfg : Config) (w : World σ) :
    (Option Client × GoError) × Config × World σ :=
  let ((nc, err), cfg1, w1) := NewNatsConn tr env cfg w
  if err ≠ .nil then ((none, err), cfg1, w1)
  else ((some { natsConn := nc, cfg := cfg1, Channels := [] }, .nil), cfg1, w1)

/-- The header map `Pub` builds: the two reserved entries, then every caller entry assigned
over them, in the order in which `range` visits the caller map. -/
def pubHeader (env : Env) (ctx : Context) (header : Header) : Header :=
  header.foldl (fun h kv => h.set kv.1 kv.2)
    [("request_id", [traceRequestID.FromContext env ctx]),
     ("time", [FormatInt (traceTime.GetFromContext env ctx)])]

/-- The `nats.Msg` that `Pub` builds. -/
def pubMsg (env : Env) (ctx : Context) (subject : String) (header : Header)
    (data : List Nat) : Msg :=
  { Subject := subject, Header := pubHeader env ctx header, Data := data }

/-- Method `Client.Pub`; `ErrInternal` is the package-level sentinel of `errors`, which is
declared outside the files at hand. -/
def Pub {σ : Type} (tr : Transport σ) (ErrInternal : exception) (env : Env) (c : Client)
    (ctx : Context) (subject : String) (header : Header) (data : List Nat) (w : World σ) :
    GoError × World σ :=
  let msg := pubMsg env ctx subject header data
  let (err, net1) := tr.PublishMsg w.net c.natsConn msg
  let w1 := { w with net := net1, events := w.events ++ [.publishMsg msg err] }
  if err ≠ .nil then
    (errors.Wrapf (.exc ErrInternal) ("fail to publish to nats, err: " ++ err.Error), w1)
  else (.nil, w1)

/-- The local `requestID` of the dispatch callback: the zero value unless the header has a
value. -/
def extractRequestID (msg : Msg) : String :=
  match msg.Header.get "request_id" with
  | v :: _ => v
  | [] => ""

/-- The local `t` of the dispatch callback: the zero value unless the header has a value,
and then whatever `strconv.ParseInt` returns as its first result, the error being dropped. -/
def extractTime (msg : Msg) : Int :=
  match msg.Header.get "time" with
  | v :: _ => (ParseInt v).1
  | [] => 0

/-- The fields of the logger the dispatch callback derives. -/
def loggerFields (endpoint : String) (msg : Msg) : List (String × String) :=
  [("time", FormatInt (extractTime msg)), ("request_id", extractRequestID msg),
   ("endpoint", endpoint)]

/-- The context the dispatch callback hands to the handler: a 30 second deadline, the request
id, the time, and the logger that `logger.WithContext` stores. -/
def handlerContext (env : Env) (endpoint : String) (msg : Msg) : Context :=
  let internalCtx := Context.Background.WithTimeout env.nowNanos (30 * 1000000000)
  let internalCtx := traceTime.ContextWithTime
    (traceRequestID.ContextWithXRequestID internalCtx (extractRequestID msg)) (extractTime msg)
  internalCtx.WithValue (.foreign "zerolog") (.other ("logger for " ++ endpoint))

/-- Go's builtin `recover()` called directly by a deferred function: it returns the value of
the panic in flight (`none` for Go's `nil`) and the goroutine stops panicking. -/
def goRecover (panicking : Option PanicValue) : Option String × Option PanicValue :=
  match panicking with
  | none => (none, none)
  | some .nilValue => (none, none)
  | some (.value t) => (some t, none)

/-- The stack text `recoverLog` assembles from `runtime.Caller(2)`, `runtime.Caller(3)`, ... -/
def stackText (frames : List (String × Nat)) : String :=
  frames.foldl (fun msg f => msg ++ f.1 ++ ":" ++ Nat.repr f.2 ++ "\n") ""

/-- Function `recoverLog`, run as a deferred call: what it logs and whether the goroutine
is still panicking afterwards. -/
def recoverLog (env : Env) (panicking : Option PanicValue) :
    List LogEntry × Option PanicValue :=
  let (r, panicking1) := goRecover panicking
  match r with
  | some t => ([⟨.error, [], .recovered (.value t) (stackText env.frames)⟩], panicking1)
  | none => ([], panicking1)

/-- The body of the dispatch callback, up to the point where it returns or panics. -/
def dispatchBody (env : Env) (endpoint : String) (handler : Handler) (msg : Msg) :
    Exec Unit × List LogEntry :=
  let fields := loggerFields endpoint msg
  let l1 : LogEntry := ⟨.info, fields, .inbound msg⟩
  match handler (handlerContext env endpoint msg) msg with
  | .panicked r => (.panic r, [l1])
  | .returned err =>
    if err ≠ .nil then (.normal (), [l1, ⟨.error, fields, .handlerError endpoint err⟩])
    else (.normal (), [l1])

/-- The callback that `Sub` and `RegisterChannel` hand to the library (the two closures
differ in the name of the endpoint variable only): the body, then the deferred
`recoverLog`. -/
def dispatch (endpoint : String) (handler : Handler) (env : Env) (msg : Msg) : Run :=
  let (res, logs) := dispatchBody env endpoint handler msg
  let panicking := match res with
    | .normal _ => none
    | .panic r => some r
  let (logs1, panicking1) := recoverLog env panicking
  match panicking1 with
  | none => ⟨.normal (), logs ++ logs1⟩
  | some r => ⟨.panic r, logs ++ logs1⟩

/-- Method `Client.Sub`. -/
def Sub {σ : Type} (tr : Transport σ) (c : Client) (topic : String) (handler : Handler)
    (w : World σ) : GoError × World σ :=
  let (err, net1) := tr.Subscribe w.net c.natsConn topic
  let w1 := { w with
    net := net1
    events := w.events ++ [.subscribe topic err]
    subs := if err = .nil then w.subs ++ [⟨topic, "", dispatch topic handler⟩] else w.subs }
  if err ≠ .nil then (err, w1) else (.nil, w1)

/-- The loop of `Client.RegisterChannel` over the channels that remain. -/
def registerLoop {σ : Type} (tr : Transport σ) (conn : Option Conn) :
    List Channel → World σ → GoError × World σ
  | [], w => (.nil, w)
  | ch :: rest, w =>
    let logs1 := w.logs ++ [⟨.info, [], .text ("Register channel: " ++ ch.ChannelName)⟩]
    let (err, net1) := tr.QueueSubscribe w.net conn ch.ChannelName ch.GroupName
    let w1 := { w with
      net := net1
      logs := logs1
      events := w.events ++ [.queueSubscribe ch.ChannelName ch.GroupName err]
      subs := if err = .nil then
          w.subs ++ [⟨ch.ChannelName, ch.GroupName, dispatch ch.ChannelName ch.Handler⟩]
        else w.subs }
    if err ≠ .nil then (err, w1) else registerLoop tr conn rest w1

/-- Method `Client.RegisterChannel`. -/
def RegisterChannel {σ : Type} (tr : Transport σ) (c : Client) (channels : List Channel)
    (w : World σ) : GoError × Client × World σ :=
  let c1 := { c with Channels := channels }
  let (err, w1) := registerLoop tr c1.natsConn channels w
  (err, c1, w1)

/-- Method `sync.WaitGroup.Wait` against the successive values the counter takes from the
call on: the position of the first zero, where the call returns; `none` while no zero has
been seen, the caller being still blocked. -/
def waitGroupWait : List Int → Option Nat
  | [] => none
  | v :: rest => if v = 0 then some 0 else (waitGroupWait rest).map (· + 1)

/-- How a call of `Client.Drain` stands once the counter history has been played. -/
inductive DrainResult where
  /-- It returned `err`; `waited` is `none` when `waitGroup.Wait()` was never called and the
  position in the history at which `Wait` returned otherwise. -/
  | returned (err : GoError) (waited : Option Nat)
  /-- It is blocked in `waitGroup.Wait()`. -/
  | blocked
  deriving DecidableEq, Repr

/-- Method `Client.Drain`; `later` lists the values other goroutines give the wait counter
after the call has started, the value on entry being the one in `w`. -/
def Drain {σ : Type} (tr : Transport σ) (c : Client) (later : List Int) (w : World σ) :
    DrainResult × World σ :=
  let (err, net1) := tr.Drain w.net c.natsConn
  let w1 := { w with net := net1, events := w.events ++ [.drain err] }
  if err ≠ .nil then (.returned err none, w1)
  else
    match waitGroupWait (w.waitGroup :: later) with
    | some k => (.returned .nil (some k), { w1 with waitGroup := 0 })
    | none => (.blocked, { w1 with waitGroup := (w.waitGroup :: later).getLast?.getD 0 })

end nats

/-! ## Notions used to state the properties -/

namespace strconv

/-- A base-10 digit. -/
def IsDigit (c : Char) : Prop := '0' ≤ c ∧ c ≤ '9'

instance (c : Char) : Decidable (IsDigit c) := by unfold IsDigit; infer_instance

/-- The number a string of base-10 digits denotes, continuing from `n`. -/
def decimalValue (n : Nat) (ds : List Char) : Nat :=
  ds.foldl (fun n c => n * 10 + (c.toNat - '0'.toNat)) n

/-- The text `s` is a well-formed base-10 numeral of the int64 `n`: an optional sign, then
one digit or more, and the number denoted lies in the int64 range. -/
def IsInt64Numeral (s : String) (n : Int) : Prop :=
  ∃ sign ds, s.data = sign ++ ds ∧ (sign = [] ∨ sign = ['+'] ∨ sign = ['-']) ∧ ds ≠ [] ∧
    (∀ c ∈ ds, IsDigit c) ∧
    n = (if sign = ['-'] then -(decimalValue 0 ds : Int) else (decimalValue 0 ds : Int)) ∧
    -(2 ^ 63) ≤ n ∧ n < 2 ^ 63

end strconv

/-- The text `needle` occurs in the text `hay`. -/
def containsText (hay needle : String) : Prop :=
  ∃ pre post : String, hay = pre ++ needle ++ post

namespace nats

/-- The event logged for a queue subscription that the library accepted. -/
def okEvent (ch : Channel) : Event :=
  .queueSubscribe ch.ChannelName ch.GroupName .nil

/-- The registration that an accepted queue subscription of `ch` leaves in place. -/
def regOf (ch : Channel) : Registration :=
  ⟨ch.ChannelName, ch.GroupName, dispatch ch.ChannelName ch.Handler⟩

/-- The library state after queue subscriptions for `chs` were requested in list order. -/
def netAfter {σ : Type} (tr : Transport σ) (conn : Option Conn) (chs : List Channel)
    (s : σ) : σ :=
  chs.foldl (fun s ch => (tr.QueueSubscribe s conn ch.ChannelName ch.GroupName).2) s

/-- One trip of a context over the bus: `Pub` with no extra headers under `pubEnv`, then the
delivery of that message to a dispatch callback for `endpoint` under `subEnv`. -/
structure Hop where
  pubEnv : Env
  subEnv : Env
  subject : String
  endpoint : String
  data : List Nat

/-- The context the handler receives after the trip `h` of `ctx`. -/
def roundTrip (h : Hop) (ctx : Context) : Context :=
  handlerContext h.subEnv h.endpoint (pubMsg h.pubEnv ctx h.subject [] h.data)

/-- The run of a dispatch callback for `endpoint` on `msg` in which the handler was called
once and did `res`: the line for the inbound message comes first; an error returned is
logged for the endpoint; a panic is recovered and logged as `recoverLog` does; the callback
returns normally. -/
def runWith (env : Env) (endpoint : String) (msg : Msg) (res : HandlerResult) : Run :=
  match res with
  | .returned err =>
    if err ≠ .nil then
      ⟨.normal (), [⟨.info, loggerFields endpoint msg, .inbound msg⟩,
        ⟨.error, loggerFields endpoint msg, .handlerError endpoint err⟩]⟩
    else ⟨.normal (), [⟨.info, loggerFields endpoint msg, .inbound msg⟩]⟩
  | .panicked r =>
    ⟨.normal (), ⟨.info, loggerFields endpoint msg, .inbound msg⟩ :: (recoverLog env (some r)).1⟩

end nats

/-! ## Sample inputs -/

namespace Sample

/-- A clock reading, a generated identifier and one stack frame. -/
def env : Env :=
  ⟨1700000000123456789, "3f2b8c1e-5d4a-4c6b-9e7f-0a1b2c3d4e5f", [("handler.go", 42)]⟩

/-- A library in which no server can be reached and every other request is accepted. -/
def refusing : Transport Unit where
  Connect := fun s _ _ _ _ => ((none, .foreignErr "nats: no servers available for connection"), s)
  PublishMsg := fun s _ _ => (.nil, s)
  Subscribe := fun s _ _ => (.nil, s)
  QueueSubscribe := fun s _ _ _ => (.nil, s)
  Drain := fun s _ => (.nil, s)

/-- A library whose state counts the requests it has seen: it connects, refuses to send,
refuses the queue subscription on subject `payments.settled` and fails to drain. -/
def flaky : Transport Nat where
  Connect := fun s _ _ _ _ => ((some ⟨s⟩, .nil), s + 1)
  PublishMsg := fun s _ _ => (.foreignErr "nats: connection closed", s + 1)
  Subscribe := fun s _ _ => (.nil, s + 1)
  QueueSubscribe := fun s _ subject _ =>
    (if subject = "payments.settled" then .foreignErr "nats: invalid subject" else .nil, s + 1)
  Drain := fun s _ => (.foreignErr "nats: connection closed", s + 1)

def config : Config :=
  { Name := "orders", Address := ["nats://10.0.0.1:4222", "nats://10.0.0.2:4222"],
    ClientID := "", DurableName := "", AppID := "shop", Account := "svc", Password := "pw" }

def client : Client := { natsConn := some ⟨0⟩, cfg := config, Channels := [] }

/-- A process that has not talked to the library yet. -/
def world {σ : Type} (s : σ) : World σ :=
  { net := s, waitGroup := 0, subs := [], events := [], logs := [] }

/-- A value for the sentinel `ErrInternal`. -/
def ErrInternal : exception := .mk "500000" 500 "internal error" [] 13 .nil

def okHandler : Handler := fun _ _ => .returned .nil

def channels : List Channel :=
  [⟨"orders.created", "workers", okHandler⟩, ⟨"payments.settled", "workers", okHandler⟩,
   ⟨"orders.cancelled", "workers", okHandler⟩]

/-- An inbound message without any header. -/
def bare : Msg := { Subject := "orders.created", Header := [], Data := [123, 125] }

/-- An inbound message with both trace headers. -/
def traced : Msg :=
  { Subject := "orders.created"
    Header := [("request_id", ["req-7", "req-8"]), ("time", ["1700000000123"])]
    Data := [123, 125] }

/-- A context that carries a request id and a time. -/
def ctx : Context :=
  traceTime.ContextWithTime
    (traceRequestID.ContextWithXRequestID Context.Background "req-7") 1700000000123

end Sample

namespace errors

/-- Model of `errors.WithStack` of `github.com/pkg/errors`, to which the package variable
`WithStack` is bound. -/
def WithStack (err : GoError) : GoError :=
  match err with
  | .nil => .nil
  | e => .withStack e

/-- Function `NewWithMessage`. The variadic `args` are given by their `%+v` renderings, so
that `fmt.Sprintf` of the format built by the loop (one `%+v` per argument) is their
concatenation. -/
def NewWithMessage (ErrInternal : exception) (err : GoError) (message : String)
    (args : List String) : GoError :=
  if err = .nil then .nil
  else
    match asException (Cause err) with
    | none =>
      WithStack (.exc (.mk ErrInternal.Code ErrInternal.Status ErrInternal.Message []
        ErrInternal.GRPCCode .nil))
    | some _err =>
      Wrapf (.exc (.mk _err.Code _err.Status message [] _err.GRPCCode .nil))
        (String.join args)

end errors

/-! ## The standard library `time` -/

/-- Conversion of an integer to Go's `int64` (two's complement wrap-around). -/
def wrap64 (x : Int) : Int := (x + 2 ^ 63) % 2 ^ 64 - 2 ^ 63

/-- Conversion of an integer to Go's `uint64` (wrap-around modulo `2 ^ 64`). -/
def wrapU64 (x : Int) : Int := x % 2 ^ 64

namespace gotime

/-- A `*time.Location`, reduced to a name and a fixed offset in seconds east of UTC. -/
structure Location where
  name : String
  offset : Int
  deriving DecidableEq, Repr

/-- The location `time.UTC`. -/
def UTC : Location := ⟨"UTC", 0⟩

/-- A `time.Time`: the instant as seconds since the Unix epoch, which are an `int64`, and
nanoseconds within the second, and the location in which it is presented. -/
structure Time where
  sec : Int
  nsec : Int
  loc : Location
  secInt64 : -(2 ^ 63) ≤ sec ∧ sec < 2 ^ 63
  deriving DecidableEq

/-- The constant `absoluteZeroYear`: absolute times count the seconds from 1 January of
this year, which is 1 modulo 400 and lies before every date that can be represented. -/
def absoluteZeroYear : Int := -292277022399

/-- The constant `unixToInternal + internalToAbsolute`: the seconds from the absolute zero
to the Unix epoch. -/
def unixToAbsolute : Int := 9223372028715321600

/-- Function `isLeap`. -/
def isLeap (year : Int) : Bool :=
  year % 4 = 0 ∧ (year % 100 ≠ 0 ∨ year % 400 = 0)

/-- The table `daysBefore`: days of a non-leap year before the month with index `m`
(0 for January), 365 for index 12. -/
def daysBefore (m : Int) : Int :=
  if m ≤ 0 then 0
  else if m = 1 then 31
  else if m = 2 then 59
  else if m = 3 then 90
  else if m = 4 then 120
  else if m = 5 then 151
  else if m = 6 then 181
  else if m = 7 then 212
  else if m = 8 then 243
  else if m = 9 then 273
  else if m = 10 then 304
  else if m = 11 then 334
  else 365

/-- The year and the day within the year (0 for 1 January) of the day with number `d`,
counted from the absolute zero (`d` is `abs / secondsPerDay`), by the 400, 100, 4 and 1 year
cycles: the part of `absDate` that precedes the month. -/
def yearDay (d : Int) : Int × Int :=
  let n400 := d / 146097
  let d1 := d - 146097 * n400
  let n100 := d1 / 36524
  let n100 := n100 - n100 / 4
  let d2 := d1 - 36524 * n100
  let n4 := d2 / 1461
  let d3 := d2 - 1461 * n4
  let n1 := d3 / 365
  let n1 := n1 - n1 / 4
  let d4 := d3 - 365 * n1
  (400 * n400 + 100 * n100 + 4 * n4 + n1 + absoluteZeroYear, d4)

/-- The month (1 for January) and the day of the month for the day `yday` of `year`, as
in `absDate`. -/
def monthDay (year yday : Int) : Int × Int :=
  if isLeap year ∧ yday = 31 + 29 - 1 then (2, 29)
  else
    let day := if isLeap year ∧ yday > 31 + 29 - 1 then yday - 1 else yday
    let month := day / 31
    let fin := daysBefore (month + 1)
    if day ≥ fin then (month + 2, day - fin + 1)
    else (month + 1, day - daysBefore month + 1)

/-- Function `daysSinceEpoch`: the days from the absolute zero to 1 January of `year`, a
`uint64` computed from the `uint64` number of years since the absolute zero. -/
def daysSinceEpoch (year : Int) : Int :=
  let y := wrapU64 (year - absoluteZeroYear)
  let n400 := y / 400
  let y1 := y - 400 * n400
  let n100 := y1 / 100
  let y2 := y1 - 100 * n100
  let n4 := y2 / 4
  let y3 := y2 - 4 * n4
  wrapU64 (146097 * n400 + 36524 * n100 + 1461 * n4 + 365 * y3)

/-- Function `norm`: carry `lo` into `hi` so that `0 ≤ lo < base`; `hi` is an `int`. -/
def norm (hi lo base : Int) : Int × Int := (wrap64 (hi + lo / base), lo % base)

/-- The number of the day `year`-`month`-`day`, counted from the absolute zero, as `Date`
adds it up before the conversion to `uint64`; `month` is in 1..12, `day` is arbitrary. -/
def dayNumber (year month day : Int) : Int :=
  daysSinceEpoch year + daysBefore (month - 1) +
    (if isLeap year ∧ month ≥ 3 then 1 else 0) + (day - 1)

/-- Function `time.Date`, for a location with a fixed offset. The days `d` and the seconds
`abs` are `uint64` values and `unix` is an `int64`, so each of them wraps around. -/
def Date (year month day hour min sec nsec : Int) (loc : Location) : Time :=
  let (year, m) := norm year (month - 1) 12
  let (sec, nsec) := norm sec nsec 1000000000
  let (min, sec) := norm min sec 60
  let (hour, min) := norm hour min 60
  let (day, hour) := norm day hour 24
  let d := wrapU64 (dayNumber year (m + 1) day)
  let abs := wrapU64 (d * 86400 + (hour * 3600 + min * 60 + sec))
  let unix := wrap64 (abs - unixToAbsolute)
  { sec := wrap64 (unix - loc.offset)
    nsec := nsec
    loc := loc
    secInt64 := by unfold wrap64; omega }

/-- Function `time.Unix`; the result is in the location `local`. The parameter `sec` is an
`int64`. -/
def Unix (localLoc : Location) (sec nsec : Int) : Time :=
  if nsec < 0 ∨ nsec ≥ 1000000000 then
    let n := Int.tdiv nsec 1000000000
    let sec1 := wrap64 (sec + n)
    let nsec1 := nsec - n * 1000000000
    if nsec1 < 0 then
      { sec := wrap64 (sec1 - 1), nsec := nsec1 + 1000000000, loc := localLoc
        secInt64 := by unfold wrap64; omega }
    else
      { sec := sec1, nsec := nsec1, loc := localLoc
        secInt64 := by simp only [sec1]; unfold wrap64; omega }
  else { sec := wrap64 sec, nsec := nsec, loc := localLoc, secInt64 := by unfold wrap64; omega }

namespace Time

/-- Method `UTC`, and `In(time.UTC)`. -/
def UTC (t : Time) : Time := { t with loc := gotime.UTC }

/-- Method `Unix`. -/
def Unix (t : Time) : Int := t.sec

/-- Method `UnixNano`. -/
def UnixNano (t : Time) : Int := wrap64 (t.sec * 1000000000 + t.nsec)

/-- Method `abs`: the seconds since the absolute zero on the clock of the location of `t`,
a `uint64`, which wraps around for the instants before the absolute zero. -/
def abs (t : Time) : Int := wrapU64 (t.sec + t.loc.offset + unixToAbsolute)

def Year (t : Time) : Int := (yearDay (t.abs / 86400)).1

def Month (t : Time) : Int :=
  (monthDay (yearDay (t.abs / 86400)).1 (yearDay (t.abs / 86400)).2).1

def Day (t : Time) : Int :=
  (monthDay (yearDay (t.abs / 86400)).1 (yearDay (t.abs / 86400)).2).2

def Hour (t : Time) : Int := t.abs % 86400 / 3600

def Minute (t : Time) : Int := t.abs % 3600 / 60

def Second (t : Time) : Int := t.abs % 60

def Nanosecond (t : Time) : Int := t.nsec

end Time

end gotime

/-! ## time -/

namespace time

/-- Function `MilliSecond`. -/
def MilliSecond (t : gotime.Time) : Int := Int.tdiv t.UnixNano 1000000

/-- Function `UnixMillis`; `localLoc` is the location `time.Local` of the process. -/
def UnixMillis (localLoc : gotime.Location) (t : Int) : gotime.Time :=
  gotime.Unix localLoc 0 (wrap64 (t * 1000000))

/-- Function `TodayMidnight`. -/
def TodayMidnight (localLoc : gotime.Location) (timestamp userTimeZoneOffset : Int) :
    gotime.Time :=
  let t := (gotime.Unix localLoc (wrap64 (timestamp + userTimeZoneOffset)) 0).UTC
  gotime.Date t.Year t.Month t.Day 0 0 0 0 gotime.UTC

end time

namespace gotime

/-- Function `daysIn`: the number of days of the month `m` of `year`. -/
def daysIn (m year : Int) : Int :=
  if m = 2 ∧ isLeap year then 29 else daysBefore m - daysBefore (m - 1)

end gotime

namespace gotime

/-- Method `Seconds` of a `time.Duration` of `d` nanoseconds. Go computes it in `float64`;
here the same expression is evaluated exactly. -/
def Duration.Seconds (d : Int) : ℚ :=
  (Int.tdiv d 1000000000 : ℚ) + (Int.tmod d 1000000000 : ℚ) / 1000000000

end gotime

namespace time

/-- The variable `ErrInvalidDayTimeSlot`. -/
def ErrInvalidDayTimeSlot : GoError := .foreignErr "Invalid day time slot"

/-- The struct `DayTimeSlot`; both fields are `time.Duration` values, in nanoseconds. -/
structure DayTimeSlot where
  StartTime : Int
  EndTime : Int
  deriving DecidableEq, Repr

/-- Method `DayTimeSlot.Check`. -/
def DayTimeSlot.Check (ts : DayTimeSlot) : GoError :=
  let start := gotime.Duration.Seconds ts.StartTime
  let fin := gotime.Duration.Seconds ts.EndTime
  if 0 ≤ start ∧ start ≤ 86400 ∧ 0 ≤ fin ∧ fin ≤ 86400 ∧ start ≤ fin then .nil
  else ErrInvalidDayTimeSlot

end time

/-! ## time: ISO 8601 durations -/

namespace time

/-- The struct `Duration`. -/
structure Duration where
  Years : Int
  Months : Int
  Days : Int
  Hours : Int
  Minutes : Int
  Seconds : Int
  deriving DecidableEq, Repr

/-- The variable `ErrBadFormat`. -/
def ErrBadFormat : GoError := .foreignErr "bad format string"

/-- The longest run of digits (`\d+` is greedy) at the head of the input, and the rest. -/
def takeDigits : List Char → List Char × List Char
  | [] => ([], [])
  | c :: cs =>
    if '0' ≤ c ∧ c ≤ '9' then ((takeDigits cs).1.cons c, (takeDigits cs).2)
    else ([], c :: cs)

/-- One optional group `((?P<name>\d+)X)?` of the expression `full` at the input `s`: the
text the named group captures and the input that remains. The group takes part when the
longest run of digits is not empty and is followed by the marker `X`; no shorter run can
be followed by `X`. Otherwise it is skipped, the capture is empty and nothing is consumed. -/
def component (marker : Char) (s : List Char) : List Char × List Char :=
  match takeDigits s with
  | (ds, c :: rest) => if ds ≠ [] ∧ c = marker then (ds, rest) else ([], s)
  | (_, []) => ([], s)

/-- The input after the leftmost `P`, where the leftmost match of `full` starts: every
part of `full` after the `P` is optional, so a match starts at each `P`. -/
def afterFirstP : List Char → Option (List Char)
  | [] => none
  | c :: cs => if c = 'P' then some cs else afterFirstP cs

/-- The text of an outer group `((?P<name>\d+)X)`. -/
def outerText (capture : List Char) (marker : Char) : List Char :=
  if capture = [] then [] else capture ++ [marker]

/-- Result of `full.SubexpNames()`. -/
def SubexpNames : List String :=
  ["", "", "year", "", "month", "", "day", "", "", "hour", "", "minute", "", "second"]

/-- Result of `full.FindStringSubmatch(dur)` for the expression
`P((?P<year>\d+)Y)?((?P<month>\d+)M)?((?P<day>\d+)D)?(T((?P<hour>\d+)H)?((?P<minute>\d+)M)?((?P<second>\d+)S)?)?`,
which is not anchored: `none` when nothing matches, else the texts of the whole match and of
the thirteen groups, empty for a group that takes no part. Each optional group is taken
whenever it can match, as the leftmost-first rule prescribes. -/
def FindStringSubmatch (dur : List Char) : Option (List String) :=
  match afterFirstP dur with
  | none => none
  | some r0 =>
    let y := component 'Y' r0
    let m := component 'M' y.2
    let d := component 'D' m.2
    let date := outerText y.1 'Y' ++ outerText m.1 'M' ++ outerText d.1 'D'
    match d.2 with
    | 'T' :: r4 =>
      let h := component 'H' r4
      let mi := component 'M' h.2
      let s := component 'S' mi.2
      let clock := 'T' :: (outerText h.1 'H' ++ outerText mi.1 'M' ++ outerText s.1 'S')
      some [String.mk ('P' :: (date ++ clock)),
        String.mk (outerText y.1 'Y'), String.mk y.1, String.mk (outerText m.1 'M'),
        String.mk m.1, String.mk (outerText d.1 'D'), String.mk d.1, String.mk clock,
        String.mk (outerText h.1 'H'), String.mk h.1, String.mk (outerText mi.1 'M'),
        String.mk mi.1, String.mk (outerText s.1 'S'), String.mk s.1]
    | _ =>
      some [String.mk ('P' :: date),
        String.mk (outerText y.1 'Y'), String.mk y.1, String.mk (outerText m.1 'M'),
        String.mk m.1, String.mk (outerText d.1 'D'), String.mk d.1, "", "", "", "", "", "",
        ""]

/-- Result of `full.MatchString(dur)`. -/
def MatchString (dur : List Char) : Bool := (FindStringSubmatch dur).isSome

/-- Model of `strconv.Atoi`: `strconv.ParseInt(s, 10, 0)` for the 64-bit `int`, with the
error, if any, as Go renders it. -/
def Atoi (s : String) : Int × GoError :=
  match strconv.ParseInt s with
  | (v, none) => (v, .nil)
  | (v, some .ErrSyntax) =>
    (v, .foreignErr ("strconv.Atoi: parsing " ++ s.quote ++ ": invalid syntax"))
  | (v, some .ErrRange) =>
    (v, .foreignErr ("strconv.Atoi: parsing " ++ s.quote ++ ": value out of range"))

/-- The loop of `ParseISO8601String` over the groups that remain; each entry is the index
`i`, the name and the text `match[i]` of a group. -/
def parseLoop : List (Nat × String × String) → Duration → Option Duration × GoError
  | [], d => (some d, .nil)
  | (i, name, part) :: rest, d =>
    if i = 0 ∨ name = "" ∨ part = "" then parseLoop rest d
    else
      match Atoi part with
      | (val, .nil) =>
        if name = "year" then parseLoop rest { d with Years := val }
        else if name = "month" then parseLoop rest { d with Months := val }
        else if name = "day" then parseLoop rest { d with Days := val }
        else if name = "hour" then parseLoop rest { d with Hours := val }
        else if name = "minute" then parseLoop rest { d with Minutes := val }
        else if name = "second" then parseLoop rest { d with Seconds := val }
        else (none, .foreignErr ("unknown field " ++ name))
      | (_, err) => (none, err)

/-- Function `ParseISO8601String`: the returned pair, `none` being the nil `*Duration`. -/
def ParseISO8601String (dur : String) : Option Duration × GoError :=
  if dur = "" then (some ⟨0, 0, 0, 0, 0, 0⟩, .nil)
  else if MatchString dur.data then
    match FindStringSubmatch dur.data with
    | some groups => parseLoop ((List.range 14).zip (SubexpNames.zip groups)) ⟨0, 0, 0, 0, 0, 0⟩
    | none => (none, ErrBadFormat)
  else (none, ErrBadFormat)

end time

namespace time

/-- A decimal numeral within the range of `int`: one digit or more, the number denoted being
below `2 ^ 63`. -/
def IsNumeral (ds : List Char) : Prop :=
  ds ≠ [] ∧ (∀ c ∈ ds, strconv.IsDigit c) ∧ strconv.decimalValue 0 ds < 2 ^ 63

/-- The text `nX` of a component that is present, nothing for one that is absent. -/
def componentText (n : Option (List Char)) (marker : Char) : List Char :=
  match n with
  | none => []
  | some ds => ds ++ [marker]

/-- The number a component gives, 0 for one that is absent. -/
def componentValue (n : Option (List Char)) : Int :=
  match n with
  | none => 0
  | some ds => (strconv.decimalValue 0 ds : Int)

/-- The text `T[nH][nM][nS]` of the clock part, nothing when the part is absent. -/
def clockText (t : Option (Option (List Char) × Option (List Char) × Option (List Char))) :
    List Char :=
  match t with
  | none => []
  | some (h, mi, s) =>
    'T' :: (componentText h 'H' ++ (componentText mi 'M' ++ componentText s 'S'))

/-- The text `P[nY][nM][nD][T[nH][nM][nS]]`. -/
def isoText (y m d : Option (List Char))
    (t : Option (Option (List Char) × Option (List Char) × Option (List Char))) : List Char :=
  'P' :: (componentText y 'Y' ++ (componentText m 'M' ++ (componentText d 'D' ++ clockText t)))

/-- The input `s` does not start with a run of digits followed by `marker`: after its
leading digits it ends or goes on with a character other than `marker`. -/
def Blocked (marker : Char) (s : List Char) : Prop :=
  ∃ ds r, (∀ c ∈ ds, strconv.IsDigit c) ∧ s = ds ++ r ∧
    (r = [] ∨ ∃ c r1, r = c :: r1 ∧ ¬ strconv.IsDigit c ∧ c ≠ marker)

/-- The clock components of the optional clock part. -/
def clockParts (t : Option (Option (List Char) × Option (List Char) × Option (List Char))) :
    Option (List Char) × Option (List Char) × Option (List Char) :=
  match t with
  | none => (none, none, none)
  | some p => p

end time

/-! ## The standard library `time`: the layout `2006-01-02T15:04:05.000000` -/

namespace gotime

/-- Function `appendInt`: the sign of `x`, if negative, then its decimal digits padded with
zeros to `width`. -/
def appendInt (x : Int) (width : Nat) : List Char :=
  (if x < 0 then ['-'] else []) ++
    (List.range (max width (Nat.toDigits 10 x.natAbs).length)).reverse.map
      fun i => Nat.digitChar (x.natAbs / 10 ^ i % 10)

/-- Method `Format` for the layout `2006-01-02T15:04:05.000000`: the year in four digits, the
month, day, hour, minute and second in two, and, from `appendNano`, a period and the nine
digits of the nanoseconds cut to the first six. -/
def formatLit (t : Time) : List Char :=
  appendInt t.Year 4 ++ '-' :: (appendInt t.Month 2 ++ '-' :: (appendInt t.Day 2 ++
    'T' :: (appendInt t.Hour 2 ++ ':' :: (appendInt t.Minute 2 ++ ':' ::
      (appendInt t.Second 2 ++ '.' ::
        (appendInt t.Nanosecond 9).take ((appendInt t.Nanosecond 9).length - 3))))))

/-- Function `isDigit` at the head of the input. -/
def isDigit (c : Char) : Bool := '0' ≤ c ∧ c ≤ '9'

/-- The number a digit stands for. -/
def digit (c : Char) : Int := (c.toNat : Int) - ('0'.toNat : Int)

/-- Function `getnum`: a number of two digits, or of one digit when `fixed` is false and
no second digit follows. -/
def getnum (s : List Char) (fixed : Bool) : Option (Int × List Char) :=
  match s with
  | [] => none
  | [a] => if isDigit a ∧ ¬ fixed then some (digit a, []) else none
  | a :: b :: rest =>
    if ¬ isDigit a then none
    else if ¬ isDigit b then (if fixed then none else some (digit a, b :: rest))
    else some (digit a * 10 + digit b, rest)

/-- Function `leadingInt`, with `x` the number read so far: the digits at the head of the
input and the rest, `none` on overflow. -/
def leadingInt : Nat → List Char → Option (Nat × List Char)
  | x, [] => some (x, [])
  | x, c :: cs =>
    if isDigit c then
      if x > 2 ^ 63 / 10 then none
      else if x * 10 + (c.toNat - '0'.toNat) > 2 ^ 63 then none
      else leadingInt (x * 10 + (c.toNat - '0'.toNat)) cs
    else some (x, c :: cs)

/-- Function `atoi` of package `time`: an optional sign and digits up to the end. -/
def atoi (s : List Char) : Option Int :=
  let neg := s.head? = some '-'
  let body := if s.head? = some '-' ∨ s.head? = some '+' then s.tail else s
  match leadingInt 0 body with
  | some (q, []) => some (if neg then -(q : Int) else (q : Int))
  | _ => none

/-- Function `skip` for a prefix of one character that is not a space. -/
def skip (c : Char) (s : List Char) : Option (List Char) :=
  match s with
  | a :: rest => if a = c then some rest else none
  | [] => none

/-- Function `parseNanoseconds` for a field of `nbytes` bytes, the separator included. -/
def parseNanoseconds (s : List Char) (nbytes : Nat) : Option Int :=
  match s with
  | [] => none
  | sep :: _ =>
    if sep = '.' ∨ sep = ',' then
      match atoi ((s.take nbytes).drop 1) with
      | some ns => if ns < 0 then none else some (ns * 10 ^ (10 - nbytes))
      | none => none
    else none

/-- The chunk `stdLongYear` of `Parse`: four bytes, the first a digit, read by `atoi`. -/
def parseYear (v : List Char) : Option (Int × List Char) :=
  if v.length < 4 then none
  else if (v.head?.map isDigit) ≠ some true then none
  else
    match atoi (v.take 4) with
    | some year => some (year, v.drop 4)
    | none => none

/-- A chunk of `Parse` read by `getnum` and then checked to lie in `lo ≤ n < hi`. -/
def parseField (v : List Char) (fixed : Bool) (lo hi : Int) : Option (Int × List Char) :=
  match getnum v fixed with
  | some (n, rest) => if n < lo ∨ hi ≤ n then none else some (n, rest)
  | none => none

/-- The chunk `stdFracSecond0` with six digits: seven bytes, read by `parseNanoseconds`. -/
def parseFrac (v : List Char) : Option (Int × List Char) :=
  if v.length < 7 then none
  else
    match parseNanoseconds v 7 with
    | some nsec => some (nsec, v.drop 7)
    | none => none

/-- The date chunks `"2006-01-02T` of the layout: year, month and day and the rest. The
month is checked at once, the day only once the whole value is read. -/
def parseDate (value : List Char) : Option ((Int × Int × Int) × List Char) :=
  match skip '"' value with
  | none => none
  | some v0 =>
    match parseYear v0 with
    | none => none
    | some (year, v1) =>
      match skip '-' v1 with
      | none => none
      | some v2 =>
        match parseField v2 true 1 13 with
        | none => none
        | some (month, v3) =>
          match skip '-' v3 with
          | none => none
          | some v4 =>
            match getnum v4 true with
            | none => none
            | some (day, v5) =>
              match skip 'T' v5 with
              | none => none
              | some v6 => some ((year, month, day), v6)

/-- The clock chunks `15:04:05.000000"` of the layout: hour, minute, second and
nanoseconds; nothing may follow the closing quote. -/
def parseClock (v : List Char) : Option (Int × Int × Int × Int) :=
  match parseField v false 0 24 with
  | none => none
  | some (hour, v1) =>
    match skip ':' v1 with
    | none => none
    | some v2 =>
      match parseField v2 true 0 60 with
      | none => none
      | some (min, v3) =>
        match skip ':' v3 with
        | none => none
        | some v4 =>
          match parseField v4 true 0 60 with
          | none => none
          | some (sec, v5) =>
            match parseFrac v5 with
            | none => none
            | some (nsec, v6) =>
              match skip '"' v6 with
              | some [] => some (hour, min, sec, nsec)
              | _ => none

/-- Function `time.ParseInLocation` for the layout `"2006-01-02T15:04:05.000000"`, quotes
included, and the location `loc`; `none` stands for any `*ParseError`. The day is checked
against the month and year after all chunks are read, then `Date` builds the value. -/
def parseLit (value : List Char) (loc : Location) : Option Time :=
  match parseDate value with
  | none => none
  | some ((year, month, day), v) =>
    match parseClock v with
    | none => none
    | some (hour, min, sec, nsec) =>
      if day < 1 ∨ day > daysIn month year then none
      else some (Date year month day hour min sec nsec loc)

end gotime

namespace time

/-- The type `Time`, declared as `time.Time` of the standard library. -/
abbrev Time := gotime.Time

/-- Method `Time.MarshalJSON`. -/
def Time.MarshalJSON (t : Time) : String × GoError :=
  (String.mk ('"' :: (gotime.formatLit t.UTC ++ ['"'])), .nil)

/-- Method `Time.UnmarshalJSON`: the value stored in the receiver and the error returned.
On failure `time.ParseInLocation` returns the zero `time.Time`, which is stored; the text of
its `*ParseError` is abridged. -/
def Time.UnmarshalJSON (data : String) : Time × GoError :=
  match gotime.parseLit data.data gotime.UTC with
  | some now => (now, .nil)
  | none =>
    (⟨-62135596800, 0, gotime.UTC, by decide⟩, .foreignErr ("parsing time " ++ data.quote))

/-- Method `Time.String`. -/
def Time.String (t : Time) : String := String.mk (gotime.formatLit t.UTC)

end time

/-! ## net/http and gRPC, as far as the error taxonomy uses them -/

namespace http

/-- Function `http.StatusText`: the text of a status code, empty for an unknown code. -/
def StatusText (code : Int) : String :=
  if code = 100 then "Continue"
  else if code = 101 then "Switching Protocols"
  else if code = 102 then "Processing"
  else if code = 103 then "Early Hints"
  else if code = 200 then "OK"
  else if code = 201 then "Created"
  else if code = 202 then "Accepted"
  else if code = 203 then "Non-Authoritative Information"
  else if code = 204 then "No Content"
  else if code = 205 then "Reset Content"
  else if code = 206 then "Partial Content"
  else if code = 207 then "Multi-Status"
  else if code = 208 then "Already Reported"
  else if code = 226 then "IM Used"
  else if code = 300 then "Multiple Choices"
  else if code = 301 then "Moved Permanently"
  else if code = 302 then "Found"
  else if code = 303 then "See Other"
  else if code = 304 then "Not Modified"
  else if code = 305 then "Use Proxy"
  else if code = 307 then "Temporary Redirect"
  else if code = 308 then "Permanent Redirect"
  else if code = 400 then "Bad Request"
  else if code = 401 then "Unauthorized"
  else if code = 402 then "Payment Required"
  else if code = 403 then "Forbidden"
  else if code = 404 then "Not Found"
  else if code = 405 then "Method Not Allowed"
  else if code = 406 then "Not Acceptable"
  else if code = 407 then "Proxy Authentication Required"
  else if code = 408 then "Request Timeout"
  else if code = 409 then "Conflict"
  else if code = 410 then "Gone"
  else if code = 411 then "Length Required"
  else if code = 412 then "Precondition Failed"
  else if code = 413 then "Request Entity Too Large"
  else if code = 414 then "Request URI Too Long"
  else if code = 415 then "Unsupported Media Type"
  else if code = 416 then "Requested Range Not Satisfiable"
  else if code = 417 then "Expectation Failed"
  else if code = 418 then "I'm a teapot"
  else if code = 421 then "Misdirected Request"
  else if code = 422 then "Unprocessable Entity"
  else if code = 423 then "Locked"
  else if code = 424 then "Failed Dependency"
  else if code = 425 then "Too Early"
  else if code = 426 then "Upgrade Required"
  else if code = 428 then "Precondition Required"
  else if code = 429 then "Too Many Requests"
  else if code = 431 then "Request Header Fields Too Large"
  else if code = 451 then "Unavailable For Legal Reasons"
  else if code = 500 then "Internal Server Error"
  else if code = 501 then "Not Implemented"
  else if code = 502 then "Bad Gateway"
  else if code = 503 then "Service Unavailable"
  else if code = 504 then "Gateway Timeout"
  else if code = 505 then "HTTP Version Not Supported"
  else if code = 506 then "Variant Also Negotiates"
  else if code = 507 then "Insufficient Storage"
  else if code = 508 then "Loop Detected"
  else if code = 510 then "Not Extended"
  else if code = 511 then "Network Authentication Required"
  else ""

end http

namespace grpc

/-- A `*status.Status`: the code (`codes.Code`, 0 being `codes.OK`) and the message. -/
structure Status where
  Code : Nat
  Message : String
  deriving DecidableEq, Repr

/-- Method `codes.Code.String`. -/
def codeName (c : Nat) : String :=
  if c = 0 then "OK"
  else if c = 1 then "Canceled"
  else if c = 2 then "Unknown"
  else if c = 3 then "InvalidArgument"
  else if c = 4 then "DeadlineExceeded"
  else if c = 5 then "NotFound"
  else if c = 6 then "AlreadyExists"
  else if c = 7 then "PermissionDenied"
  else if c = 8 then "ResourceExhausted"
  else if c = 9 then "FailedPrecondition"
  else if c = 10 then "Aborted"
  else if c = 11 then "OutOfRange"
  else if c = 12 then "Unimplemented"
  else if c = 13 then "Internal"
  else if c = 14 then "Unavailable"
  else if c = 15 then "DataLoss"
  else if c = 16 then "Unauthenticated"
  else "Code(" ++ Nat.repr c ++ ")"

/-- Function `status.Error(c, msg)`, that is `status.New(c, msg).Err()`: the nil error when
the code is `codes.OK`, else the status error, known by its text. -/
def statusError (c : Nat) (msg : String) : GoError :=
  if c = 0 then .nil
  else .foreignErr ("rpc error: code = " ++ codeName c ++ " desc = " ++ msg)

end grpc

/-! ## errors: conversions -/

namespace exception

/-- The assignment `e.Message = m` through a pointer to `e`. -/
def setMessage : exception → String → exception
  | .mk c s _ d g e, m => .mk c s m d g e

end exception

namespace errors

/-- Function `WithErrors`; `ErrInternal` is the package-level sentinel. -/
def WithErrors (ErrInternal : exception) (err : GoError) : GoError :=
  if err = .nil then .nil
  else
    match asException (Cause err) with
    | none =>
      WithStack (.exc (.mk ErrInternal.Code ErrInternal.Status
        (http.StatusText ErrInternal.Status) [] 0 .nil))
    | some _err => WithStack (.exc (.mk _err.Code _err.Status _err.Message [] 0 .nil))

/-- The package-level sentinel errors that `switchCode` refers to. They are declared outside
the files at hand; each is a pointer to an `exception`, held here by its current value. -/
structure Sentinels where
  ErrInternal : exception
  ErrInvalidInput : exception
  ErrResourceNotFound : exception
  ErrConflict : exception
  ErrNotAllowed : exception
  ErrUnauthorized : exception
  deriving DecidableEq, Repr

/-- The names of the sentinels. -/
inductive SentinelName where
  | ErrInternal
  | ErrInvalidInput
  | ErrResourceNotFound
  | ErrConflict
  | ErrNotAllowed
  | ErrUnauthorized
  deriving DecidableEq, Repr

/-- The `switch` of `switchCode`: the sentinel chosen for a gRPC code. Modelled from the
spec: the constants `Unknown`, `InvalidArgument`, ... of the package are declared outside
the files at hand and are taken to be the gRPC codes of these names. -/
def selectSentinel (code : Nat) : SentinelName :=
  if code = 2 then .ErrInternal            -- Unknown
  else if code = 3 then .ErrInvalidInput   -- InvalidArgument
  else if code = 5 then .ErrResourceNotFound -- NotFound
  else if code = 6 then .ErrConflict       -- AlreadyExists
  else if code = 7 then .ErrNotAllowed     -- PermissionDenied
  else if code = 16 then .ErrUnauthorized  -- Unauthenticated
  else if code = 11 then .ErrInvalidInput  -- OutOfRange
  else if code = 13 then .ErrInternal      -- Internal
  else if code = 15 then .ErrInternal      -- DataLoss
  else .ErrInternal

/-- The exception a sentinel points to. -/
def Sentinels.get (S : Sentinels) : SentinelName → exception
  | .ErrInternal => S.ErrInternal
  | .ErrInvalidInput => S.ErrInvalidInput
  | .ErrResourceNotFound => S.ErrResourceNotFound
  | .ErrConflict => S.ErrConflict
  | .ErrNotAllowed => S.ErrNotAllowed
  | .ErrUnauthorized => S.ErrUnauthorized

/-- A write to the exception a sentinel points to. -/
def Sentinels.set (S : Sentinels) (n : SentinelName) (e : exception) : Sentinels :=
  match n with
  | .ErrInternal => { S with ErrInternal := e }
  | .ErrInvalidInput => { S with ErrInvalidInput := e }
  | .ErrResourceNotFound => { S with ErrResourceNotFound := e }
  | .ErrConflict => { S with ErrConflict := e }
  | .ErrNotAllowed => { S with ErrNotAllowed := e }
  | .ErrUnauthorized => { S with ErrUnauthorized := e }

/-- Function `switchCode`: `httperr` is a copy of the pointer held by the sentinel, so the
assignment `httperr.Message = s.Message()` writes to the sentinel itself, and the error
returned wraps that same exception. The result is the error and the sentinels afterwards. -/
def switchCode (S : Sentinels) (s : grpc.Status) : GoError × Sentinels :=
  let name := selectSentinel s.Code
  let S1 := S.set name ((S.get name).setMessage s.Message)
  (WithStack (.exc (S1.get name)), S1)

/-- Function `ConvertHttpErr`. The library functions `status.Convert` and `json.Unmarshal`
into an `exception` are parameters: `convert` gives the status of an error (`none` for the
nil status) and `unmarshal` the decoded exception, `none` when decoding fails. -/
def ConvertHttpErr (S : Sentinels) (convert : GoError → Option grpc.Status)
    (unmarshal : String → Option exception) (err : GoError) : GoError × Sentinels :=
  if err = .nil then (.nil, S)
  else
    match convert err with
    | none => (.exc S.ErrInternal, S)
    | some s =>
      match unmarshal s.Message with
      | some interErr => (WithStack (.exc interErr), S)
      | none => switchCode S s

/-- Function `ConvertProtoErr`; `marshal` is `json.Marshal` of an `exception`. -/
def ConvertProtoErr (ErrInternal : exception) (marshal : exception → String)
    (err : GoError) : GoError :=
  if err = .nil then .nil
  else
    match asException (Cause err) with
    | none => grpc.statusError ErrInternal.GRPCCode err.Error
    | some _err => grpc.statusError _err.GRPCCode (marshal _err)

end errors

/-! ## trace/time: gRPC metadata -/

namespace traceTime

/-- Function `MetadataTimeFromContext`; `md` is the result of
`metadata.FromIncomingContext(ctx)`, `none` when the context has no incoming metadata. -/
def MetadataTimeFromContext (env : Env) (md : Option Header) : Int :=
  match md with
  | none => NewTime env
  | some m =>
    match m.lookup "x-time" with
    | none => NewTime env
    | some [] => NewTime env
    | some (v :: _) =>
      match strconv.ParseInt v with
      | (_, some _) => NewTime env
      | (n, none) => n

/-- Function `SubMetadataTimeFromContext`. Without incoming metadata `md` is the nil map, in
which the key is not found. In the last branch the statement `milliTime = n` follows the
`if err != nil` and is executed in either case, `n` being the value `strconv.ParseInt`
returned. The subtraction is that of `int64`. -/
def SubMetadataTimeFromContext (env : Env) (md : Option Header) : Int :=
  let milliTimeMeta := (md.getD []).lookup "x-time"
  let milliTime : Int :=
    match milliTimeMeta with
    | none => NewTime env
    | some [] => NewTime env
    | some (v :: _) => (strconv.ParseInt v).1
  wrap64 (NewTime env - milliTime)

end traceTime

/-! ## nats: the closed event -/

namespace nats

/-- The `ClosedHandler` that `NewNatsConn` installs, run by the library when a connection
is fully closed: it logs and calls `waitGroup.Done()`. -/
def closedHandler {σ : Type} (w : World σ) : World σ :=
  { w with
    waitGroup := w.waitGroup - 1
    logs := w.logs ++ [⟨.info, [], .text " nats closed event triggered"⟩] }

end nats

/-! ## time: the text of a duration -/

namespace time

/-- Method `Duration.ISO8601String`: `fmt.Sprintf` with `%d` for each field. -/
def Duration.ISO8601String (d : Duration) : String :=
  "P" ++ strconv.FormatInt d.Years ++ "Y" ++ strconv.FormatInt d.Months ++ "M" ++
    strconv.FormatInt d.Days ++ "DT" ++ strconv.FormatInt d.Hours ++ "H" ++
    strconv.FormatInt d.Minutes ++ "M" ++ strconv.FormatInt d.Seconds ++ "S"

end time

namespace Sample

/-- Values for the sentinels. -/
def sentinels : errors.Sentinels :=
  { ErrInternal := .mk "500000" 500 "internal error" [] 13 .nil
    ErrInvalidInput := .mk "400000" 400 "invalid input" [] 3 .nil
    ErrResourceNotFound := .mk "404000" 404 "resource not found" [] 5 .nil
    ErrConflict := .mk "409000" 409 "conflict" [] 6 .nil
    ErrNotAllowed := .mk "403000" 403 "not allowed" [] 7 .nil
    ErrUnauthorized := .mk "401000" 401 "unauthorized" [] 16 .nil }

/-- A library that accepts the first connect, refuses every later one and accepts every
other request; its state counts the connects. -/
def firstOnly : Transport Nat where
  Connect := fun s _ _ _ _ =>
    (if s = 0 then (some ⟨0⟩, .nil)
      else (none, .foreignErr "nats: no servers available for connection"), s + 1)
  PublishMsg := fun s _ _ => (.nil, s)
  Subscribe := fun s _ _ => (.nil, s)
  QueueSubscribe := fun s _ _ _ => (.nil, s)
  Drain := fun s _ => (.nil, s)

end Sample

/-! # Properties -/

/-! ## C1: the dispatch callback always returns -/

namespace nats

theorem dispatch_result (endpoint : String) (handler : Handler) (env : Env) (msg : Msg) :
    (dispatch endpoint handler env msg).result = .normal () := by
  unfold dispatch dispatchBody recoverLog goRecover
  cases h : handler (handlerContext env endpoint msg) msg with
  | returned err => by_cases he : err = .nil <;> simp [he]
  | panicked r => cases r <;> simp

theorem netAfter_cons {σ : Type} (tr : Transport σ) (conn : Option Conn) (ch : Channel)
    (rest : List Channel) (s : σ) :
    netAfter tr conn (ch :: rest) s =
      netAfter tr conn rest (tr.QueueSubscribe s conn ch.ChannelName ch.GroupName).2 := rfl

theorem registerLoop_spec {σ : Type} (tr : Transport σ) (conn : Option Conn)
    (channels : List Channel) (w : World σ) :
    ((registerLoop tr conn channels w).1 = .nil ∧
      (∀ j ch, channels[j]? = some ch →
        (tr.QueueSubscribe (netAfter tr conn (channels.take j) w.net) conn
          ch.ChannelName ch.GroupName).1 = .nil) ∧
      (registerLoop tr conn channels w).2.events = w.events ++ channels.map okEvent ∧
      (registerLoop tr conn channels w).2.subs = w.subs ++ channels.map regOf ∧
      (registerLoop tr conn channels w).2.net = netAfter tr conn channels w.net) ∨
    (∃ i chi, channels[i]? = some chi ∧
      (registerLoop tr conn channels w).1 ≠ .nil ∧
      (registerLoop tr conn channels w).1 =
        (tr.QueueSubscribe (netAfter tr conn (channels.take i) w.net) conn
          chi.ChannelName chi.GroupName).1 ∧
      (∀ j ch, j < i → channels[j]? = some ch →
        (tr.QueueSubscribe (netAfter tr conn (channels.take j) w.net) conn
          ch.ChannelName ch.GroupName).1 = .nil) ∧
      (registerLoop tr conn channels w).2.events =
        w.events ++ (channels.take i).map okEvent ++
          [.queueSubscribe chi.ChannelName chi.GroupName (registerLoop tr conn channels w).1] ∧
      (registerLoop tr conn channels w).2.subs = w.subs ++ (channels.take i).map regOf ∧
      (registerLoop tr conn channels w).2.net =
        netAfter tr conn (channels.take (i + 1)) w.net) := by
  induction channels generalizing w with
  | nil => left; simp [registerLoop, netAfter]
  | cons ch rest ih =>
    rcases hq : tr.QueueSubscribe w.net conn ch.ChannelName ch.GroupName with ⟨err, net1⟩
    by_cases he : err = .nil
    · subst he
      have hstep : registerLoop tr conn (ch :: rest) w =
          registerLoop tr conn rest { w with
            net := net1
            logs := w.logs ++ [⟨.info, [], .text ("Register channel: " ++ ch.ChannelName)⟩]
            events := w.events ++ [okEvent ch]
            subs := w.subs ++ [regOf ch] } := by
        simp [registerLoop, hq, okEvent, regOf]
      rw [hstep]
      rcases ih _ with ⟨h1, hf, h2, h3, h4⟩ | ⟨i, chi, hget, h1, hr, hf, h2, h3, h4⟩
      · left
        refine ⟨h1, ?_, ?_, ?_, ?_⟩
        · intro j ch1 hj
          cases j with
          | zero =>
            simp only [List.getElem?_cons_zero, Option.some.injEq] at hj
            subst hj
            simp [netAfter, hq]
          | succ j =>
            simp only [List.getElem?_cons_succ] at hj
            simpa [netAfter_cons, hq] using hf j ch1 hj
        · simpa using h2
        · simpa using h3
        · simpa [netAfter_cons, hq] using h4
      · right
        refine ⟨i + 1, chi, by simpa using hget, h1, ?_, ?_, ?_, ?_, ?_⟩
        · simpa [netAfter_cons, hq] using hr
        · intro j ch1 hji hj
          cases j with
          | zero =>
            simp only [List.getElem?_cons_zero, Option.some.injEq] at hj
            subst hj
            simp [netAfter, hq]
          | succ j =>
            simp only [List.getElem?_cons_succ] at hj
            simpa [netAfter_cons, hq] using hf j ch1 (by omega) hj
        · simpa using h2
        · simpa using h3
        · simpa [netAfter_cons, hq] using h4
    · right
      refine ⟨0, ch, by simp, ?_, ?_, ?_, ?_, ?_, ?_⟩ <;>
        simp [registerLoop, hq, he, netAfter]

/-- C1: whatever the handler does with a message (it returns nil, it returns an error, or
it panics), the dispatch callback returns normally, and every callback that `Sub` or
`RegisterChannel` adds to the subscriptions in place is such a callback, so nothing
propagates to the delivery path of the library. -/
theorem dispatch_callback_completes {σ : Type} (tr : Transport σ) (c : Client) (w : World σ)
    (topic : String) (handler : Handler) (channels : List Channel) :
    (∀ env msg, (dispatch topic handler env msg).result = .normal ()) ∧
    (∃ added, (Sub tr c topic handler w).2.subs = w.subs ++ added ∧
      ∀ r ∈ added, ∀ env msg, (r.cb env msg).result = .normal ()) ∧
    (∃ added, (RegisterChannel tr c channels w).2.2.subs = w.subs ++ added ∧
      ∀ r ∈ added, ∀ env msg, (r.cb env msg).result = .normal ()) := by
  refine ⟨fun env msg => dispatch_result topic handler env msg, ?_, ?_⟩
  · rcases hs : tr.Subscribe w.net c.natsConn topic with ⟨err, net1⟩
    by_cases he : err = .nil
    · refine ⟨[⟨topic, "", dispatch topic handler⟩], by simp [Sub, hs, he], ?_⟩
      intro r hr env msg
      rw [List.mem_singleton.mp hr]
      exact dispatch_result topic handler env msg
    · exact ⟨[], by simp [Sub, hs, he], by simp⟩
  · have hall : ∀ l : List Channel, ∀ r ∈ l.map regOf, ∀ env msg,
        (r.cb env msg).result = .normal () := by
      intro l r hr env msg
      obtain ⟨ch, -, rfl⟩ := List.mem_map.mp hr
      exact dispatch_result ch.ChannelName ch.Handler env msg
    rcases registerLoop_spec tr c.natsConn channels w with
      ⟨-, -, -, h3, -⟩ | ⟨i, chi, -, -, -, -, -, h3, -⟩
    · exact ⟨channels.map regOf, by simpa [RegisterChannel] using h3, hall channels⟩
    · exact ⟨(channels.take i).map regOf, by simpa [RegisterChannel] using h3, hall _⟩

/-! ## C2: a failed connect -/

/-- C2: at a configuration whose servers cannot be reached, the connect of the library
fails, yet `NewNatsConn` returns the nil connection with a nil error and `NewClient`
returns a client, holding the nil connection, with a nil error. -/
theorem NewClient_connect_refused :
    (Sample.refusing.Connect () "nats://10.0.0.1:4222,nats://10.0.0.2:4222" "orders" "svc"
        "pw").1 = (none, .foreignErr "nats: no servers available for connection") ∧
    (NewNatsConn Sample.refusing Sample.env Sample.config (Sample.world ())).1 = (none, .nil) ∧
    (NewClient Sample.refusing Sample.env Sample.config (Sample.world ())).1.2 = .nil ∧
    (NewClient Sample.refusing Sample.env Sample.config (Sample.world ())).1.1.map
        (fun cl => cl.natsConn) = some none ∧
    (NewClient Sample.refusing Sample.env Sample.config (Sample.world ())).2.2.events =
      [.connect "nats://10.0.0.1:4222,nats://10.0.0.2:4222" "orders" "svc" "pw"
        (.foreignErr "nats: no servers available for connection")] := by
  refine ⟨rfl, ?_, ?_, ?_, ?_⟩ <;> decide

/-! ## C3: batch registration -/

/-- C3: `RegisterChannel` requests the queue subscriptions in list order. Either the library
accepts every request, then it returns nil and each channel has been subscribed once, in
order; or the request for some index `i` is the first one the library refuses, then it
returns that refusal, the channels before `i` are subscribed, in order and none removed, and
the library has been asked about the channels up to `i` and about no later one. -/
theorem RegisterChannel_stops_at_first_failure {σ : Type} (tr : Transport σ) (c : Client)
    (channels : List Channel) (w : World σ) :
    ((RegisterChannel tr c channels w).1 = .nil ∧
      (∀ j ch, channels[j]? = some ch →
        (tr.QueueSubscribe (netAfter tr c.natsConn (channels.take j) w.net) c.natsConn
          ch.ChannelName ch.GroupName).1 = .nil) ∧
      (RegisterChannel tr c channels w).2.2.events = w.events ++ channels.map okEvent ∧
      (RegisterChannel tr c channels w).2.2.subs = w.subs ++ channels.map regOf ∧
      (RegisterChannel tr c channels w).2.2.net = netAfter tr c.natsConn channels w.net) ∨
    (∃ i chi, channels[i]? = some chi ∧
      (RegisterChannel tr c channels w).1 ≠ .nil ∧
      (RegisterChannel tr c channels w).1 =
        (tr.QueueSubscribe (netAfter tr c.natsConn (channels.take i) w.net) c.natsConn
          chi.ChannelName chi.GroupName).1 ∧
      (∀ j ch, j < i → channels[j]? = some ch →
        (tr.QueueSubscribe (netAfter tr c.natsConn (channels.take j) w.net) c.natsConn
          ch.ChannelName ch.GroupName).1 = .nil) ∧
      (RegisterChannel tr c channels w).2.2.events =
        w.events ++ (channels.take i).map okEvent ++
          [.queueSubscribe chi.ChannelName chi.GroupName
            (RegisterChannel tr c channels w).1] ∧
      (RegisterChannel tr c channels w).2.2.subs = w.subs ++ (channels.take i).map regOf ∧
      (RegisterChannel tr c channels w).2.2.net =
        netAfter tr c.natsConn (channels.take (i + 1)) w.net) := by
  simpa [RegisterChannel] using registerLoop_spec tr c.natsConn channels w

end nats

/-! ## The header map -/

theorem Header.lookup_set (h : Header) (k : String) (v : List String) (q : String) :
    List.lookup q (Header.set h k v) = if q = k then some v else List.lookup q h := by
  induction h with
  | nil =>
    by_cases hq : q = k
    · simp [Header.set, List.lookup, hq]
    · have hb : (q == k) = false := by simpa using hq
      simp [Header.set, List.lookup, hq, hb]
  | cons kv rest ih =>
    obtain ⟨k0, v0⟩ := kv
    by_cases h0 : k0 = k
    · subst h0
      by_cases hq : q = k0
      · simp [Header.set, List.lookup, hq]
      · have hb : (q == k0) = false := by simpa using hq
        simp [Header.set, List.lookup, hq, hb]
    · by_cases hq0 : q = k0
      · subst hq0
        simp [Header.set, List.lookup, h0]
      · have hb : (q == k0) = false := by simpa using hq0
        simp [Header.set, List.lookup, h0, hb, ih]

theorem Header.mem_keys_set (h : Header) (k : String) (v : List String) (q : String) :
    q ∈ Header.keys (Header.set h k v) ↔ q = k ∨ q ∈ Header.keys h := by
  induction h with
  | nil => simp [Header.set, Header.keys]
  | cons kv rest ih =>
    obtain ⟨k0, v0⟩ := kv
    by_cases h0 : k0 = k
    · subst h0
      simp [Header.set, Header.keys]
    · have ih1 : q ∈ List.map Prod.fst (Header.set rest k v) ↔ q = k ∨ q ∈ List.map Prod.fst rest := ih
      simp only [Header.set, h0, if_false, Header.keys, List.map_cons, List.mem_cons, ih1]
      tauto

theorem Header.nodup_keys_set (h : Header) (k : String) (v : List String)
    (hn : (Header.keys h).Nodup) : (Header.keys (Header.set h k v)).Nodup := by
  induction h with
  | nil => simp [Header.set, Header.keys]
  | cons kv rest ih =>
    obtain ⟨k0, v0⟩ := kv
    have hn1 : k0 ∉ Header.keys rest ∧ (Header.keys rest).Nodup := by
      simpa [Header.keys] using hn
    by_cases h0 : k0 = k
    · subst h0
      simpa [Header.set, Header.keys] using hn
    · have hk : k0 ∉ Header.keys (Header.set rest k v) := by
        rw [Header.mem_keys_set]
        push_neg
        exact ⟨h0, hn1.1⟩
      have := ih hn1.2
      simp only [Header.set, h0, if_false]
      exact List.nodup_cons.mpr ⟨hk, this⟩

/-- Assigning every entry of `H` over `base`, in list order. -/
theorem Header.lookup_assignAll_of_not_mem (H base : Header) (q : String)
    (hq : q ∉ Header.keys H) :
    List.lookup q (H.foldl (fun h kv => Header.set h kv.1 kv.2) base) = List.lookup q base := by
  induction H generalizing base with
  | nil => rfl
  | cons kv rest ih =>
    have h1 : q ≠ kv.1 ∧ q ∉ Header.keys rest := by
      simpa [Header.keys] using hq
    rw [List.foldl_cons, ih _ h1.2, Header.lookup_set]
    simp [h1.1]

theorem Header.lookup_assignAll_of_mem (H base : Header) (hn : (Header.keys H).Nodup)
    (k : String) (v : List String) (hkv : (k, v) ∈ H) :
    List.lookup k (H.foldl (fun h kv => Header.set h kv.1 kv.2) base) = some v := by
  induction H generalizing base with
  | nil => simp at hkv
  | cons kv rest ih =>
    have hn1 : kv.1 ∉ Header.keys rest ∧ (Header.keys rest).Nodup := by
      simpa [Header.keys] using hn
    rw [List.foldl_cons]
    rcases List.mem_cons.mp hkv with heq | hmem
    · subst heq
      rw [Header.lookup_assignAll_of_not_mem _ _ _ hn1.1, Header.lookup_set]
      simp
    · exact ih _ hn1.2 hmem

theorem Header.mem_keys_assignAll (H base : Header) (q : String) :
    q ∈ Header.keys (H.foldl (fun h kv => Header.set h kv.1 kv.2) base) ↔
      q ∈ Header.keys H ∨ q ∈ Header.keys base := by
  induction H generalizing base with
  | nil => simp [Header.keys]
  | cons kv rest ih =>
    rw [List.foldl_cons, ih, Header.mem_keys_set]
    simp only [Header.keys, List.map_cons, List.mem_cons]
    tauto

theorem Header.nodup_keys_assignAll (H base : Header) (hb : (Header.keys base).Nodup) :
    (Header.keys (H.foldl (fun h kv => Header.set h kv.1 kv.2) base)).Nodup := by
  induction H generalizing base with
  | nil => simpa using hb
  | cons kv rest ih =>
    rw [List.foldl_cons]
    exact ih _ (Header.nodup_keys_set _ _ _ hb)

namespace nats
open strconv

/-! ## C4: the headers `Pub` sends -/

/-- C4: for every context and every caller header map (a map has no key twice; the list
gives the order in which `range` visits it), the message `Pub` hands to the library carries
a header map whose keys are those of the caller map together with `request_id` and `time`;
every caller entry is kept with the caller value, and a reserved key the caller does not use
holds the one-element list of `FromContext(ctx)`, respectively of the base-10 text of
`GetFromContext(ctx)`. -/
theorem Pub_header_merge {σ : Type} (tr : Transport σ) (E : exception) (env : Env)
    (c : Client) (ctx : Context) (subject : String) (H : Header) (data : List Nat)
    (w : World σ) (hmap : (Header.keys H).Nodup) :
    (∃ err, (Pub tr E env c ctx subject H data w).2.events =
      w.events ++ [.publishMsg ⟨subject, pubHeader env ctx H, data⟩ err]) ∧
    (Header.keys (pubHeader env ctx H)).Nodup ∧
    (∀ k, k ∈ Header.keys (pubHeader env ctx H) ↔
      k ∈ Header.keys H ∨ k = "request_id" ∨ k = "time") ∧
    (∀ k v, (k, v) ∈ H → (pubHeader env ctx H).lookup k = some v) ∧
    ("request_id" ∉ Header.keys H →
      (pubHeader env ctx H).lookup "request_id" = some [traceRequestID.FromContext env ctx]) ∧
    ("time" ∉ Header.keys H →
      (pubHeader env ctx H).lookup "time" =
        some [FormatInt (traceTime.GetFromContext env ctx)]) := by
  refine ⟨?_, ?_, ?_, ?_, ?_, ?_⟩
  · have hm : (⟨subject, pubHeader env ctx H, data⟩ : Msg) = pubMsg env ctx subject H data :=
      rfl
    rw [hm]
    refine ⟨(tr.PublishMsg w.net c.natsConn (pubMsg env ctx subject H data)).1, ?_⟩
    by_cases he : (tr.PublishMsg w.net c.natsConn (pubMsg env ctx subject H data)).1 = .nil <;>
      simp [Pub, he]
  · exact Header.nodup_keys_assignAll _ _ (by simp [Header.keys])
  · intro k
    unfold pubHeader
    rw [Header.mem_keys_assignAll]
    simp [Header.keys]
  · intro k v hkv
    exact Header.lookup_assignAll_of_mem H _ hmap k v hkv
  · intro hk
    unfold pubHeader
    rw [Header.lookup_assignAll_of_not_mem _ _ _ hk]
    simp [List.lookup]
  · intro hk
    unfold pubHeader
    rw [Header.lookup_assignAll_of_not_mem _ _ _ hk]
    simp [List.lookup]

theorem Pub_header_merge_witness :
    (Header.keys [("trace", ["on"]), ("time", ["17"])]).Nodup ∧
    (pubHeader Sample.env Sample.ctx [("trace", ["on"]), ("time", ["17"])]).lookup "time" =
      some ["17"] ∧
    (pubHeader Sample.env Sample.ctx [("trace", ["on"]), ("time", ["17"])]).lookup
      "request_id" = some ["req-7"] :=
  have h := Pub_header_merge Sample.flaky Sample.ErrInternal Sample.env Sample.client
    Sample.ctx "orders.created" [("trace", ["on"]), ("time", ["17"])] [123, 125]
    (Sample.world 0) (by decide)
  ⟨by decide, h.2.2.2.1 "time" ["17"] (by decide), (h.2.2.2.2.1 (by decide)).trans (by decide)⟩

/-! ## The callbacks in place -/

/-- The dispatch callback logs the inbound message, calls the handler once, with the context
`handlerContext` builds and the message, and ends as the result of that call prescribes. -/
theorem dispatch_runWith (endpoint : String) (handler : Handler) (env : Env) (msg : Msg) :
    dispatch endpoint handler env msg =
      runWith env endpoint msg (handler (handlerContext env endpoint msg) msg) := by
  unfold dispatch dispatchBody runWith recoverLog goRecover
  cases h : handler (handlerContext env endpoint msg) msg with
  | returned err => by_cases he : err = .nil <;> simp [he]
  | panicked r => cases r <;> simp

/-- The callback `Sub` puts in place, when the library accepts the subscription, is the
dispatch callback of the topic and the handler. -/
theorem Sub_added {σ : Type} (tr : Transport σ) (c : Client) (topic : String)
    (handler : Handler) (w : World σ) :
    ∃ added, (Sub tr c topic handler w).2.subs = w.subs ++ added ∧
      ((tr.Subscribe w.net c.natsConn topic).1 = .nil → added.length = 1) ∧
      ∀ reg ∈ added, reg.cb = dispatch topic handler := by
  rcases hs : tr.Subscribe w.net c.natsConn topic with ⟨err, net1⟩
  by_cases he : err = .nil
  · refine ⟨[⟨topic, "", dispatch topic handler⟩], by simp [Sub, hs, he], fun _ => rfl, ?_⟩
    intro reg hreg
    rw [List.mem_singleton.mp hreg]
  · exact ⟨[], by simp [Sub, hs, he], fun h => absurd h he, by simp⟩

/-- The callbacks `RegisterChannel` puts in place are the dispatch callbacks of channels of
the list, one for each channel when no error is returned. -/
theorem RegisterChannel_added {σ : Type} (tr : Transport σ) (c : Client)
    (channels : List Channel) (w : World σ) :
    ∃ added, (RegisterChannel tr c channels w).2.2.subs = w.subs ++ added ∧
      ((RegisterChannel tr c channels w).1 = .nil → added.length = channels.length) ∧
      ∀ reg ∈ added, ∃ ch ∈ channels, reg.cb = dispatch ch.ChannelName ch.Handler := by
  have hall : ∀ l : List Channel, (∀ ch ∈ l, ch ∈ channels) → ∀ reg ∈ l.map regOf,
      ∃ ch ∈ channels, reg.cb = dispatch ch.ChannelName ch.Handler := by
    intro l hl reg hreg
    obtain ⟨ch, hch, rfl⟩ := List.mem_map.mp hreg
    exact ⟨ch, hl ch hch, rfl⟩
  rcases registerLoop_spec tr c.natsConn channels w with
    ⟨-, -, -, h3, -⟩ | ⟨i, chi, -, hne, -, -, -, h3, -⟩
  · exact ⟨channels.map regOf, by simpa [RegisterChannel] using h3, fun _ => by simp,
      hall channels fun _ h => h⟩
  · refine ⟨(channels.take i).map regOf, by simpa [RegisterChannel] using h3, ?_,
      hall _ fun _ h => List.mem_of_mem_take h⟩
    intro h
    exact absurd (by simpa [RegisterChannel] using h) hne

/-! ## C5: round trip of the request id -/

theorem roundTrip_value (h : Hop) (ctx : Context) (r : String)
    (hr : ctx.Value .ctxKeyXRequestID = some (.str r)) :
    (roundTrip h ctx).Value .ctxKeyXRequestID = some (.str r) := by
  have hf : traceRequestID.FromContext h.pubEnv ctx = r := by
    simp [traceRequestID.FromContext, hr]
  have e1 : (CtxKey.foreign "zerolog" == CtxKey.ctxKeyXRequestID) = false := by decide
  have e2 : (CtxKey.ctxKeyXTime == CtxKey.ctxKeyXRequestID) = false := by decide
  simp [roundTrip, handlerContext, pubMsg, pubHeader, extractRequestID, Header.get,
    List.lookup, hf, Context.Value, Context.WithValue, traceTime.ContextWithTime,
    traceRequestID.ContextWithXRequestID, List.find?, e1, e2]

/-- C5: let a context carry the request id `r`. `Pub`, called with it and no extra headers,
hands one message to the library. A callback that `Sub` or `RegisterChannel` put in place,
run on that message, calls its handler with the context `roundTrip` of the trip, and
`FromContext` reads `r` from that context; it still reads `r` from the context of the
handler at the end of any further sequence of such trips. -/
theorem request_id_round_trip {σ : Type} (tr : Transport σ) (E : exception) (c : Client)
    (w w1 : World σ) (handler : Handler) (channels : List Channel)
    (ctx : Context) (r : String) (h : Hop) (more : List Hop) (env : Env)
    (hr : ctx.Value .ctxKeyXRequestID = some (.str r)) :
    (Pub tr E h.pubEnv c ctx h.subject [] h.data w).2.events =
      w.events ++ [.publishMsg (pubMsg h.pubEnv ctx h.subject [] h.data)
        (tr.PublishMsg w.net c.natsConn (pubMsg h.pubEnv ctx h.subject [] h.data)).1] ∧
    (∃ added, (Sub tr c h.endpoint handler w1).2.subs = w1.subs ++ added ∧
      ((tr.Subscribe w1.net c.natsConn h.endpoint).1 = .nil → added.length = 1) ∧
      ∀ reg ∈ added, reg.cb h.subEnv (pubMsg h.pubEnv ctx h.subject [] h.data) =
        runWith h.subEnv h.endpoint (pubMsg h.pubEnv ctx h.subject [] h.data)
          (handler (roundTrip h ctx) (pubMsg h.pubEnv ctx h.subject [] h.data))) ∧
    (∃ added, (RegisterChannel tr c channels w1).2.2.subs = w1.subs ++ added ∧
      ((RegisterChannel tr c channels w1).1 = .nil → added.length = channels.length) ∧
      ∀ reg ∈ added, ∃ ch ∈ channels,
        reg.cb h.subEnv (pubMsg h.pubEnv ctx h.subject [] h.data) =
          runWith h.subEnv ch.ChannelName (pubMsg h.pubEnv ctx h.subject [] h.data)
            (ch.Handler (roundTrip { h with endpoint := ch.ChannelName } ctx)
              (pubMsg h.pubEnv ctx h.subject [] h.data))) ∧
    (∀ hop : Hop, traceRequestID.FromContext env (roundTrip hop ctx) = r) ∧
    traceRequestID.FromContext env
      (more.foldl (fun c hop => roundTrip hop c) (roundTrip h ctx)) = r := by
  have key : ∀ (l : List Hop) (c0 : Context), c0.Value .ctxKeyXRequestID = some (.str r) →
      (l.foldl (fun c hop => roundTrip hop c) c0).Value .ctxKeyXRequestID = some (.str r) := by
    intro l
    induction l with
    | nil => intro c0 h0; simpa using h0
    | cons hop rest ih =>
      intro c0 h0
      rw [List.foldl_cons]
      exact ih _ (roundTrip_value hop c0 r h0)
  have h1 := roundTrip_value h ctx r hr
  refine ⟨?_, ?_, ?_, ?_, ?_⟩
  · by_cases he : (tr.PublishMsg w.net c.natsConn
        (pubMsg h.pubEnv ctx h.subject [] h.data)).1 = .nil <;> simp [Pub, he]
  · obtain ⟨added, hsubs, hlen, hcb⟩ := Sub_added tr c h.endpoint handler w1
    refine ⟨added, hsubs, hlen, ?_⟩
    intro reg hreg
    rw [hcb reg hreg, dispatch_runWith]
    rfl
  · obtain ⟨added, hsubs, hlen, hcb⟩ := RegisterChannel_added tr c channels w1
    refine ⟨added, hsubs, hlen, ?_⟩
    intro reg hreg
    obtain ⟨ch, hch, hreg1⟩ := hcb reg hreg
    refine ⟨ch, hch, ?_⟩
    rw [hreg1, dispatch_runWith]
    rfl
  · intro hop
    simp [traceRequestID.FromContext, roundTrip_value hop ctx r hr]
  · simp [traceRequestID.FromContext, key more _ h1]

theorem request_id_round_trip_witness :
    (traceRequestID.ContextWithXRequestID Context.Background "req-7").Value
      .ctxKeyXRequestID = some (.str "req-7") ∧
    traceRequestID.FromContext Sample.env
      (roundTrip ⟨Sample.env, Sample.env, "orders.created", "orders.created", [123, 125]⟩
        (traceRequestID.ContextWithXRequestID Context.Background "req-7")) = "req-7" :=
  ⟨by decide,
   (request_id_round_trip Sample.flaky Sample.ErrInternal Sample.client (Sample.world 0)
      (Sample.world 0) Sample.okHandler Sample.channels
      (traceRequestID.ContextWithXRequestID Context.Background "req-7")
      "req-7" ⟨Sample.env, Sample.env, "orders.created", "orders.created", [123, 125]⟩ []
      Sample.env (by decide)).2.2.2.1
      ⟨Sample.env, Sample.env, "orders.created", "orders.created", [123, 125]⟩⟩

end nats

/-! ## Numerals -/

namespace strconv

theorem digitVal_of_isDigit (c : Char) (h : IsDigit c) :
    digitVal c = some (c.toNat - '0'.toNat) := by
  unfold digitVal
  exact if_pos h

theorem le_decimalValue (n : Nat) (ds : List Char) : n ≤ decimalValue n ds := by
  induction ds generalizing n with
  | nil => simp [decimalValue]
  | cons c cs ih =>
    have := ih (n * 10 + (c.toNat - '0'.toNat))
    simp only [decimalValue, List.foldl_cons] at this ⊢
    omega

theorem parseUintLoop_digits (ds : List Char) (n : Nat) (hd : ∀ c ∈ ds, IsDigit c)
    (hr : decimalValue n ds < 2 ^ 64) :
    parseUintLoop n ds = (decimalValue n ds, none) := by
  induction ds generalizing n with
  | nil => simp [parseUintLoop, decimalValue]
  | cons c cs ih =>
    have hc : IsDigit c := hd c (List.mem_cons_self _ _)
    have hcs : ∀ c ∈ cs, IsDigit c := fun x hx => hd x (List.mem_cons_of_mem _ hx)
    have hstep : decimalValue n (c :: cs) = decimalValue (n * 10 + (c.toNat - '0'.toNat)) cs := by
      simp [decimalValue]
    have hle := le_decimalValue (n * 10 + (c.toNat - '0'.toNat)) cs
    rw [hstep] at hr ⊢
    have hlt : n * 10 + (c.toNat - '0'.toNat) < 2 ^ 64 := lt_of_le_of_lt hle hr
    have hmod : (n * 10 + (c.toNat - '0'.toNat)) % 2 ^ 64 = n * 10 + (c.toNat - '0'.toNat) :=
      Nat.mod_eq_of_lt hlt
    have h1 : ¬ (n ≥ maxUint64 / 10 + 1) := by
      simp only [maxUint64] at *
      omega
    have h2 : ¬ (n * 10 + (c.toNat - '0'.toNat) < n * 10 ∨
        n * 10 + (c.toNat - '0'.toNat) > maxUint64) := by
      simp only [maxUint64] at *
      omega
    simp only [parseUintLoop, digitVal_of_isDigit c hc, hmod, if_neg h1, if_neg h2]
    exact ih _ hcs hr

theorem ParseUint_digits (ds : List Char) (hne : ds ≠ []) (hd : ∀ c ∈ ds, IsDigit c)
    (hr : decimalValue 0 ds < 2 ^ 64) : ParseUint ds = (decimalValue 0 ds, none) := by
  cases ds with
  | nil => exact absurd rfl hne
  | cons c cs => exact parseUintLoop_digits (c :: cs) 0 hd hr

theorem ParseInt_of_numeral (s : String) (n : Int) (h : IsInt64Numeral s n) :
    ParseInt s = (n, none) := by
  obtain ⟨sign, ds, hs, hsign, hne, hd, hn, hlo, hhi⟩ := h
  obtain ⟨c, cs, rfl⟩ := List.exists_cons_of_ne_nil hne
  have hc : IsDigit c := hd c (List.mem_cons_self _ _)
  have hcp : c ≠ '+' := by rintro rfl; exact absurd hc (by decide)
  have hcm : c ≠ '-' := by rintro rfl; exact absurd hc (by decide)
  rcases hsign with rfl | rfl | rfl
  · have hv : decimalValue 0 (c :: cs) < 2 ^ 63 := by
      simp at hn; omega
    have hu := ParseUint_digits (c :: cs) hne hd (by omega)
    simp only [List.nil_append] at hs
    simp only [ParseInt, hs, hcp, hcm, beq_iff_eq, or_self, if_false, hu]
    simp [hn]
    omega
  · have hv : decimalValue 0 (c :: cs) < 2 ^ 63 := by
      simp at hn; omega
    have hu := ParseUint_digits (c :: cs) hne hd (by omega)
    simp only [List.singleton_append] at hs
    simp [ParseInt, hs, hu, hn]
    omega
  · have hv : decimalValue 0 (c :: cs) ≤ 2 ^ 63 := by
      simp at hn; omega
    have hu := ParseUint_digits (c :: cs) hne hd (by omega)
    simp only [List.singleton_append] at hs
    simp [ParseInt, hs, hu, hn]
    omega

end strconv

namespace nats
open strconv

/-! ## C6: extraction of well-formed trace headers -/

theorem handlerContext_request_id (env env1 : Env) (endpoint : String) (msg : Msg) :
    traceRequestID.FromContext env1 (handlerContext env endpoint msg) =
      extractRequestID msg := by
  have e1 : (CtxKey.foreign "zerolog" == CtxKey.ctxKeyXRequestID) = false := by decide
  have e2 : (CtxKey.ctxKeyXTime == CtxKey.ctxKeyXRequestID) = false := by decide
  simp [traceRequestID.FromContext, handlerContext, Context.Value, Context.WithValue,
    traceTime.ContextWithTime, traceRequestID.ContextWithXRequestID, List.find?, e1, e2]

theorem handlerContext_time (env env1 : Env) (endpoint : String) (msg : Msg) :
    traceTime.GetFromContext env1 (handlerContext env endpoint msg) = extractTime msg := by
  have e1 : (CtxKey.foreign "zerolog" == CtxKey.ctxKeyXTime) = false := by decide
  simp [traceTime.GetFromContext, handlerContext, Context.Value, Context.WithValue,
    traceTime.ContextWithTime, traceRequestID.ContextWithXRequestID, List.find?, e1]

/-- C6: when the header `request_id` of an inbound message has a first value `rid` and the
first value of its header `time` is a well-formed base-10 numeral of the int64 `n`, every
callback that `Sub` or `RegisterChannel` put in place, run on that message, calls its
handler with a context that carries the request id `rid` and the time `n`: the context
`handlerContext` builds for the endpoint. -/
theorem callback_context_of_wellformed_headers {σ : Type} (tr : Transport σ) (c : Client)
    (w : World σ) (topic : String) (handler : Handler) (channels : List Channel)
    (env env1 : Env) (msg : Msg)
    (rid : String) (rids : List String) (s : String) (ss : List String) (n : Int)
    (hrid : msg.Header.get "request_id" = rid :: rids)
    (htime : msg.Header.get "time" = s :: ss) (hnum : IsInt64Numeral s n) :
    (∀ endpoint : String,
      traceRequestID.FromContext env1 (handlerContext env endpoint msg) = rid ∧
      traceTime.GetFromContext env1 (handlerContext env endpoint msg) = n) ∧
    (∀ (endpoint : String) (hd : Handler), dispatch endpoint hd env msg =
      runWith env endpoint msg (hd (handlerContext env endpoint msg) msg)) ∧
    (∃ added, (Sub tr c topic handler w).2.subs = w.subs ++ added ∧
      ((tr.Subscribe w.net c.natsConn topic).1 = .nil → added.length = 1) ∧
      ∀ reg ∈ added, reg.cb env msg =
        runWith env topic msg (handler (handlerContext env topic msg) msg)) ∧
    (∃ added, (RegisterChannel tr c channels w).2.2.subs = w.subs ++ added ∧
      ((RegisterChannel tr c channels w).1 = .nil → added.length = channels.length) ∧
      ∀ reg ∈ added, ∃ ch ∈ channels, reg.cb env msg =
        runWith env ch.ChannelName msg
          (ch.Handler (handlerContext env ch.ChannelName msg) msg)) := by
  refine ⟨?_, ?_, ?_, ?_⟩
  · intro endpoint
    rw [handlerContext_request_id, handlerContext_time]
    constructor
    · simp [extractRequestID, hrid]
    · simp [extractTime, htime, ParseInt_of_numeral s n hnum]
  · intro endpoint hd
    exact dispatch_runWith endpoint hd env msg
  · obtain ⟨added, hsubs, hlen, hcb⟩ := Sub_added tr c topic handler w
    refine ⟨added, hsubs, hlen, ?_⟩
    intro reg hreg
    rw [hcb reg hreg, dispatch_runWith]
  · obtain ⟨added, hsubs, hlen, hcb⟩ := RegisterChannel_added tr c channels w
    refine ⟨added, hsubs, hlen, ?_⟩
    intro reg hreg
    obtain ⟨ch, hch, hreg1⟩ := hcb reg hreg
    exact ⟨ch, hch, by rw [hreg1, dispatch_runWith]⟩

theorem callback_context_of_wellformed_headers_witness :
    Sample.traced.Header.get "request_id" = ["req-7", "req-8"] ∧
    Sample.traced.Header.get "time" = ["1700000000123"] ∧
    IsInt64Numeral "1700000000123" 1700000000123 ∧
    traceRequestID.FromContext Sample.env
      (handlerContext Sample.env "orders.created" Sample.traced) = "req-7" ∧
    traceTime.GetFromContext Sample.env
      (handlerContext Sample.env "orders.created" Sample.traced) = 1700000000123 :=
  have hnum : IsInt64Numeral "1700000000123" 1700000000123 :=
    ⟨[], "1700000000123".data, rfl, Or.inl rfl, by decide, by decide, by decide, by decide,
      by decide⟩
  ⟨by decide, by decide, hnum,
    (callback_context_of_wellformed_headers Sample.flaky Sample.client (Sample.world 0)
      "orders.created" Sample.okHandler Sample.channels Sample.env Sample.env Sample.traced
      "req-7" ["req-8"] "1700000000123" [] 1700000000123 (by decide) (by decide) hnum).1
      "orders.created"⟩

/-! ## C7 and C8: absent or malformed trace headers -/

/-- C7: for the inbound message without headers, the request id that `FromContext` reads in
the handler is the empty string, not the identifier the generator would supply. -/
theorem missing_request_id_yields_empty :
    Sample.bare.Header.get "request_id" = [] ∧
    traceRequestID.FromContext Sample.env
      (handlerContext Sample.env "orders.created" Sample.bare) = "" ∧
    traceRequestID.NewRequestID Sample.env = "3f2b8c1e-5d4a-4c6b-9e7f-0a1b2c3d4e5f" := by
  refine ⟨?_, ?_, ?_⟩ <;> decide

/-- C8: for the inbound message without headers the time in the handler context is 0, while
the clock reads 1700000000123 ms; a non-numeric `time` gives 0 as well, and a `time` beyond
the int64 range gives the largest int64, which differs from the value for an absent one. -/
theorem missing_time_yields_zero :
    traceTime.NewTime Sample.env = 1700000000123 ∧
    traceTime.GetFromContext Sample.env
      (handlerContext Sample.env "orders.created" Sample.bare) = 0 ∧
    traceTime.GetFromContext Sample.env
      (handlerContext Sample.env "orders.created"
        ⟨"orders.created", [("time", ["soon"])], []⟩) = 0 ∧
    traceTime.GetFromContext Sample.env
      (handlerContext Sample.env "orders.created"
        ⟨"orders.created", [("time", ["99999999999999999999"])], []⟩) =
      9223372036854775807 := by
  refine ⟨?_, ?_, ?_, ?_⟩ <;> decide

/-! ## C9: a failed publish -/

theorem Pub_failure {σ : Type} (tr : Transport σ) (E : exception) (env : Env)
    (c : Client) (ctx : Context) (subject : String) (H : Header) (data : List Nat)
    (w : World σ)
    (he : (tr.PublishMsg w.net c.natsConn (pubMsg env ctx subject H data)).1 ≠ .nil) :
    (Pub tr E env c ctx subject H data w).1 =
      .exc (E.withInner (.withStack (.withMessage (.exc E)
        ("fail to publish to nats, err: " ++
          (tr.PublishMsg w.net c.natsConn (pubMsg env ctx subject H data)).1.Error)))) := by
  unfold Pub
  simp only [he, ne_eq, not_false_eq_true, if_true]
  rfl

theorem wrapped_exception_text (E : exception) (msg : String) :
    (GoError.exc (E.withInner (.withStack (.withMessage (.exc E) msg)))).Error =
      "[" ++ E.Code ++ "] " ++ (msg ++ ": " ++ (GoError.exc E).Error) := by
  obtain ⟨code, st, m, d, g, inner⟩ := E
  rfl

/-- C9: `Pub` asks the library to send once. It returns a non-nil error exactly when that
send fails, and then the error compares equal to `ErrInternal` under `Is`, is an exception
with the code of `ErrInternal`, and its text contains the text of the transport error. -/
theorem Pub_error_is_internal {σ : Type} (tr : Transport σ) (E : exception) (env : Env)
    (c : Client) (ctx : Context) (subject : String) (H : Header) (data : List Nat)
    (w : World σ) :
    (Pub tr E env c ctx subject H data w).2.events =
      w.events ++ [.publishMsg (pubMsg env ctx subject H data)
        (tr.PublishMsg w.net c.natsConn (pubMsg env ctx subject H data)).1] ∧
    (Pub tr E env c ctx subject H data w).2.net =
      (tr.PublishMsg w.net c.natsConn (pubMsg env ctx subject H data)).2 ∧
    ((Pub tr E env c ctx subject H data w).1 ≠ .nil ↔
      (tr.PublishMsg w.net c.natsConn (pubMsg env ctx subject H data)).1 ≠ .nil) ∧
    ((tr.PublishMsg w.net c.natsConn (pubMsg env ctx subject H data)).1 ≠ .nil →
      errors.Is (Pub tr E env c ctx subject H data w).1 (.exc E) = true ∧
      (∃ e, errors.asException (Pub tr E env c ctx subject H data w).1 = some e ∧
        e.Code = E.Code) ∧
      containsText (Pub tr E env c ctx subject H data w).1.Error
        (tr.PublishMsg w.net c.natsConn (pubMsg env ctx subject H data)).1.Error) := by
  have hcode : ∀ g : GoError, (E.withInner g).Code = E.Code := by
    intro g
    obtain ⟨code, st, m, d, g0, inner⟩ := E
    rfl
  by_cases he : (tr.PublishMsg w.net c.natsConn (pubMsg env ctx subject H data)).1 = .nil
  · simp [Pub, he]
  · have hf := Pub_failure tr E env c ctx subject H data w he
    refine ⟨by simp [Pub, he], by simp [Pub, he], ?_, fun _ => ⟨?_, ?_, ?_⟩⟩
    · simp [hf, he]
    · rw [hf]
      simp [errors.Is, errors.Cause, errors.asException, hcode]
    · rw [hf]
      exact ⟨_, rfl, hcode _⟩
    · rw [hf, wrapped_exception_text]
      exact ⟨"[" ++ E.Code ++ "] " ++ "fail to publish to nats, err: ",
        ": " ++ (GoError.exc E).Error, by simp only [String.append_assoc]⟩

theorem Pub_error_is_internal_witness :
    (Sample.flaky.PublishMsg 0 (some ⟨0⟩)
        (pubMsg Sample.env Sample.ctx "orders.created" [] [123, 125])).1 ≠ .nil ∧
    errors.Is (Pub Sample.flaky Sample.ErrInternal Sample.env Sample.client Sample.ctx
      "orders.created" [] [123, 125] (Sample.world 0)).1 (.exc Sample.ErrInternal) = true :=
  ⟨by decide,
   ((Pub_error_is_internal Sample.flaky Sample.ErrInternal Sample.env Sample.client Sample.ctx
      "orders.created" [] [123, 125] (Sample.world 0)).2.2.2 (by decide)).1⟩

end nats

namespace nats

/-! ## C10: drain -/

theorem waitGroupWait_some (l : List Int) (k : Nat) (h : waitGroupWait l = some k) :
    l[k]? = some 0 ∧ ∀ j, j < k → l[j]? ≠ some 0 := by
  induction l generalizing k with
  | nil => simp [waitGroupWait] at h
  | cons v rest ih =>
    by_cases hv : v = 0
    · subst hv
      simp only [waitGroupWait, if_true, Option.some.injEq] at h
      subst h
      simp
    · simp only [waitGroupWait, hv, if_false, Option.map_eq_some'] at h
      obtain ⟨i, hi, rfl⟩ := h
      obtain ⟨h1, h2⟩ := ih i hi
      refine ⟨by simpa using h1, ?_⟩
      intro j hj
      cases j with
      | zero => simpa using hv
      | succ j => simpa using h2 j (by omega)

theorem waitGroupWait_none (l : List Int) : waitGroupWait l = none ↔ ∀ v ∈ l, v ≠ 0 := by
  induction l with
  | nil => simp [waitGroupWait]
  | cons v rest ih =>
    by_cases hv : v = 0
    · subst hv
      simp [waitGroupWait]
    · simp [waitGroupWait, hv, ih]

/-- C10: when the drain request of the library returns an error, `Drain` returns that very
error and never calls `waitGroup.Wait()`. When the request succeeds, `Drain` can only return
nil, it does so at the first moment at which the wait counter is zero and not before, and
it stays blocked as long as the counter has not been zero. -/
theorem Drain_returns_error_or_waits {σ : Type} (tr : Transport σ) (c : Client)
    (later : List Int) (w : World σ) :
    ((tr.Drain w.net c.natsConn).1 ≠ .nil →
      (Drain tr c later w).1 = .returned (tr.Drain w.net c.natsConn).1 none) ∧
    ((tr.Drain w.net c.natsConn).1 = .nil →
      (∀ err waited, (Drain tr c later w).1 = .returned err waited →
        err = .nil ∧ ∃ k, waited = some k ∧ (w.waitGroup :: later)[k]? = some 0 ∧
          ∀ j, j < k → (w.waitGroup :: later)[j]? ≠ some 0) ∧
      ((∃ v ∈ w.waitGroup :: later, v = 0) →
        ∃ k, (Drain tr c later w).1 = .returned .nil (some k)) ∧
      ((∀ v ∈ w.waitGroup :: later, v ≠ 0) → (Drain tr c later w).1 = .blocked)) := by
  constructor
  · intro he
    simp [Drain, he]
  · intro he
    cases hw : waitGroupWait (w.waitGroup :: later) with
    | none =>
      have hd : (Drain tr c later w).1 = .blocked := by simp [Drain, he, hw]
      refine ⟨?_, ?_, fun _ => hd⟩
      · intro err waited h
        rw [hd] at h
        cases h
      · rintro ⟨v, hv, h0⟩
        exact absurd h0 ((waitGroupWait_none _).mp hw v hv)
    | some k =>
      have hd : (Drain tr c later w).1 = .returned .nil (some k) := by simp [Drain, he, hw]
      obtain ⟨h1, h2⟩ := waitGroupWait_some _ k hw
      refine ⟨?_, fun _ => ⟨k, hd⟩, ?_⟩
      · intro err waited h
        rw [hd] at h
        cases h
        exact ⟨rfl, k, rfl, h1, h2⟩
      · intro hall
        have := (waitGroupWait_none _).mpr hall
        rw [hw] at this
        cases this

theorem Drain_returns_error_or_waits_witness :
    (Sample.flaky.Drain 0 (some ⟨0⟩)).1 ≠ .nil ∧
    (Drain Sample.flaky Sample.client [1, 0] (Sample.world 0)).1 =
      .returned (.foreignErr "nats: connection closed") none ∧
    (Sample.refusing.Drain () (some ⟨0⟩)).1 = .nil ∧
    (∃ k, (Drain Sample.refusing Sample.client [2, 1, 0, 1]
      { Sample.world () with waitGroup := 2 }).1 = .returned .nil (some k)) :=
  ⟨by decide,
   (Drain_returns_error_or_waits Sample.flaky Sample.client [1, 0] (Sample.world 0)).1
     (by decide),
   by decide,
   ((Drain_returns_error_or_waits Sample.refusing Sample.client [2, 1, 0, 1]
     { Sample.world () with waitGroup := 2 }).2 (by decide)).2.1 ⟨0, by decide, rfl⟩⟩

end nats

namespace nats

/-! ## C11: the client id -/

theorem append_ne_empty_left (a b : String) (h : a ≠ "") : a ++ b ≠ "" := by
  intro hab
  apply h
  have h1 : (a ++ b).data = [] := by rw [hab]
  rw [String.data_append] at h1
  exact String.ext (List.append_eq_nil.mp h1).1

/-- C11: `NewNatsConn` leaves a non-empty `ClientID` as it is; an empty one becomes the
generated identifier when `AppID` is empty and `AppID`, an underscore and the generated
identifier otherwise. The generated identifier being non-empty, `ClientID` is non-empty
afterwards, and no other field of the configuration changes. -/
theorem NewNatsConn_assigns_client_id {σ : Type} (tr : Transport σ) (env : Env) (c : Config)
    (w : World σ) (hid : env.uuid ≠ "") :
    (c.ClientID ≠ "" → (NewNatsConn tr env c w).2.1 = c) ∧
    (c.ClientID = "" → c.AppID = "" → (NewNatsConn tr env c w).2.1.ClientID = env.uuid) ∧
    (c.ClientID = "" → c.AppID ≠ "" →
      (NewNatsConn tr env c w).2.1.ClientID = c.AppID ++ "_" ++ env.uuid) ∧
    (NewNatsConn tr env c w).2.1.ClientID ≠ "" ∧
    { (NewNatsConn tr env c w).2.1 with ClientID := c.ClientID } = c := by
  obtain ⟨name, addr, cid, dur, app, acc, pw⟩ := c
  by_cases h1 : cid = ""
  · subst h1
    by_cases h2 : app = ""
    · subst h2
      simp [NewNatsConn, hid]
    · have h3 : app ++ "_" ++ env.uuid ≠ "" :=
        append_ne_empty_left _ _ (append_ne_empty_left _ _ h2)
      simp [NewNatsConn, h2, h3]
  · simp [NewNatsConn, h1]

theorem NewNatsConn_assigns_client_id_witness :
    Sample.env.uuid ≠ "" ∧
    (NewNatsConn Sample.flaky Sample.env Sample.config (Sample.world 0)).2.1.ClientID =
      "shop_3f2b8c1e-5d4a-4c6b-9e7f-0a1b2c3d4e5f" :=
  ⟨by decide,
   ((NewNatsConn_assigns_client_id Sample.flaky Sample.env Sample.config (Sample.world 0)
      (by decide)).2.2.1 (by decide) (by decide)).trans (by decide)⟩

/-! ## C12: what a failed registration returns -/

theorem containsText_chars (hay needle : String) (h : containsText hay needle) :
    ∀ ch ∈ needle.data, ch ∈ hay.data := by
  obtain ⟨pre, post, rfl⟩ := h
  intro ch hch
  simp [String.data_append, hch]

/-- C12, as stated, fails: when the library refuses the subscription of the second of three
channels with `nats: invalid subject`, `RegisterChannel` returns that error, whose text does
not contain the channel name `payments.settled`. -/
theorem RegisterChannel_error_lacks_topic :
    (Sample.channels[1]?.map fun ch => ch.ChannelName) = some "payments.settled" ∧
    (RegisterChannel Sample.flaky Sample.client Sample.channels (Sample.world 0)).1 =
      .foreignErr "nats: invalid subject" ∧
    ¬ containsText
      (RegisterChannel Sample.flaky Sample.client Sample.channels (Sample.world 0)).1.Error
      "payments.settled" := by
  refine ⟨by decide, by decide, ?_⟩
  intro h
  have := containsText_chars _ _ h 'p' (by decide)
  revert this
  decide

theorem registerLoop_failure_log {σ : Type} (tr : Transport σ) (conn : Option Conn)
    (channels : List Channel) (w : World σ)
    (he : (registerLoop tr conn channels w).1 ≠ .nil) :
    ∃ i chi, channels[i]? = some chi ∧
      (registerLoop tr conn channels w).1 =
        (tr.QueueSubscribe (netAfter tr conn (channels.take i) w.net) conn
          chi.ChannelName chi.GroupName).1 ∧
      (registerLoop tr conn channels w).2.logs.getLast? =
        some ⟨.info, [], .text ("Register channel: " ++ chi.ChannelName)⟩ := by
  induction channels generalizing w with
  | nil => simp [registerLoop] at he
  | cons ch rest ih =>
    rcases hq : tr.QueueSubscribe w.net conn ch.ChannelName ch.GroupName with ⟨err, net1⟩
    by_cases hn : err = .nil
    · subst hn
      have hstep : registerLoop tr conn (ch :: rest) w =
          registerLoop tr conn rest { w with
            net := net1
            logs := w.logs ++ [⟨.info, [], .text ("Register channel: " ++ ch.ChannelName)⟩]
            events := w.events ++ [okEvent ch]
            subs := w.subs ++ [regOf ch] } := by
        simp [registerLoop, hq, okEvent, regOf]
      rw [hstep] at he ⊢
      obtain ⟨i, chi, hget, hr, hl⟩ := ih _ he
      exact ⟨i + 1, chi, by simpa using hget, by simpa [netAfter_cons, hq] using hr, hl⟩
    · refine ⟨0, ch, by simp, ?_, ?_⟩ <;> simp [registerLoop, hq, hn, netAfter]

/-- C12, amended: when `RegisterChannel` returns an error because the subscription of the
channel at index `i` failed, the error is the one the library returned for that request,
passed on as it is; the name of the channel is in the line `Register channel: <name>`, the
last one logged. -/
theorem RegisterChannel_returns_transport_error {σ : Type} (tr : Transport σ) (c : Client)
    (channels : List Channel) (w : World σ)
    (he : (RegisterChannel tr c channels w).1 ≠ .nil) :
    ∃ i chi, channels[i]? = some chi ∧
      (RegisterChannel tr c channels w).1 =
        (tr.QueueSubscribe (netAfter tr c.natsConn (channels.take i) w.net) c.natsConn
          chi.ChannelName chi.GroupName).1 ∧
      (RegisterChannel tr c channels w).2.2.logs.getLast? =
        some ⟨.info, [], .text ("Register channel: " ++ chi.ChannelName)⟩ := by
  have he1 : (registerLoop tr c.natsConn channels w).1 ≠ .nil := by
    simpa [RegisterChannel] using he
  simpa [RegisterChannel] using registerLoop_failure_log tr c.natsConn channels w he1

theorem RegisterChannel_returns_transport_error_witness :
    (RegisterChannel Sample.flaky Sample.client Sample.channels (Sample.world 0)).1 ≠ .nil ∧
    ∃ i chi, Sample.channels[i]? = some chi ∧
      (RegisterChannel Sample.flaky Sample.client Sample.channels (Sample.world 0)).1 =
        (Sample.flaky.QueueSubscribe
          (netAfter Sample.flaky Sample.client.natsConn (Sample.channels.take i)
            (Sample.world 0).net)
          Sample.client.natsConn chi.ChannelName chi.GroupName).1 ∧
      (RegisterChannel Sample.flaky Sample.client Sample.channels
        (Sample.world 0)).2.2.logs.getLast? =
        some ⟨.info, [], .text ("Register channel: " ++ chi.ChannelName)⟩ :=
  ⟨by decide,
   RegisterChannel_returns_transport_error Sample.flaky Sample.client Sample.channels
     (Sample.world 0) (by decide)⟩

end nats

namespace errors

/-! ## C20: a new message for an error -/

/-- C20: for a non-nil error whose cause is an exception `e`, `NewWithMessage` returns an
exception with the code, status and gRPC code of `e` and with the new message, which
compares equal to `e` under `Is`; for a non-nil error whose cause is no exception the cause
of the result is an exception with the code, status, message and gRPC code of
`ErrInternal`; for the nil error the result is nil. -/
theorem NewWithMessage_replaces_message (E : exception) (err : GoError) (m : String)
    (args : List String) :
    (∀ e, err ≠ .nil → asException (Cause err) = some e →
      ∃ r, NewWithMessage E err m args = .exc r ∧ r.Code = e.Code ∧ r.Status = e.Status ∧
        r.GRPCCode = e.GRPCCode ∧ r.Message = m ∧
        Is (NewWithMessage E err m args) (.exc e) = true) ∧
    (err ≠ .nil → asException (Cause err) = none →
      ∃ r, asException (Cause (NewWithMessage E err m args)) = some r ∧ r.Code = E.Code ∧
        r.Status = E.Status ∧ r.Message = E.Message ∧ r.GRPCCode = E.GRPCCode) ∧
    (NewWithMessage E .nil m args = .nil) := by
  refine ⟨?_, ?_, by simp [NewWithMessage]⟩
  · intro e hne hc
    have hres : NewWithMessage E err m args =
        .exc ((exception.mk e.Code e.Status m [] e.GRPCCode .nil).withInner
          (pkgWrapf (.exc (.mk e.Code e.Status m [] e.GRPCCode .nil)) (String.join args))) := by
      unfold NewWithMessage
      rw [if_neg hne, hc]
      rfl
    refine ⟨_, hres, rfl, rfl, rfl, rfl, ?_⟩
    rw [hres]
    simp [Is, Cause, asException, exception.withInner, exception.Code]
  · intro hne hc
    have hres : NewWithMessage E err m args =
        .withStack (.exc (.mk E.Code E.Status E.Message [] E.GRPCCode .nil)) := by
      unfold NewWithMessage
      rw [if_neg hne, hc]
      rfl
    exact ⟨.mk E.Code E.Status E.Message [] E.GRPCCode .nil, by rw [hres]; rfl,
      rfl, rfl, rfl, rfl⟩

theorem NewWithMessage_replaces_message_witness :
    Is (NewWithMessage Sample.ErrInternal
      (.withStack (.exc (.mk "404001" 404 "order not found" [] 5 .nil))) "no such order"
      ["id=7"]) (.exc (.mk "404001" 404 "order not found" [] 5 .nil)) = true :=
  let h := (NewWithMessage_replaces_message Sample.ErrInternal
    (.withStack (.exc (.mk "404001" 404 "order not found" [] 5 .nil))) "no such order"
    ["id=7"]).1 (.mk "404001" 404 "order not found" [] 5 .nil) (by decide) (by decide)
  h.elim fun _ hr => hr.2.2.2.2.2

end errors

namespace strconv

/-! ## Decimal rendering -/

theorem digitChar_isDigit (k : Nat) (hk : k < 10) :
    IsDigit (Nat.digitChar k) ∧ (Nat.digitChar k).toNat - '0'.toNat = k := by
  interval_cases k <;> decide

theorem decimalValue_append (a : Nat) (xs ys : List Char) :
    decimalValue a (xs ++ ys) = decimalValue (decimalValue a xs) ys := by
  simp [decimalValue, List.foldl_append]

theorem toDigitsCore_spec (fuel n : Nat) (ds : List Char) (hf : n < fuel) :
    ∃ pre, Nat.toDigitsCore 10 fuel n ds = pre ++ ds ∧ pre ≠ [] ∧ (∀ c ∈ pre, IsDigit c) ∧
      ∀ a, decimalValue a pre = a * 10 ^ pre.length + n := by
  induction fuel generalizing n ds with
  | zero => omega
  | succ fuel ih =>
    have hd := digitChar_isDigit (n % 10) (Nat.mod_lt _ (by decide))
    by_cases h0 : n / 10 = 0
    · refine ⟨[Nat.digitChar (n % 10)], by simp [Nat.toDigitsCore, h0], by simp, ?_, ?_⟩
      · intro c hc
        rw [List.mem_singleton.mp hc]
        exact hd.1
      · intro a
        simp only [decimalValue, List.foldl_cons, List.foldl_nil, hd.2, List.length_singleton,
          pow_one]
        omega
    · obtain ⟨pre, hpre, hne, hdig, hval⟩ :=
        ih (n / 10) (Nat.digitChar (n % 10) :: ds) (by omega)
      refine ⟨pre ++ [Nat.digitChar (n % 10)], ?_, by simp, ?_, ?_⟩
      · simp [Nat.toDigitsCore, h0, hpre]
      · intro c hc
        rcases List.mem_append.mp hc with h | h
        · exact hdig c h
        · rw [List.mem_singleton.mp h]
          exact hd.1
      · intro a
        rw [decimalValue_append, hval a]
        simp only [decimalValue, List.foldl_cons, List.foldl_nil, hd.2, List.length_append,
          List.length_singleton, pow_succ]
        have := Nat.div_add_mod n 10
        nlinarith [this]

/-- The text `Nat.repr n` is a non-empty string of digits that denotes `n`. -/
theorem repr_digits (n : Nat) :
    (Nat.repr n).data ≠ [] ∧ (∀ c ∈ (Nat.repr n).data, IsDigit c) ∧
      decimalValue 0 (Nat.repr n).data = n := by
  obtain ⟨pre, hpre, hne, hdig, hval⟩ := toDigitsCore_spec (n + 1) n [] (by omega)
  have hdata : (Nat.repr n).data = pre := by
    simp [Nat.repr, Nat.toDigits, hpre, List.asString]
  rw [hdata]
  exact ⟨hne, hdig, by simpa using hval 0⟩

end strconv

namespace nats
open strconv

/-! ## C13: the `time` header -/

/-- C13, as stated, fails: for a context that carries the time -5, `Pub` with no extra
headers sends the `time` header `-5`, which is not a string of digits only. -/
theorem Pub_time_header_may_be_signed :
    traceTime.GetFromContext Sample.env
      (traceTime.ContextWithTime Context.Background (-5)) = -5 ∧
    (pubMsg Sample.env (traceTime.ContextWithTime Context.Background (-5)) "orders.created"
      [] [123, 125]).Header.get "time" = ["-5"] ∧
    ¬ ∀ c ∈ "-5".data, IsDigit c := by
  refine ⟨by decide, by decide, by decide⟩

theorem Pub_events {σ : Type} (tr : Transport σ) (E : exception) (env : Env)
    (c : Client) (ctx : Context) (subject : String) (H : Header) (data : List Nat)
    (w : World σ) :
    (Pub tr E env c ctx subject H data w).2.events =
      w.events ++ [.publishMsg (pubMsg env ctx subject H data)
        (tr.PublishMsg w.net c.natsConn (pubMsg env ctx subject H data)).1] := by
  by_cases he : (tr.PublishMsg w.net c.natsConn (pubMsg env ctx subject H data)).1 = .nil <;>
    simp [Pub, he]

/-- C13, amended: for every context whose time, as `GetFromContext` reads it, is not
negative, and every topic and payload, the message `Pub` sends when called with no extra
headers has a `time` header with exactly one value, and that value is a non-empty string of
decimal digits only, which denotes that time in base 10. -/
theorem Pub_time_header_digits {σ : Type} (tr : Transport σ) (E : exception) (env : Env)
    (c : Client) (ctx : Context) (subject : String) (data : List Nat) (w : World σ)
    (hpos : 0 ≤ traceTime.GetFromContext env ctx) :
    (Pub tr E env c ctx subject [] data w).2.events =
      w.events ++ [.publishMsg (pubMsg env ctx subject [] data)
        (tr.PublishMsg w.net c.natsConn (pubMsg env ctx subject [] data)).1] ∧
    ∃ v : String, (pubMsg env ctx subject [] data).Header.get "time" = [v] ∧
      v.data ≠ [] ∧ (∀ ch ∈ v.data, IsDigit ch) ∧
      (decimalValue 0 v.data : Int) = traceTime.GetFromContext env ctx := by
  refine ⟨Pub_events tr E env c ctx subject [] data w,
    FormatInt (traceTime.GetFromContext env ctx), by simp [pubMsg, pubHeader, Header.get,
      List.lookup], ?_⟩
  have hf : FormatInt (traceTime.GetFromContext env ctx) =
      Nat.repr (traceTime.GetFromContext env ctx).natAbs := by
    simp [FormatInt, not_lt.mpr hpos]
  obtain ⟨h1, h2, h3⟩ := repr_digits (traceTime.GetFromContext env ctx).natAbs
  rw [hf]
  refine ⟨h1, h2, ?_⟩
  rw [h3]
  omega

theorem Pub_time_header_digits_witness :
    0 ≤ traceTime.GetFromContext Sample.env Sample.ctx ∧
    ∃ v : String, (pubMsg Sample.env Sample.ctx "orders.created" [] [123, 125]).Header.get
        "time" = [v] ∧
      v.data ≠ [] ∧ (∀ ch ∈ v.data, IsDigit ch) ∧
      (decimalValue 0 v.data : Int) = traceTime.GetFromContext Sample.env Sample.ctx :=
  ⟨by decide,
   (Pub_time_header_digits Sample.flaky Sample.ErrInternal Sample.env Sample.client
     Sample.ctx "orders.created" [123, 125] (Sample.world 0) (by decide)).2⟩

end nats

/-! ## The calendar -/

namespace gotime

theorem yearDay_decompose (d : Int) :
    ∃ a b c e r : Int, yearDay d = (400 * a + 100 * b + 4 * c + e + absoluteZeroYear, r) ∧
      d = 146097 * a + 36524 * b + 1461 * c + 365 * e + r ∧ a = d / 146097 ∧
      0 ≤ b ∧ b ≤ 3 ∧ 0 ≤ c ∧ c ≤ 24 ∧ 0 ≤ e ∧ e ≤ 3 ∧ 0 ≤ r ∧ r ≤ 365 ∧
      (r = 365 → e = 3 ∧ (c ≠ 24 ∨ b = 3)) := by
  simp only [yearDay]
  generalize ha : d / 146097 = a
  have ha1 : 146097 * a ≤ d ∧ d < 146097 * a + 146097 := by omega
  generalize hd1 : d - 146097 * a = d1
  have hd1r : 0 ≤ d1 ∧ d1 < 146097 := by omega
  generalize hb0 : d1 / 36524 = b0
  have hb0r : 0 ≤ b0 ∧ b0 ≤ 4 ∧ 36524 * b0 ≤ d1 ∧ d1 < 36524 * b0 + 36524 := by omega
  generalize hb : b0 - b0 / 4 = b
  have hbr : 0 ≤ b ∧ b ≤ 3 ∧ (b0 ≤ 3 → b = b0) ∧ (b0 = 4 → b = 3) := by omega
  generalize hd2 : d1 - 36524 * b = d2
  have hd2r : 0 ≤ d2 ∧ d2 ≤ 36524 ∧ (b < 3 → d2 < 36524) := by omega
  generalize hc : d2 / 1461 = c
  have hcr : 0 ≤ c ∧ c ≤ 24 ∧ 1461 * c ≤ d2 ∧ d2 < 1461 * c + 1461 := by omega
  generalize hd3 : d2 - 1461 * c = d3
  have hd3r : 0 ≤ d3 ∧ d3 ≤ 1460 ∧ (c = 24 → b < 3 → d3 < 1460) := by omega
  generalize he0 : d3 / 365 = e0
  have he0r : 0 ≤ e0 ∧ e0 ≤ 4 ∧ 365 * e0 ≤ d3 ∧ d3 < 365 * e0 + 365 := by omega
  generalize he : e0 - e0 / 4 = e
  have her : 0 ≤ e ∧ e ≤ 3 ∧ (e0 ≤ 3 → e = e0) ∧ (e0 = 4 → e = 3) := by omega
  refine ⟨a, b, c, e, d3 - 365 * e, rfl, ?_⟩
  omega

theorem isLeap_cycles (a b c e : Int) (hb : 0 ≤ b ∧ b ≤ 3) (hc : 0 ≤ c ∧ c ≤ 24)
    (he : 0 ≤ e ∧ e ≤ 3) :
    isLeap (400 * a + 100 * b + 4 * c + e + absoluteZeroYear) = true ↔
      e = 3 ∧ (c ≠ 24 ∨ b = 3) := by
  simp only [isLeap, absoluteZeroYear, decide_eq_true_eq]
  omega

theorem daysSinceEpoch_cycles (a b c e : Int) (ha : 0 ≤ a ∧ a < 100000000000000)
    (hb : 0 ≤ b ∧ b ≤ 3) (hc : 0 ≤ c ∧ c ≤ 24) (he : 0 ≤ e ∧ e ≤ 3) :
    daysSinceEpoch (400 * a + 100 * b + 4 * c + e + absoluteZeroYear) =
      146097 * a + 36524 * b + 1461 * c + 365 * e := by
  simp only [daysSinceEpoch, wrapU64, absoluteZeroYear]
  have h1 : (400 * a + 100 * b + 4 * c + e + -292277022399 - -292277022399) % 2 ^ 64 =
      400 * a + 100 * b + 4 * c + e := by omega
  rw [h1]
  generalize hn400 : (400 * a + 100 * b + 4 * c + e) / 400 = n400
  have e400 : n400 = a := by omega
  subst e400
  generalize hn100 : (400 * n400 + 100 * b + 4 * c + e - 400 * n400) / 100 = n100
  have e100 : n100 = b := by omega
  subst e100
  generalize hn4 :
    (400 * n400 + 100 * n100 + 4 * c + e - 400 * n400 - 100 * n100) / 4 = n4
  have e4 : n4 = c := by omega
  subst e4
  omega

/-- The day `d` is the day `(yearDay d).2` of the year `(yearDay d).1`, which is an
`int`. -/
theorem yearDay_spec (d : Int) (d0 : 0 ≤ d) (d1 : d < 2 ^ 63) :
    daysSinceEpoch (yearDay d).1 + (yearDay d).2 = d ∧ 0 ≤ (yearDay d).2 ∧
      (yearDay d).2 < (if isLeap (yearDay d).1 = true then 366 else 365) ∧
      absoluteZeroYear + 400 * (d / 146097) ≤ (yearDay d).1 ∧
      (yearDay d).1 ≤ absoluteZeroYear + 400 * (d / 146097) + 399 := by
  obtain ⟨a, b, c, e, r, hy, hd, ha, hb0, hb1, hc0, hc1, he0, he1, hr0, hr1, hr⟩ :=
    yearDay_decompose d
  have hl := isLeap_cycles a b c e ⟨hb0, hb1⟩ ⟨hc0, hc1⟩ ⟨he0, he1⟩
  have har : 0 ≤ a ∧ a < 100000000000000 := by omega
  rw [hy]
  simp only
  rw [daysSinceEpoch_cycles a b c e har ⟨hb0, hb1⟩ ⟨hc0, hc1⟩ ⟨he0, he1⟩]
  refine ⟨by omega, hr0, ?_, by omega, by omega⟩
  split_ifs with h
  · omega
  · rw [hl] at h
    omega

end gotime

namespace gotime

theorem daysBefore_values :
    daysBefore 0 = 0 ∧ daysBefore 1 = 31 ∧ daysBefore 2 = 59 ∧ daysBefore 3 = 90 ∧
    daysBefore 4 = 120 ∧ daysBefore 5 = 151 ∧ daysBefore 6 = 181 ∧ daysBefore 7 = 212 ∧
    daysBefore 8 = 243 ∧ daysBefore 9 = 273 ∧ daysBefore 10 = 304 ∧ daysBefore 11 = 334 ∧
    daysBefore 12 = 365 := by
  decide

theorem monthDay_plain (day : Int) (h0 : 0 ≤ day) (h1 : day < 365) :
    ∃ m dd : Int, (if day ≥ daysBefore (day / 31 + 1)
        then (day / 31 + 2, day - daysBefore (day / 31 + 1) + 1)
        else (day / 31 + 1, day - daysBefore (day / 31) + 1)) = (m, dd) ∧
      1 ≤ m ∧ m ≤ 12 ∧ 1 ≤ dd ∧ dd ≤ daysBefore m - daysBefore (m - 1) ∧
      daysBefore (m - 1) + (dd - 1) = day ∧ (m ≤ 2 ↔ day < 59) := by
  obtain ⟨v0, v1, v2, v3, v4, v5, v6, v7, v8, v9, v10, v11, v12⟩ := daysBefore_values
  generalize hq : day / 31 = q
  have hqr : 0 ≤ q ∧ q ≤ 11 ∧ 31 * q ≤ day ∧ day < 31 * q + 31 := by omega
  obtain ⟨hq0, hq1, hq2, hq3⟩ := hqr
  interval_cases q <;>
    simp only [Int.reduceAdd, v0, v1, v2, v3, v4, v5, v6, v7, v8, v9, v10, v11, v12] <;>
    split_ifs <;> refine ⟨_, _, rfl, ?_⟩ <;>
    simp only [Int.reduceSub, v0, v1, v2, v3, v4, v5, v6, v7, v8, v9, v10, v11, v12] <;>
    omega

end gotime

namespace gotime

theorem daysIn_le (m year : Int) (h1 : 1 ≤ m) (h12 : m ≤ 12) : daysIn m year ≤ 31 := by
  obtain ⟨v0, v1, v2, v3, v4, v5, v6, v7, v8, v9, v10, v11, v12⟩ := daysBefore_values
  have hm : m = 1 ∨ m = 2 ∨ m = 3 ∨ m = 4 ∨ m = 5 ∨ m = 6 ∨ m = 7 ∨ m = 8 ∨ m = 9 ∨
      m = 10 ∨ m = 11 ∨ m = 12 := by omega
  rcases hm with rfl | rfl | rfl | rfl | rfl | rfl | rfl | rfl | rfl | rfl | rfl | rfl <;>
    simp only [daysIn, Int.reduceSub, v0, v1, v2, v3, v4, v5, v6, v7, v8, v9, v10, v11, v12] <;>
    split_ifs <;> omega

/-- The month and day that `monthDay` gives for a day of the year are a valid date, and
`dayNumber` maps them back to that day. -/
theorem monthDay_spec (year yday : Int) (h0 : 0 ≤ yday)
    (h1 : yday < (if isLeap year = true then 366 else 365)) :
    1 ≤ (monthDay year yday).1 ∧ (monthDay year yday).1 ≤ 12 ∧
    1 ≤ (monthDay year yday).2 ∧
    (monthDay year yday).2 ≤ daysIn (monthDay year yday).1 year ∧
    dayNumber year (monthDay year yday).1 (monthDay year yday).2 =
      daysSinceEpoch year + yday := by
  obtain ⟨v0, v1, v2, v3, v4, v5, v6, v7, v8, v9, v10, v11, v12⟩ := daysBefore_values
  cases hl : isLeap year
  · simp only [hl, Bool.false_eq_true, if_false] at h1
    obtain ⟨m, dd, hm, hm1, hm12, hd1, hdn, hday, -⟩ := monthDay_plain yday h0 h1
    have hmd : monthDay year yday = (m, dd) := by
      simp only [monthDay, hl, Bool.false_eq_true, false_and, if_false]
      exact hm
    rw [hmd]
    simp only [dayNumber, daysIn, hl, Bool.false_eq_true, and_false, false_and, if_false]
    refine ⟨hm1, hm12, hd1, hdn, by omega⟩
  · simp only [hl, if_true] at h1
    by_cases h59 : yday = 59
    · subst h59
      have hmd : monthDay year 59 = (2, 29) := by
        simp [monthDay, hl]
      rw [hmd]
      simp only [dayNumber, daysIn, hl, and_self, if_true, Int.reduceSub, v1]
      refine ⟨by omega, by omega, by omega, by omega, ?_⟩
      split_ifs <;> omega
    · by_cases hgt : yday > 59
      · obtain ⟨m, dd, hm, hm1, hm12, hd1, hdn, hday, hm2⟩ :=
          monthDay_plain (yday - 1) (by omega) (by omega)
        have hmd : monthDay year yday = (m, dd) := by
          simp only [monthDay, hl, true_and, Int.reduceAdd, Int.reduceSub, h59, if_false, hgt,
            if_true]
          exact hm
        rw [hmd]
        have hm3 : m ≥ 3 := by omega
        have hmne : ¬ (m = 2) := by omega
        simp only [dayNumber, daysIn, hl, and_true, true_and, hm3, hmne, if_true, if_false]
        refine ⟨hm1, hm12, hd1, hdn, by omega⟩
      · obtain ⟨m, dd, hm, hm1, hm12, hd1, hdn, hday, hm2⟩ := monthDay_plain yday h0 (by omega)
        have hmd : monthDay year yday = (m, dd) := by
          simp only [monthDay, hl, true_and, Int.reduceAdd, Int.reduceSub, h59, if_false, hgt]
          exact hm
        rw [hmd]
        have hm3 : ¬ (m ≥ 3) := by omega
        simp only [dayNumber, daysIn, hl, and_true, true_and, hm3, if_false]
        refine ⟨hm1, hm12, hd1, ?_, by omega⟩
        split_ifs with h2
        · subst h2
          simp only [Int.reduceSub, v1, v2] at hdn
          omega
        · exact hdn

/-- Round trip of the calendar: the date of a day denotes that day. -/
theorem dayNumber_date (d : Int) (d0 : 0 ≤ d) (d1 : d < 2 ^ 63) :
    dayNumber (yearDay d).1 (monthDay (yearDay d).1 (yearDay d).2).1
      (monthDay (yearDay d).1 (yearDay d).2).2 = d := by
  obtain ⟨h1, h2, h3, -, -⟩ := yearDay_spec d d0 d1
  rw [(monthDay_spec _ _ h2 h3).2.2.2.2, h1]

end gotime

theorem wrap64_of_range (x : Int) (h0 : -(2 ^ 63) ≤ x) (h1 : x < 2 ^ 63) : wrap64 x = x := by
  unfold wrap64
  omega

theorem tdiv_cases (a b : Int) (hb : 0 < b) :
    Int.tdiv a b = if 0 ≤ a then a / b else -((-a) / b) := by
  split_ifs with h
  · exact Int.tdiv_eq_ediv h (le_of_lt hb)
  · have h1 : 0 ≤ -a := by omega
    have h2 : Int.tdiv (-a) b = -a / b := Int.tdiv_eq_ediv h1 (le_of_lt hb)
    rw [Int.neg_tdiv] at h2
    omega

namespace time
open gotime

/-! ## C14: midnight of the day of a shifted timestamp -/

/-- Two values of `Time` with the same fields are the same. -/
theorem Time_eq (t1 t2 : Time) (hs : t1.sec = t2.sec) (hn : t1.nsec = t2.nsec)
    (hl : t1.loc = t2.loc) : t1 = t2 := by
  obtain ⟨s1, n1, l1, p1⟩ := t1
  obtain ⟨s2, n2, l2, p2⟩ := t2
  simp only at hs hn hl
  subst hs hn hl
  rfl

/-- The fields of `Date` in UTC for a date and a clock within their ranges, when the Unix
time is within the range of `int64`. -/
theorem Date_in_range (y m d h mi s ns : Int) (hy : -(2 ^ 63) ≤ y ∧ y < 2 ^ 63)
    (hm1 : 1 ≤ m) (hm12 : m ≤ 12) (hd : -(2 ^ 63) ≤ d ∧ d < 2 ^ 63)
    (hh : 0 ≤ h ∧ h < 24) (hmi : 0 ≤ mi ∧ mi < 60) (hs : 0 ≤ s ∧ s < 60)
    (hns : 0 ≤ ns ∧ ns < 1000000000)
    (hu0 : -(2 ^ 63) ≤ dayNumber y m d * 86400 + h * 3600 + mi * 60 + s - unixToAbsolute)
    (hu1 : dayNumber y m d * 86400 + h * 3600 + mi * 60 + s - unixToAbsolute < 2 ^ 63) :
    (Date y m d h mi s ns UTC).sec =
      dayNumber y m d * 86400 + h * 3600 + mi * 60 + s - unixToAbsolute ∧
    (Date y m d h mi s ns UTC).nsec = ns ∧ (Date y m d h mi s ns UTC).loc = UTC := by
  have e1 : (m - 1) / 12 = 0 := by omega
  have e2 : (m - 1) % 12 = m - 1 := by omega
  have e3 : ns / 1000000000 = 0 := by omega
  have e4 : ns % 1000000000 = ns := by omega
  have e5 : s / 60 = 0 := by omega
  have e6 : s % 60 = s := by omega
  have e7 : mi / 60 = 0 := by omega
  have e8 : mi % 60 = mi := by omega
  have e9 : h / 24 = 0 := by omega
  have e10 : h % 24 = h := by omega
  have wy : wrap64 y = y := wrap64_of_range _ hy.1 hy.2
  have wd : wrap64 d = d := wrap64_of_range _ hd.1 hd.2
  have ws : wrap64 s = s := wrap64_of_range _ (by omega) (by omega)
  have wmi : wrap64 mi = mi := wrap64_of_range _ (by omega) (by omega)
  have wh : wrap64 h = h := wrap64_of_range _ (by omega) (by omega)
  simp only [Date, gotime.norm, e1, e2, e3, e4, e5, e6, e7, e8, e9, e10, add_zero, wy, wd, ws,
    wmi, wh, sub_add_cancel, UTC, sub_zero, and_self, and_true]
  generalize dayNumber y m d = n at hu0 hu1
  simp only [unixToAbsolute] at hu0 hu1 ⊢
  unfold wrap64 wrapU64
  omega

/-- The seconds of the day that starts at or before the Unix time `u`, counted from the
absolute zero, are a multiple of 86400. -/
theorem abs_day (u : Int) (h0 : -9223372028715321600 ≤ u) (h1 : u < 2 ^ 63) :
    wrapU64 (u + 0 + unixToAbsolute) = u + 9223372028715321600 ∧
    (u + 9223372028715321600) / 86400 = u / 86400 + 106751991073094 ∧
    wrapU64 (86400 * (u / 86400) + 0 + unixToAbsolute) =
      86400 * (u / 86400 + 106751991073094) := by
  simp only [wrapU64, unixToAbsolute]
  omega

/-- C14, amended: when `ts + off` is at least -9223372028715321600, the Unix time of the
first instant whose absolute time the standard library holds without wrapping around, and
below `2 ^ 63`, `TodayMidnight(ts, off)` is the UTC instant whose Unix time is 86400 times
the quotient, rounded down, of `ts + off` by 86400, that is the latest multiple of 86400 not
above `ts + off`; it is a midnight, and its year, month and day are those of the UTC instant
`ts + off`. -/
theorem TodayMidnight_floor (localLoc : Location) (ts off : Int)
    (h0 : -9223372028715321600 ≤ ts + off) (h1 : ts + off < 2 ^ 63) :
    (TodayMidnight localLoc ts off).Unix = 86400 * ((ts + off) / 86400) ∧
    (TodayMidnight localLoc ts off).Unix ≤ ts + off ∧
    ts + off < (TodayMidnight localLoc ts off).Unix + 86400 ∧
    (TodayMidnight localLoc ts off).loc = UTC ∧
    (TodayMidnight localLoc ts off).Nanosecond = 0 ∧
    (TodayMidnight localLoc ts off).Hour = 0 ∧
    (TodayMidnight localLoc ts off).Minute = 0 ∧
    (TodayMidnight localLoc ts off).Second = 0 ∧
    (TodayMidnight localLoc ts off).Year = (gotime.Unix localLoc (ts + off) 0).UTC.Year ∧
    (TodayMidnight localLoc ts off).Month = (gotime.Unix localLoc (ts + off) 0).UTC.Month ∧
    (TodayMidnight localLoc ts off).Day = (gotime.Unix localLoc (ts + off) 0).UTC.Day := by
  have hw : wrap64 (ts + off) = ts + off := wrap64_of_range _ (by omega) h1
  obtain ⟨ha1, ha2, ha3⟩ := abs_day (ts + off) h0 h1
  obtain ⟨n, hn⟩ : ∃ n : Int, n = (ts + off) / 86400 + 106751991073094 := ⟨_, rfl⟩
  rw [← hn] at ha2 ha3
  have hsec : (gotime.Unix localLoc (ts + off) 0).UTC.sec = ts + off := by
    simp [gotime.Unix, Time.UTC, hw]
  have hloc : (gotime.Unix localLoc (ts + off) 0).UTC.loc = UTC := rfl
  have habs : (gotime.Unix localLoc (ts + off) 0).UTC.abs / 86400 = n := by
    rw [Time.abs, hsec, hloc]
    simp only [UTC]
    rw [ha1, ha2]
  have hd0 : 0 ≤ n := by omega
  have hd1 : n < 2 ^ 63 := by omega
  obtain ⟨hy1, hy2, hy3, hy4, hy5⟩ := yearDay_spec n hd0 hd1
  obtain ⟨hm1, hm12, hday1, hdayIn, -⟩ := monthDay_spec _ _ hy2 hy3
  have hdn := dayNumber_date n hd0 hd1
  have hd31 := daysIn_le _ (yearDay n).1 hm1 hm12
  simp only [absoluteZeroYear] at hy4 hy5
  have hres : (TodayMidnight localLoc ts off).sec = 86400 * ((ts + off) / 86400) ∧
      (TodayMidnight localLoc ts off).nsec = 0 ∧ (TodayMidnight localLoc ts off).loc = UTC := by
    simp only [TodayMidnight, hw, Time.Year, Time.Month, Time.Day, habs]
    obtain ⟨r1, r2, r3⟩ := Date_in_range (yearDay n).1 (monthDay (yearDay n).1 (yearDay n).2).1
      (monthDay (yearDay n).1 (yearDay n).2).2 0 0 0 0
      ⟨by omega, by omega⟩ hm1 hm12
      ⟨by omega, by omega⟩ ⟨by omega, by omega⟩ ⟨by omega, by omega⟩ ⟨by omega, by omega⟩
      ⟨by omega, by omega⟩
      (by rw [hdn]; simp only [unixToAbsolute]; omega)
      (by rw [hdn]; simp only [unixToAbsolute]; omega)
    rw [r1, r2, r3, hdn]
    simp only [unixToAbsolute]
    refine ⟨by omega, trivial, trivial⟩
  obtain ⟨rs, rn, rl⟩ := hres
  have habs2 : (TodayMidnight localLoc ts off).abs = 86400 * n := by
    rw [Time.abs, rs, rl]
    simp only [UTC]
    exact ha3
  simp only [Time.Unix, Time.Nanosecond, Time.Hour, Time.Minute, Time.Second, Time.Year,
    Time.Month, Time.Day, habs, habs2, rs, rn, rl]
  refine ⟨trivial, by omega, by omega, trivial, trivial, by omega, by omega, by omega, ?_, ?_, ?_⟩ <;>
    rw [Int.mul_ediv_cancel_left _ (by decide : (86400 : Int) ≠ 0)]

theorem TodayMidnight_floor_witness :
    (TodayMidnight ⟨"Asia/Taipei", 28800⟩ 1471315492 28800).Unix = 1471305600 ∧
    (TodayMidnight ⟨"Asia/Taipei", 28800⟩ 1471315492 28800).Year = 2016 ∧
    (TodayMidnight ⟨"Asia/Taipei", 28800⟩ 1471315492 28800).Month = 8 ∧
    (TodayMidnight ⟨"Asia/Taipei", 28800⟩ 1471315492 28800).Day = 16 :=
  ⟨((TodayMidnight_floor ⟨"Asia/Taipei", 28800⟩ 1471315492 28800 (by decide) (by decide)).1).trans
    (by decide), by decide, by decide, by decide⟩

set_option maxRecDepth 100000 in
/-- C14, as claimed, fails at the least timestamp: for `ts` the least `int64` and `off` zero
the absolute time wraps around, the date read is 4 December 292277026596, and
`TodayMidnight` returns the Unix time 9223372036854720000, whereas 86400 times the quotient,
rounded down, of `ts + off` by 86400 is -9223372036854806400, which no `int64` holds. -/
theorem TodayMidnight_wraps_at_least_timestamp :
    (TodayMidnight ⟨"Asia/Taipei", 28800⟩ (-9223372036854775808) 0).Unix =
      9223372036854720000 ∧
    86400 * ((-9223372036854775808 + 0 : Int) / 86400) = -9223372036854806400 ∧
    (TodayMidnight ⟨"Asia/Taipei", 28800⟩ (-9223372036854775808) 0).Unix >
      -9223372036854775808 + 0 ∧
    (gotime.Unix ⟨"Asia/Taipei", 28800⟩ (-9223372036854775808 + 0) 0).UTC.Year =
      292277026596 := by
  refine ⟨by decide, by decide, by decide, by decide⟩

/-! ## C17: milliseconds since the epoch -/

/-- C17: for a millisecond count `t` with `|t| ≤ 9223372036854`, `UnixMillis(t)` is the
instant `t` milliseconds after the Unix epoch, `MilliSecond` maps it back to `t`, and
`UnixMillis(1514881707559)` is 2018-01-02 08:28:27.559 UTC. -/
theorem UnixMillis_MilliSecond (localLoc : Location) (t : Int)
    (h0 : -9223372036854 ≤ t) (h1 : t ≤ 9223372036854) :
    (UnixMillis localLoc t).sec * 1000000000 + (UnixMillis localLoc t).nsec = t * 1000000 ∧
    0 ≤ (UnixMillis localLoc t).nsec ∧ (UnixMillis localLoc t).nsec < 1000000000 ∧
    MilliSecond (UnixMillis localLoc t) = t ∧
    (UnixMillis localLoc 1514881707559).UTC = Date 2018 1 2 8 28 27 559000000 UTC := by
  have hw : wrap64 (t * 1000000) = t * 1000000 := wrap64_of_range _ (by omega) (by omega)
  have hq := tdiv_cases (t * 1000000) 1000000000 (by decide)
  have hinst : (UnixMillis localLoc t).sec * 1000000000 + (UnixMillis localLoc t).nsec =
      t * 1000000 ∧ 0 ≤ (UnixMillis localLoc t).nsec ∧
      (UnixMillis localLoc t).nsec < 1000000000 := by
    simp only [UnixMillis, gotime.Unix, hw, zero_add]
    split_ifs with c1 c2
    · have hs : wrap64 (Int.tdiv (t * 1000000) 1000000000) =
          Int.tdiv (t * 1000000) 1000000000 := by
        apply wrap64_of_range <;> (rw [hq]; split_ifs <;> omega)
      have hs2 : wrap64 (Int.tdiv (t * 1000000) 1000000000 - 1) =
          Int.tdiv (t * 1000000) 1000000000 - 1 := by
        apply wrap64_of_range <;> (rw [hq]; split_ifs <;> omega)
      dsimp only
      rw [hs, hs2]
      rw [hq] at c2 ⊢
      split_ifs at c2 ⊢ <;> omega
    · have hs : wrap64 (Int.tdiv (t * 1000000) 1000000000) =
          Int.tdiv (t * 1000000) 1000000000 := by
        apply wrap64_of_range <;> (rw [hq]; split_ifs <;> omega)
      dsimp only
      rw [hs]
      rw [hq] at c2 ⊢
      split_ifs at c2 ⊢ <;> omega
    · have hz : wrap64 0 = 0 := by decide
      dsimp only
      rw [hz]
      omega
  refine ⟨hinst.1, hinst.2.1, hinst.2.2, ?_, rfl⟩
  have hn : (UnixMillis localLoc t).UnixNano = t * 1000000 := by
    simp only [Time.UnixNano, hinst.1]
    exact hw
  simp only [MilliSecond, hn]
  rw [tdiv_cases _ _ (by decide)]
  split_ifs <;> omega

theorem UnixMillis_MilliSecond_witness :
    MilliSecond (UnixMillis ⟨"Asia/Taipei", 28800⟩ 1514881707559) = 1514881707559 :=
  (UnixMillis_MilliSecond ⟨"Asia/Taipei", 28800⟩ 1514881707559 (by decide) (by decide)).2.2.2.1

end time

namespace time

/-! ## C18: the check of a time slot -/

theorem Seconds_whole (s : Int) (h : 0 ≤ s) :
    gotime.Duration.Seconds (s * 1000000000) = (s : ℚ) := by
  have h1 : Int.tdiv (s * 1000000000) 1000000000 = s := by
    rw [tdiv_cases _ _ (by decide)]
    split_ifs <;> omega
  have h2 : Int.tmod (s * 1000000000) 1000000000 = 0 := by
    have := Int.tmod_add_tdiv (s * 1000000000) 1000000000
    rw [h1] at this
    omega
  simp [gotime.Duration.Seconds, h1, h2]

/-- C18: the slot from 01h00m00s to 01h00m00s, whose end is not after its start, passes
`Check`, and so does the slot from 00h00m00s to 24h00m00s, whose end lies beyond 23h59m59s;
a slot that ends before it starts does not pass. -/
theorem Check_accepts_empty_and_full_day :
    DayTimeSlot.Check ⟨3600 * 1000000000, 3600 * 1000000000⟩ = .nil ∧
    DayTimeSlot.Check ⟨0 * 1000000000, 86400 * 1000000000⟩ = .nil ∧
    DayTimeSlot.Check ⟨7200 * 1000000000, 3600 * 1000000000⟩ = ErrInvalidDayTimeSlot := by
  refine ⟨?_, ?_, ?_⟩ <;>
    simp only [DayTimeSlot.Check, Seconds_whole _ (by decide : (0 : Int) ≤ 3600),
      Seconds_whole _ (by decide : (0 : Int) ≤ 0), Seconds_whole _ (by decide : (0 : Int) ≤ 86400),
      Seconds_whole _ (by decide : (0 : Int) ≤ 7200)] <;>
    norm_num

end time

namespace time
open strconv

/-! ## The groups of the duration expression -/

theorem takeDigits_append (ds r : List Char) (hd : ∀ c ∈ ds, IsDigit c)
    (hr : r = [] ∨ ∃ c r1, r = c :: r1 ∧ ¬ IsDigit c) : takeDigits (ds ++ r) = (ds, r) := by
  induction ds with
  | nil =>
    rcases hr with rfl | ⟨c, r1, rfl, hc⟩
    · rfl
    · have hc1 : ¬ ('0' ≤ c ∧ c ≤ '9') := hc
      simp [takeDigits, hc1]
  | cons d ds ih =>
    have hd1 : '0' ≤ d ∧ d ≤ '9' := hd d (List.mem_cons_self _ _)
    have := ih (fun c hc => hd c (List.mem_cons_of_mem _ hc))
    simp [takeDigits, hd1, this]

theorem component_present (marker : Char) (ds tail : List Char) (hne : ds ≠ [])
    (hd : ∀ c ∈ ds, IsDigit c) (hm : ¬ IsDigit marker) :
    component marker (ds ++ marker :: tail) = (ds, tail) := by
  have h := takeDigits_append ds (marker :: tail) hd (Or.inr ⟨marker, tail, rfl, hm⟩)
  simp [component, h, hne]

theorem component_blocked (marker : Char) (s : List Char) (hb : Blocked marker s) :
    component marker s = ([], s) := by
  obtain ⟨ds, r, hd, rfl, hr⟩ := hb
  rcases hr with rfl | ⟨c, r1, rfl, hc, hcm⟩
  · have h := takeDigits_append ds [] hd (Or.inl rfl)
    simp only [List.append_nil] at h ⊢
    simp [component, h]
  · have h := takeDigits_append ds (c :: r1) hd (Or.inr ⟨c, r1, rfl, hc⟩)
    simp [component, h, hcm]

theorem blocked_nil (marker : Char) : Blocked marker [] :=
  ⟨[], [], by simp, rfl, Or.inl rfl⟩

theorem blocked_cons (marker c : Char) (r : List Char) (hc : ¬ IsDigit c) (hcm : c ≠ marker) :
    Blocked marker (c :: r) :=
  ⟨[], c :: r, by simp, rfl, Or.inr ⟨c, r, rfl, hc, hcm⟩⟩

theorem blocked_componentText (marker other : Char) (n : Option (List Char)) (tail : List Char)
    (hn : ∀ ds, n = some ds → IsNumeral ds) (ho : ¬ IsDigit other) (hne : other ≠ marker)
    (ht : Blocked marker tail) : Blocked marker (componentText n other ++ tail) := by
  cases n with
  | none => simpa [componentText] using ht
  | some ds =>
    refine ⟨ds, other :: tail, (hn ds rfl).2.1, by simp [componentText],
      Or.inr ⟨other, tail, rfl, ho, hne⟩⟩

theorem blocked_clockText (marker : Char) (hm : marker ≠ 'T')
    (t : Option (Option (List Char) × Option (List Char) × Option (List Char))) :
    Blocked marker (clockText t) := by
  cases t with
  | none => exact blocked_nil marker
  | some p =>
    obtain ⟨h, mi, s⟩ := p
    exact blocked_cons marker 'T' _ (by decide) (fun h => hm h.symm)

/-- An optional group at the text of its own component: it captures the numeral when the
component is present and nothing when it is absent, and leaves the tail. -/
theorem component_componentText (marker : Char) (n : Option (List Char)) (tail : List Char)
    (hn : ∀ ds, n = some ds → IsNumeral ds) (hm : ¬ IsDigit marker)
    (ht : Blocked marker tail) :
    component marker (componentText n marker ++ tail) = (n.getD [], tail) := by
  cases n with
  | none => simpa [componentText] using component_blocked marker tail ht
  | some ds =>
    have := component_present marker ds tail (hn ds rfl).1 (hn ds rfl).2.1 hm
    simpa [componentText] using this

end time

namespace time
open strconv

theorem mk_eq_empty (ds : List Char) : String.mk ds = "" ↔ ds = [] := by
  constructor
  · intro h
    have := congrArg String.data h
    simpa using this
  · rintro rfl
    rfl

theorem Atoi_numeral (ds : List Char) (h : IsNumeral ds) :
    Atoi (String.mk ds) = ((decimalValue 0 ds : Int), .nil) := by
  have hnum : IsInt64Numeral (String.mk ds) (decimalValue 0 ds : Int) :=
    ⟨[], ds, rfl, Or.inl rfl, h.1, h.2.1, by simp, by omega, by
      have := h.2.2
      omega⟩
  simp [Atoi, ParseInt_of_numeral _ _ hnum]

/-- One turn of the loop for a named group: the field is set when the group captured a
numeral and left alone when it captured nothing. -/
theorem parseLoop_named (i : Nat) (hi : i ≠ 0) (name : String) (n : Option (List Char))
    (hn : ∀ ds, n = some ds → IsNumeral ds) (rest : List (Nat × String × String))
    (d : Duration) (hname : name ≠ "") :
    parseLoop ((i, name, String.mk (n.getD [])) :: rest) d =
      match n with
      | none => parseLoop rest d
      | some ds =>
        if name = "year" then parseLoop rest { d with Years := (decimalValue 0 ds : Int) }
        else if name = "month" then
          parseLoop rest { d with Months := (decimalValue 0 ds : Int) }
        else if name = "day" then parseLoop rest { d with Days := (decimalValue 0 ds : Int) }
        else if name = "hour" then parseLoop rest { d with Hours := (decimalValue 0 ds : Int) }
        else if name = "minute" then
          parseLoop rest { d with Minutes := (decimalValue 0 ds : Int) }
        else if name = "second" then
          parseLoop rest { d with Seconds := (decimalValue 0 ds : Int) }
        else (none, .foreignErr ("unknown field " ++ name)) := by
  cases n with
  | none => simp [parseLoop]
  | some ds =>
    have hne : ¬ (String.mk ds = "") := by
      rw [mk_eq_empty]
      exact (hn ds rfl).1
    simp only [Option.getD_some, parseLoop, hi, hname, hne, or_self, if_false,
      Atoi_numeral ds (hn ds rfl)]

theorem parseLoop_unnamed (i : Nat) (part : String) (rest : List (Nat × String × String))
    (d : Duration) : parseLoop ((i, "", part) :: rest) d = parseLoop rest d := by
  simp [parseLoop]

theorem FindStringSubmatch_isoText (y m d : Option (List Char))
    (t : Option (Option (List Char) × Option (List Char) × Option (List Char)))
    (hy : ∀ ds, y = some ds → IsNumeral ds) (hm : ∀ ds, m = some ds → IsNumeral ds)
    (hd : ∀ ds, d = some ds → IsNumeral ds)
    (hh : ∀ ds, (clockParts t).1 = some ds → IsNumeral ds)
    (hmi : ∀ ds, (clockParts t).2.1 = some ds → IsNumeral ds)
    (hs : ∀ ds, (clockParts t).2.2 = some ds → IsNumeral ds) :
    ∃ g0 g1 g3 g5 g7 g8 g10 g12 : String,
      FindStringSubmatch (isoText y m d t) =
        some [g0, g1, String.mk (y.getD []), g3, String.mk (m.getD []), g5,
          String.mk (d.getD []), g7, g8, String.mk ((clockParts t).1.getD []), g10,
          String.mk ((clockParts t).2.1.getD []), g12,
          String.mk ((clockParts t).2.2.getD [])] := by
  have e1 : component 'Y' (componentText y 'Y' ++
      (componentText m 'M' ++ (componentText d 'D' ++ clockText t))) =
      (y.getD [], componentText m 'M' ++ (componentText d 'D' ++ clockText t)) :=
    component_componentText 'Y' y _ hy (by decide)
      (blocked_componentText 'Y' 'M' m _ hm (by decide) (by decide)
        (blocked_componentText 'Y' 'D' d _ hd (by decide) (by decide)
          (blocked_clockText 'Y' (by decide) t)))
  have e2 : component 'M' (componentText m 'M' ++ (componentText d 'D' ++ clockText t)) =
      (m.getD [], componentText d 'D' ++ clockText t) :=
    component_componentText 'M' m _ hm (by decide)
      (blocked_componentText 'M' 'D' d _ hd (by decide) (by decide)
        (blocked_clockText 'M' (by decide) t))
  have e3 : component 'D' (componentText d 'D' ++ clockText t) = (d.getD [], clockText t) :=
    component_componentText 'D' d _ hd (by decide) (blocked_clockText 'D' (by decide) t)
  cases t with
  | none =>
    simp only [clockText] at e1 e2 e3
    simp only [FindStringSubmatch, isoText, afterFirstP, if_true, clockText, e1, e2, e3,
      clockParts, Option.getD_none]
    exact ⟨_, _, _, _, _, _, _, _, rfl⟩
  | some p =>
    obtain ⟨h, mi, s⟩ := p
    simp only [clockParts] at hh hmi hs
    have bS : ∀ marker : Char, marker ≠ 'S' → Blocked marker (componentText s 'S') := by
      intro marker hne
      have := blocked_componentText marker 'S' s [] hs (by decide) (fun h => hne h.symm)
        (blocked_nil marker)
      simpa using this
    have e4 : component 'H' (componentText h 'H' ++
        (componentText mi 'M' ++ componentText s 'S')) =
        (h.getD [], componentText mi 'M' ++ componentText s 'S') :=
      component_componentText 'H' h _ hh (by decide)
        (blocked_componentText 'H' 'M' mi _ hmi (by decide) (by decide) (bS 'H' (by decide)))
    have e5 : component 'M' (componentText mi 'M' ++ componentText s 'S') =
        (mi.getD [], componentText s 'S') :=
      component_componentText 'M' mi _ hmi (by decide) (bS 'M' (by decide))
    have e6 : component 'S' (componentText s 'S') = (s.getD [], []) := by
      simpa using component_componentText 'S' s [] hs (by decide) (blocked_nil 'S')
    simp only [clockText] at e1 e2 e3
    simp only [FindStringSubmatch, isoText, afterFirstP, if_true, clockText, e1, e2, e3, e4,
      e5, e6, clockParts]
    exact ⟨_, _, _, _, _, _, _, _, rfl⟩

end time

namespace time
open strconv

theorem componentValue_eq (n : Option (List Char)) :
    (n.map fun ds => (decimalValue 0 ds : Int)).getD 0 = componentValue n := by
  cases n <;> rfl

theorem parseLoop_year (i : Nat) (hi : i ≠ 0) (n : Option (List Char))
    (hn : ∀ ds, n = some ds → IsNumeral ds) (rest : List (Nat × String × String))
    (d : Duration) :
    parseLoop ((i, "year", String.mk (n.getD [])) :: rest) d =
      parseLoop rest
        { d with Years := (n.map fun ds => (decimalValue 0 ds : Int)).getD d.Years } := by
  rw [parseLoop_named i hi "year" n hn rest d (by decide)]
  cases n <;> simp

theorem parseLoop_month (i : Nat) (hi : i ≠ 0) (n : Option (List Char))
    (hn : ∀ ds, n = some ds → IsNumeral ds) (rest : List (Nat × String × String))
    (d : Duration) :
    parseLoop ((i, "month", String.mk (n.getD [])) :: rest) d =
      parseLoop rest
        { d with Months := (n.map fun ds => (decimalValue 0 ds : Int)).getD d.Months } := by
  rw [parseLoop_named i hi "month" n hn rest d (by decide)]
  cases n <;> simp

theorem parseLoop_day (i : Nat) (hi : i ≠ 0) (n : Option (List Char))
    (hn : ∀ ds, n = some ds → IsNumeral ds) (rest : List (Nat × String × String))
    (d : Duration) :
    parseLoop ((i, "day", String.mk (n.getD [])) :: rest) d =
      parseLoop rest
        { d with Days := (n.map fun ds => (decimalValue 0 ds : Int)).getD d.Days } := by
  rw [parseLoop_named i hi "day" n hn rest d (by decide)]
  cases n <;> simp

theorem parseLoop_hour (i : Nat) (hi : i ≠ 0) (n : Option (List Char))
    (hn : ∀ ds, n = some ds → IsNumeral ds) (rest : List (Nat × String × String))
    (d : Duration) :
    parseLoop ((i, "hour", String.mk (n.getD [])) :: rest) d =
      parseLoop rest
        { d with Hours := (n.map fun ds => (decimalValue 0 ds : Int)).getD d.Hours } := by
  rw [parseLoop_named i hi "hour" n hn rest d (by decide)]
  cases n <;> simp

theorem parseLoop_minute (i : Nat) (hi : i ≠ 0) (n : Option (List Char))
    (hn : ∀ ds, n = some ds → IsNumeral ds) (rest : List (Nat × String × String))
    (d : Duration) :
    parseLoop ((i, "minute", String.mk (n.getD [])) :: rest) d =
      parseLoop rest
        { d with Minutes := (n.map fun ds => (decimalValue 0 ds : Int)).getD d.Minutes } := by
  rw [parseLoop_named i hi "minute" n hn rest d (by decide)]
  cases n <;> simp

theorem parseLoop_second (i : Nat) (hi : i ≠ 0) (n : Option (List Char))
    (hn : ∀ ds, n = some ds → IsNumeral ds) (rest : List (Nat × String × String))
    (d : Duration) :
    parseLoop ((i, "second", String.mk (n.getD [])) :: rest) d =
      parseLoop rest
        { d with Seconds := (n.map fun ds => (decimalValue 0 ds : Int)).getD d.Seconds } := by
  rw [parseLoop_named i hi "second" n hn rest d (by decide)]
  cases n <;> simp

/-! ## C15: well-formed durations -/

/-- C15: `ParseISO8601String` returns the zero `Duration` and no error for the empty
string, and for every text `P[nY][nM][nD][T[nH][nM][nS]]` whose numerals are within the
range of `int` it returns no error and the `Duration` whose fields are the numbers given,
0 for a component that is absent; an `M` before the `T` gives the months and an `M` after
it the minutes. -/
theorem ParseISO8601String_wellformed (y m d : Option (List Char))
    (t : Option (Option (List Char) × Option (List Char) × Option (List Char)))
    (hy : ∀ ds, y = some ds → IsNumeral ds) (hm : ∀ ds, m = some ds → IsNumeral ds)
    (hd : ∀ ds, d = some ds → IsNumeral ds)
    (hh : ∀ ds, (clockParts t).1 = some ds → IsNumeral ds)
    (hmi : ∀ ds, (clockParts t).2.1 = some ds → IsNumeral ds)
    (hs : ∀ ds, (clockParts t).2.2 = some ds → IsNumeral ds) :
    ParseISO8601String "" = (some ⟨0, 0, 0, 0, 0, 0⟩, .nil) ∧
    ParseISO8601String (String.mk (isoText y m d t)) =
      (some ⟨componentValue y, componentValue m, componentValue d,
        componentValue (clockParts t).1, componentValue (clockParts t).2.1,
        componentValue (clockParts t).2.2⟩, .nil) := by
  refine ⟨rfl, ?_⟩
  obtain ⟨g0, g1, g3, g5, g7, g8, g10, g12, hg⟩ :=
    FindStringSubmatch_isoText y m d t hy hm hd hh hmi hs
  have hne : ¬ (String.mk (isoText y m d t) = "") := by
    rw [mk_eq_empty]
    simp [isoText]
  have hz : ∀ a2 a4 a6 a9 a11 a13 : String,
      (List.range 14).zip (SubexpNames.zip
        [g0, g1, a2, g3, a4, g5, a6, g7, g8, a9, g10, a11, g12, a13]) =
      [(0, "", g0), (1, "", g1), (2, "year", a2), (3, "", g3), (4, "month", a4),
        (5, "", g5), (6, "day", a6), (7, "", g7), (8, "", g8), (9, "hour", a9),
        (10, "", g10), (11, "minute", a11), (12, "", g12), (13, "second", a13)] := by
    intros
    rfl
  simp only [ParseISO8601String, hne, if_false, MatchString, hg, Option.isSome_some, if_true,
    hz, parseLoop_unnamed]
  rw [parseLoop_year 2 (by decide) y hy, parseLoop_unnamed,
    parseLoop_month 4 (by decide) m hm, parseLoop_unnamed,
    parseLoop_day 6 (by decide) d hd, parseLoop_unnamed, parseLoop_unnamed,
    parseLoop_hour 9 (by decide) _ hh, parseLoop_unnamed,
    parseLoop_minute 11 (by decide) _ hmi, parseLoop_unnamed,
    parseLoop_second 13 (by decide) _ hs]
  simp only [parseLoop, componentValue_eq]

theorem ParseISO8601String_wellformed_witness :
    ParseISO8601String "P3MT15M" = (some ⟨0, 3, 0, 0, 15, 0⟩, .nil) :=
  (ParseISO8601String_wellformed none (some ['3']) none (some (none, some ['1', '5'], none))
    (by simp) (by simp [IsNumeral]; decide) (by simp) (by simp [clockParts])
    (by simp [clockParts, IsNumeral]; decide) (by simp [clockParts])).2

end time

namespace time

/-! ## C16: texts that are not of the format -/

/-- C16: the expression `full` is not anchored, so a text with characters before the `P`,
one with characters after the last component and one with components out of order are all
parsed without an error; only a text without any `P` is refused with `ErrBadFormat`. -/
theorem ParseISO8601String_accepts_malformed :
    ParseISO8601String "xP3M" = (some ⟨0, 3, 0, 0, 0, 0⟩, .nil) ∧
    ParseISO8601String "P3Mx" = (some ⟨0, 3, 0, 0, 0, 0⟩, .nil) ∧
    ParseISO8601String "P1D2Y" = (some ⟨0, 0, 1, 0, 0, 0⟩, .nil) ∧
    ParseISO8601String "3M" = (none, ErrBadFormat) := by
  refine ⟨?_, ?_, ?_, ?_⟩ <;> decide

end time

namespace gotime

/-! ## Digits of the layout fields -/

theorem digitChar_facts (k : Nat) (hk : k < 10) :
    isDigit (Nat.digitChar k) = true ∧ digit (Nat.digitChar k) = (k : Int) ∧
      (Nat.digitChar k).toNat - '0'.toNat = k ∧ Nat.digitChar k ≠ '-' ∧
      Nat.digitChar k ≠ '+' := by
  interval_cases k <;> decide

theorem toDigits_length_le (u e : Nat) (he : 0 < e) (hu : u < 10 ^ e) :
    (Nat.toDigits 10 u).length ≤ e :=
  Nat.toDigitsCore_length 10 (by decide) (u + 1) u e hu he

theorem appendInt_two (n : Nat) (hn : n < 100) :
    appendInt (n : Int) 2 = [Nat.digitChar (n / 10), Nat.digitChar (n % 10)] := by
  have hl := toDigits_length_le n 2 (by decide) (by simpa using hn)
  have hneg : ¬ ((n : Int) < 0) := by omega
  have hr : (List.range 2).reverse = [1, 0] := rfl
  have h1 : n / 10 % 10 = n / 10 := by omega
  simp [appendInt, hneg, Nat.max_eq_left hl, hr, h1]

theorem appendInt_four (n : Nat) (hn : n < 10000) :
    appendInt (n : Int) 4 =
      [Nat.digitChar (n / 1000), Nat.digitChar (n / 100 % 10), Nat.digitChar (n / 10 % 10),
        Nat.digitChar (n % 10)] := by
  have hl := toDigits_length_le n 4 (by decide) (by simpa using hn)
  have hneg : ¬ ((n : Int) < 0) := by omega
  have hr : (List.range 4).reverse = [3, 2, 1, 0] := rfl
  have h1 : n / 1000 % 10 = n / 1000 := by omega
  simp [appendInt, hneg, Nat.max_eq_left hl, hr, h1]

theorem appendInt_nine_micro (n : Nat) (hn : n < 1000000000) :
    (appendInt (n : Int) 9).take ((appendInt (n : Int) 9).length - 3) =
      [Nat.digitChar (n / 100000000), Nat.digitChar (n / 10000000 % 10),
        Nat.digitChar (n / 1000000 % 10), Nat.digitChar (n / 100000 % 10),
        Nat.digitChar (n / 10000 % 10), Nat.digitChar (n / 1000 % 10)] := by
  have hl := toDigits_length_le n 9 (by decide) (by simpa using hn)
  have hneg : ¬ ((n : Int) < 0) := by omega
  have hr : (List.range 9).reverse = [8, 7, 6, 5, 4, 3, 2, 1, 0] := rfl
  have h1 : n / 100000000 % 10 = n / 100000000 := by omega
  simp [appendInt, hneg, Nat.max_eq_left hl, hr, h1]

theorem getnum_two (a b : Nat) (ha : a < 10) (hb : b < 10) (rest : List Char)
    (fixed : Bool) :
    getnum (Nat.digitChar a :: Nat.digitChar b :: rest) fixed =
      some ((a : Int) * 10 + (b : Int), rest) := by
  obtain ⟨a1, a2, -, -, -⟩ := digitChar_facts a ha
  obtain ⟨b1, b2, -, -, -⟩ := digitChar_facts b hb
  simp [getnum, a1, a2, b1, b2]

theorem leadingInt_step (x k : Nat) (hk : k < 10) (hx : x < 100000000) (cs : List Char) :
    leadingInt x (Nat.digitChar k :: cs) = leadingInt (x * 10 + k) cs := by
  obtain ⟨k1, -, k3, -, -⟩ := digitChar_facts k hk
  have h1 : ¬ (x > 2 ^ 63 / 10) := by omega
  have h2 : ¬ (x * 10 + k > 2 ^ 63) := by omega
  simp only [leadingInt, k1, k3, if_true, if_neg h1, if_neg h2]

theorem atoi_four (a b c d : Nat) (ha : a < 10) (hb : b < 10) (hc : c < 10) (hd : d < 10) :
    atoi [Nat.digitChar a, Nat.digitChar b, Nat.digitChar c, Nat.digitChar d] =
      some (((a * 1000 + b * 100 + c * 10 + d : Nat) : Int)) := by
  obtain ⟨-, -, -, a4, a5⟩ := digitChar_facts a ha
  have hl : leadingInt 0 [Nat.digitChar a, Nat.digitChar b, Nat.digitChar c,
      Nat.digitChar d] = some (a * 1000 + b * 100 + c * 10 + d, []) := by
    rw [leadingInt_step 0 a ha (by omega), leadingInt_step _ b hb (by omega),
      leadingInt_step _ c hc (by omega), leadingInt_step _ d hd (by omega)]
    simp only [leadingInt]
    congr 2
    omega
  simp [atoi, a4, a5, hl]

theorem atoi_six (a b c d e f : Nat) (ha : a < 10) (hb : b < 10) (hc : c < 10) (hd : d < 10)
    (he : e < 10) (hf : f < 10) :
    atoi [Nat.digitChar a, Nat.digitChar b, Nat.digitChar c, Nat.digitChar d,
        Nat.digitChar e, Nat.digitChar f] =
      some (((a * 100000 + b * 10000 + c * 1000 + d * 100 + e * 10 + f : Nat) : Int)) := by
  obtain ⟨-, -, -, a4, a5⟩ := digitChar_facts a ha
  have hl : leadingInt 0 [Nat.digitChar a, Nat.digitChar b, Nat.digitChar c,
      Nat.digitChar d, Nat.digitChar e, Nat.digitChar f] =
      some (a * 100000 + b * 10000 + c * 1000 + d * 100 + e * 10 + f, []) := by
    rw [leadingInt_step 0 a ha (by omega), leadingInt_step _ b hb (by omega),
      leadingInt_step _ c hc (by omega), leadingInt_step _ d hd (by omega),
      leadingInt_step _ e he (by omega), leadingInt_step _ f hf (by omega)]
    simp only [leadingInt]
    congr 2
    omega
  simp [atoi, a4, a5, hl]

end gotime
namespace gotime

/-! ## The chunks of the layout -/

theorem parseYear_four (y : Nat) (hy : y < 10000) (rest : List Char) :
    parseYear (Nat.digitChar (y / 1000) :: Nat.digitChar (y / 100 % 10) ::
      Nat.digitChar (y / 10 % 10) :: Nat.digitChar (y % 10) :: rest) =
      some ((y : Int), rest) := by
  obtain ⟨a1, -, -, -, -⟩ := digitChar_facts (y / 1000) (by omega)
  have h4 := atoi_four (y / 1000) (y / 100 % 10) (y / 10 % 10) (y % 10) (by omega) (by omega)
    (by omega) (by omega)
  have hv : y / 1000 * 1000 + y / 100 % 10 * 100 + y / 10 % 10 * 10 + y % 10 = y := by omega
  rw [hv] at h4
  simp [parseYear, a1, h4]

theorem parseField_two (n : Nat) (hn : n < 100) (lo hi : Int) (hlo : lo ≤ (n : Int))
    (hhi : (n : Int) < hi) (rest : List Char) (fixed : Bool) :
    parseField (Nat.digitChar (n / 10) :: Nat.digitChar (n % 10) :: rest) fixed lo hi =
      some ((n : Int), rest) := by
  have hg := getnum_two (n / 10) (n % 10) (by omega) (by omega) rest fixed
  have hv : ((n / 10 : Nat) : Int) * 10 + ((n % 10 : Nat) : Int) = (n : Int) := by omega
  rw [hv] at hg
  have hr : ¬ ((n : Int) < lo ∨ hi ≤ (n : Int)) := by omega
  simp [parseField, hg, hr]

theorem parseFrac_micro (n : Nat) (hn : n < 1000000000) (hm : n % 1000 = 0)
    (rest : List Char) :
    parseFrac ('.' :: Nat.digitChar (n / 100000000) :: Nat.digitChar (n / 10000000 % 10) ::
      Nat.digitChar (n / 1000000 % 10) :: Nat.digitChar (n / 100000 % 10) ::
      Nat.digitChar (n / 10000 % 10) :: Nat.digitChar (n / 1000 % 10) :: rest) =
      some ((n : Int), rest) := by
  have h6 := atoi_six (n / 100000000) (n / 10000000 % 10) (n / 1000000 % 10)
    (n / 100000 % 10) (n / 10000 % 10) (n / 1000 % 10) (by omega) (by omega) (by omega)
    (by omega) (by omega) (by omega)
  have hv : n / 100000000 * 100000 + n / 10000000 % 10 * 10000 + n / 1000000 % 10 * 1000 +
      n / 100000 % 10 * 100 + n / 10000 % 10 * 10 + n / 1000 % 10 = n / 1000 := by omega
  rw [hv] at h6
  have hns : ¬ (((n / 1000 : Nat) : Int) < 0) := by omega
  have hval : ((n / 1000 : Nat) : Int) * 10 ^ (10 - 7) = (n : Int) := by
    norm_num
    omega
  simp only [parseFrac, parseNanoseconds, List.length_cons, List.take_succ_cons,
    List.take_zero, List.drop_succ_cons, List.drop_zero, true_or, if_true, h6, hns, if_false,
    hval]
  simp

end gotime
namespace gotime

/-- The text of the layout for given fields. -/
theorem formatLit_fields (t : Time) (y mo dd h mi s n : Nat)
    (hY : t.Year = (y : Int)) (hMo : t.Month = (mo : Int)) (hD : t.Day = (dd : Int))
    (hH : t.Hour = (h : Int)) (hMi : t.Minute = (mi : Int)) (hS : t.Second = (s : Int))
    (hN : t.Nanosecond = (n : Int)) (by4 : y < 10000) (bmo : mo < 100) (bdd : dd < 100)
    (bh : h < 100) (bmi : mi < 100) (bs : s < 100) (bn : n < 1000000000) :
    formatLit t =
      [Nat.digitChar (y / 1000), Nat.digitChar (y / 100 % 10), Nat.digitChar (y / 10 % 10),
        Nat.digitChar (y % 10), '-', Nat.digitChar (mo / 10), Nat.digitChar (mo % 10), '-',
        Nat.digitChar (dd / 10), Nat.digitChar (dd % 10), 'T', Nat.digitChar (h / 10),
        Nat.digitChar (h % 10), ':', Nat.digitChar (mi / 10), Nat.digitChar (mi % 10), ':',
        Nat.digitChar (s / 10), Nat.digitChar (s % 10), '.', Nat.digitChar (n / 100000000),
        Nat.digitChar (n / 10000000 % 10), Nat.digitChar (n / 1000000 % 10),
        Nat.digitChar (n / 100000 % 10), Nat.digitChar (n / 10000 % 10),
        Nat.digitChar (n / 1000 % 10)] := by
  simp only [formatLit, hY, hMo, hD, hH, hMi, hS, hN, appendInt_four y by4,
    appendInt_two mo bmo, appendInt_two dd bdd, appendInt_two h bh, appendInt_two mi bmi,
    appendInt_two s bs, appendInt_nine_micro n bn, List.cons_append, List.nil_append]

/-- Parsing the quoted text of the layout gives back the fields. -/
theorem parseLit_fields (y mo dd h mi s n : Nat) (by4 : y < 10000)
    (bmo : 1 ≤ mo ∧ mo ≤ 12) (bdd : 1 ≤ dd ∧ (dd : Int) ≤ daysIn mo y) (bh : h < 24)
    (bmi : mi < 60) (bs : s < 60) (bn : n < 1000000000) (hm : n % 1000 = 0) :
    parseLit ('"' ::
      ([Nat.digitChar (y / 1000), Nat.digitChar (y / 100 % 10), Nat.digitChar (y / 10 % 10),
        Nat.digitChar (y % 10), '-', Nat.digitChar (mo / 10), Nat.digitChar (mo % 10), '-',
        Nat.digitChar (dd / 10), Nat.digitChar (dd % 10), 'T', Nat.digitChar (h / 10),
        Nat.digitChar (h % 10), ':', Nat.digitChar (mi / 10), Nat.digitChar (mi % 10), ':',
        Nat.digitChar (s / 10), Nat.digitChar (s % 10), '.', Nat.digitChar (n / 100000000),
        Nat.digitChar (n / 10000000 % 10), Nat.digitChar (n / 1000000 % 10),
        Nat.digitChar (n / 100000 % 10), Nat.digitChar (n / 10000 % 10),
        Nat.digitChar (n / 1000 % 10)] ++ ['"'])) UTC =
      some (Date y mo dd h mi s n UTC) := by
  have hd31 : (dd : Int) ≤ 31 :=
    le_trans bdd.2 (daysIn_le mo y (by omega) (by omega))
  have hdate : parseDate ('"' ::
      ([Nat.digitChar (y / 1000), Nat.digitChar (y / 100 % 10), Nat.digitChar (y / 10 % 10),
        Nat.digitChar (y % 10), '-', Nat.digitChar (mo / 10), Nat.digitChar (mo % 10), '-',
        Nat.digitChar (dd / 10), Nat.digitChar (dd % 10), 'T', Nat.digitChar (h / 10),
        Nat.digitChar (h % 10), ':', Nat.digitChar (mi / 10), Nat.digitChar (mi % 10), ':',
        Nat.digitChar (s / 10), Nat.digitChar (s % 10), '.', Nat.digitChar (n / 100000000),
        Nat.digitChar (n / 10000000 % 10), Nat.digitChar (n / 1000000 % 10),
        Nat.digitChar (n / 100000 % 10), Nat.digitChar (n / 10000 % 10),
        Nat.digitChar (n / 1000 % 10)] ++ ['"'])) =
      some (((y : Int), (mo : Int), (dd : Int)),
        [Nat.digitChar (h / 10), Nat.digitChar (h % 10), ':', Nat.digitChar (mi / 10),
          Nat.digitChar (mi % 10), ':', Nat.digitChar (s / 10), Nat.digitChar (s % 10), '.',
          Nat.digitChar (n / 100000000), Nat.digitChar (n / 10000000 % 10),
          Nat.digitChar (n / 1000000 % 10), Nat.digitChar (n / 100000 % 10),
          Nat.digitChar (n / 10000 % 10), Nat.digitChar (n / 1000 % 10), '"']) := by
    simp only [parseDate, skip, List.cons_append, List.nil_append, if_true,
      parseYear_four y by4, parseField_two mo (by omega) 1 13 (by omega) (by omega),
      getnum_two (dd / 10) (dd % 10) (by omega) (by omega)]
    have hv : ((dd / 10 : Nat) : Int) * 10 + ((dd % 10 : Nat) : Int) = (dd : Int) := by omega
    rw [hv]
  have hclock : parseClock
      [Nat.digitChar (h / 10), Nat.digitChar (h % 10), ':', Nat.digitChar (mi / 10),
        Nat.digitChar (mi % 10), ':', Nat.digitChar (s / 10), Nat.digitChar (s % 10), '.',
        Nat.digitChar (n / 100000000), Nat.digitChar (n / 10000000 % 10),
        Nat.digitChar (n / 1000000 % 10), Nat.digitChar (n / 100000 % 10),
        Nat.digitChar (n / 10000 % 10), Nat.digitChar (n / 1000 % 10), '"'] =
      some ((h : Int), (mi : Int), (s : Int), (n : Int)) := by
    simp only [parseClock, skip, if_true,
      parseField_two h (by omega) 0 24 (by omega) (by omega),
      parseField_two mi (by omega) 0 60 (by omega) (by omega),
      parseField_two s (by omega) 0 60 (by omega) (by omega), parseFrac_micro n bn hm]
  have hday : ¬ ((dd : Int) < 1 ∨ (dd : Int) > daysIn mo y) := by
    have := bdd.2
    omega
  simp only [parseLit, hdate, hclock, hday, if_false]

end gotime
namespace time
open gotime

/-! ## C19: JSON round trip of `Time` -/

/-- C19: for a `Time` whose year in UTC is in 0..9999 and whose nanoseconds are a whole
number of microseconds, `MarshalJSON` returns, without an error, the quoted text of the
value in UTC in the layout `2006-01-02T15:04:05.000000`; `UnmarshalJSON` of that text
succeeds and stores the same instant in UTC, which has the same `String()`. -/
theorem Time_json_round_trip (t : Time) (hy0 : 0 ≤ t.UTC.Year) (hy1 : t.UTC.Year ≤ 9999)
    (hn0 : 0 ≤ t.nsec) (hn1 : t.nsec < 1000000000) (hmicro : t.nsec % 1000 = 0) :
    Time.MarshalJSON t = (String.mk ('"' :: (formatLit t.UTC ++ ['"'])), .nil) ∧
    Time.UnmarshalJSON (Time.MarshalJSON t).1 = (t.UTC, .nil) ∧
    Time.String (Time.UnmarshalJSON (Time.MarshalJSON t).1).1 = Time.String t := by
  obtain ⟨W, hW⟩ : ∃ W : Int, W = t.UTC.abs := ⟨_, rfl⟩
  have hWdef : W = wrapU64 (t.sec + 0 + unixToAbsolute) := hW
  have hsr := t.secInt64
  have hWr : 0 ≤ W ∧ W < 2 ^ 64 := by
    rw [hWdef]
    unfold wrapU64
    omega
  have hY := hy0
  have hY1 := hy1
  simp only [Time.Year, ← hW] at hY hY1
  obtain ⟨hd1, hd2, hd3, hd4, hd5⟩ := yearDay_spec (W / 86400) (by omega) (by omega)
  obtain ⟨hm1, hm12, hday1, hdayIn, -⟩ := monthDay_spec _ _ hd2 hd3
  have hdn := dayNumber_date (W / 86400) (by omega) (by omega)
  simp only [absoluteZeroYear] at hd4 hd5
  have habs : W = t.sec + 9223372028715321600 := by
    simp only [wrapU64, unixToAbsolute] at hWdef
    omega
  clear hWdef hd1 hd4 hd5 hY hY1
  -- the fields as natural numbers
  obtain ⟨y, hy⟩ : ∃ y : Nat, t.UTC.Year = (y : Int) := ⟨t.UTC.Year.toNat, by omega⟩
  obtain ⟨mo, hmo⟩ : ∃ mo : Nat, t.UTC.Month = (mo : Int) :=
    ⟨t.UTC.Month.toNat, by simp only [Time.Month, ← hW]; omega⟩
  obtain ⟨dd, hdd⟩ : ∃ dd : Nat, t.UTC.Day = (dd : Int) :=
    ⟨t.UTC.Day.toNat, by simp only [Time.Day, ← hW]; omega⟩
  obtain ⟨h, hh⟩ : ∃ h : Nat, t.UTC.Hour = (h : Int) :=
    ⟨t.UTC.Hour.toNat, by simp only [Time.Hour, ← hW]; omega⟩
  obtain ⟨mi, hmi⟩ : ∃ mi : Nat, t.UTC.Minute = (mi : Int) :=
    ⟨t.UTC.Minute.toNat, by simp only [Time.Minute, ← hW]; omega⟩
  obtain ⟨s, hs⟩ : ∃ s : Nat, t.UTC.Second = (s : Int) :=
    ⟨t.UTC.Second.toNat, by simp only [Time.Second, ← hW]; omega⟩
  obtain ⟨n, hnn⟩ : ∃ n : Nat, t.UTC.Nanosecond = (n : Int) :=
    ⟨t.nsec.toNat, by simp only [Time.Nanosecond, Time.UTC]; omega⟩
  have hYe : (yearDay (W / 86400)).1 = (y : Int) := by
    rw [← hy, Time.Year, ← hW]
  have hMe : (monthDay (yearDay (W / 86400)).1 (yearDay (W / 86400)).2).1 = (mo : Int) := by
    rw [← hmo, Time.Month, ← hW]
  have hDe : (monthDay (yearDay (W / 86400)).1 (yearDay (W / 86400)).2).2 = (dd : Int) := by
    rw [← hdd, Time.Day, ← hW]
  have hHe : W % 86400 / 3600 = (h : Int) := by
    rw [← hh, Time.Hour, ← hW]
  have hMie : W % 3600 / 60 = (mi : Int) := by
    rw [← hmi, Time.Minute, ← hW]
  have hSe : W % 60 = (s : Int) := by
    rw [← hs, Time.Second, ← hW]
  have hNe : t.nsec = (n : Int) := hnn
  rw [hDe, hMe, hYe] at hdayIn
  rw [hMe] at hm1 hm12
  rw [hDe] at hday1
  rw [hDe, hMe, hYe] at hdn
  have hd31 := daysIn_le mo y hm1 hm12
  have hfmt := formatLit_fields t.UTC y mo dd h mi s n hy hmo hdd hh hmi hs hnn
    (by omega) (by omega) (by omega) (by omega) (by omega) (by omega) (by omega)
  have hparse := parseLit_fields y mo dd h mi s n (by omega) ⟨by omega, by omega⟩
    ⟨by omega, hdayIn⟩ (by omega) (by omega) (by omega) (by omega) (by omega)
  have hsec : dayNumber y mo dd * 86400 + (h : Int) * 3600 + (mi : Int) * 60 + (s : Int) -
      unixToAbsolute = t.sec := by
    rw [hdn, ← hHe, ← hMie, ← hSe]
    simp only [unixToAbsolute]
    omega
  have hDate : Date y mo dd h mi s n gotime.UTC = t.UTC := by
    obtain ⟨r1, r2, r3⟩ := Date_in_range y mo dd h mi s n ⟨by omega, by omega⟩ hm1 hm12
      ⟨by omega, by omega⟩ ⟨by omega, by omega⟩ ⟨by omega, by omega⟩ ⟨by omega, by omega⟩
      ⟨by omega, by omega⟩ (by rw [hsec]; exact hsr.1) (by rw [hsec]; exact hsr.2)
    apply Time_eq
    · rw [r1, hsec]
      rfl
    · rw [r2, ← hNe]
      rfl
    · rw [r3]
      rfl
  have hun : Time.UnmarshalJSON (Time.MarshalJSON t).1 = (t.UTC, .nil) := by
    simp only [Time.UnmarshalJSON, Time.MarshalJSON, hfmt, hparse, hDate]
  refine ⟨rfl, hun, ?_⟩
  rw [hun]
  rfl

theorem Time_json_round_trip_witness :
    Time.UnmarshalJSON
        (Time.MarshalJSON (gotime.Unix ⟨"Local", 28800⟩ 1234567890 0)).1 =
      ((gotime.Unix ⟨"Local", 28800⟩ 1234567890 0).UTC, .nil) ∧
    Time.String (gotime.Unix ⟨"Local", 28800⟩ 1234567890 0) = "2009-02-13T23:31:30.000000" :=
  ⟨(Time_json_round_trip (gotime.Unix ⟨"Local", 28800⟩ 1234567890 0) (by decide) (by decide)
    (by decide) (by decide) (by decide)).2.1, by decide⟩

end time

namespace errors

/-! ## C21: the message `WithErrors` gives -/

/-- C21 (the code departs from it): for an error whose cause is an exception with an empty
`Message`, the exception under `WithErrors` keeps the empty `Message` instead of the text of
its HTTP status; with `Status` 400 that text is `Bad Request`. For a cause that is not an
exception the message is the status text of `ErrInternal`, and `WithErrors(nil)` is nil. -/
theorem WithErrors_keeps_empty_message (E : exception) :
    (∀ (c : String) (s : Int) (d : List (String × String)) (g : Nat) (inner : GoError),
      Cause (WithErrors E (.exc (.mk c s "" d g inner))) = .exc (.mk c s "" [] 0 .nil)) ∧
    Cause (WithErrors E (WithStack (.exc (.mk "400001" 400 "" [] 3 .nil)))) =
      .exc (.mk "400001" 400 "" [] 0 .nil) ∧
    http.StatusText 400 = "Bad Request" ∧
    (∀ t : String, Cause (WithErrors E (.foreignErr t)) =
      .exc (.mk E.Code E.Status (http.StatusText E.Status) [] 0 .nil)) ∧
    WithErrors E .nil = .nil := by
  refine ⟨?_, ?_, ?_, ?_, ?_⟩
  · intro c s d g inner
    rfl
  · rfl
  · decide
  · intro t
    rfl
  · rfl

/-! ## C23: the sentinels under `ConvertHttpErr` -/

theorem Sentinels.get_set (S : Sentinels) (n : SentinelName) (e : exception) :
    (S.set n e).get n = e := by
  cases n <;> rfl

/-- C23 (the code departs from it): when the message of the status is not an encoded
exception, `ConvertHttpErr` writes that message into the sentinel chosen for the code of the
status, and the error returned wraps that sentinel itself; the sentinel keeps its `Code` and
`Status` only. -/
theorem ConvertHttpErr_overwrites_sentinel (S : Sentinels)
    (convert : GoError → Option grpc.Status) (unmarshal : String → Option exception)
    (err : GoError) (s : grpc.Status) (hne : err ≠ .nil) (hc : convert err = some s)
    (hj : unmarshal s.Message = none) :
    ((ConvertHttpErr S convert unmarshal err).2.get (selectSentinel s.Code)).Message =
      s.Message ∧
    ((ConvertHttpErr S convert unmarshal err).2.get (selectSentinel s.Code)).Code =
      (S.get (selectSentinel s.Code)).Code ∧
    ((ConvertHttpErr S convert unmarshal err).2.get (selectSentinel s.Code)).Status =
      (S.get (selectSentinel s.Code)).Status ∧
    (ConvertHttpErr S convert unmarshal err).1 =
      .withStack (.exc ((ConvertHttpErr S convert unmarshal err).2.get
        (selectSentinel s.Code))) := by
  have h : ConvertHttpErr S convert unmarshal err = switchCode S s := by
    unfold ConvertHttpErr
    rw [if_neg hne, hc]
    simp only [hj]
  rw [h]
  simp only [switchCode, Sentinels.get_set]
  generalize S.get (selectSentinel s.Code) = e
  obtain ⟨c, st, m, d, g, i⟩ := e
  exact ⟨rfl, rfl, rfl, rfl⟩

theorem ConvertHttpErr_overwrites_sentinel_witness :
    (Sample.sentinels.ErrResourceNotFound).Message = "resource not found" ∧
    ((ConvertHttpErr Sample.sentinels (fun _ => some ⟨5, "order 7 not found"⟩)
      (fun _ => none) (grpc.statusError 5 "order 7 not found")).2.ErrResourceNotFound).Message =
      "order 7 not found" :=
  ⟨rfl, (ConvertHttpErr_overwrites_sentinel Sample.sentinels
    (fun _ => some ⟨5, "order 7 not found"⟩) (fun _ => none)
    (grpc.statusError 5 "order 7 not found") ⟨5, "order 7 not found"⟩ (by decide) rfl rfl).1⟩

/-! ## C24: `ConvertProtoErr` after `WithErrors` -/

/-- C24 (the code departs from it): for every non-nil error `err`, `WithErrors(err)` is a
non-nil error, yet `ConvertProtoErr` of it is nil: the exception `WithErrors` builds has the
zero `GRPCCode`, for which `status.Error` returns nil. -/
theorem ConvertProtoErr_swallows_WithErrors (E : exception) (marshal : exception → String)
    (err : GoError) (hne : err ≠ .nil) :
    WithErrors E err ≠ .nil ∧ ConvertProtoErr E marshal (WithErrors E err) = .nil := by
  unfold WithErrors
  rw [if_neg hne]
  cases h : asException (Cause err) with
  | none => exact ⟨by simp [WithStack], rfl⟩
  | some e => exact ⟨by simp [WithStack], rfl⟩

theorem ConvertProtoErr_swallows_WithErrors_witness :
    WithErrors Sample.ErrInternal (.exc (.mk "404000" 404 "resource not found" [] 5 .nil)) =
      .withStack (.exc (.mk "404000" 404 "resource not found" [] 0 .nil)) ∧
    ConvertProtoErr Sample.ErrInternal (fun e => e.Message)
      (WithErrors Sample.ErrInternal
        (.exc (.mk "404000" 404 "resource not found" [] 5 .nil))) = .nil :=
  ⟨rfl, (ConvertProtoErr_swallows_WithErrors Sample.ErrInternal (fun e => e.Message)
    (.exc (.mk "404000" 404 "resource not found" [] 5 .nil)) (by decide)).2⟩

end errors

namespace traceTime

/-! ## C25: the elapsed time by the metadata -/

/-- The two functions agree when the metadata, the key or the first value is missing and
when the first value is a well-formed number. -/
theorem SubMetadataTimeFromContext_agrees (env : Env) (md : Option Header)
    (h : ∀ v rest, (md.getD []).lookup "x-time" = some (v :: rest) →
      (strconv.ParseInt v).2 = none) :
    SubMetadataTimeFromContext env md =
      wrap64 (NewTime env - MetadataTimeFromContext env md) := by
  cases md with
  | none => rfl
  | some m =>
    simp only [Option.getD_some] at h
    unfold SubMetadataTimeFromContext MetadataTimeFromContext
    simp only [Option.getD_some]
    cases hl : m.lookup "x-time" with
    | none => rfl
    | some vs =>
      cases vs with
      | nil => rfl
      | cons v rest =>
        have hv := h v rest hl
        rcases hp : strconv.ParseInt v with ⟨n, e⟩
        rw [hp] at hv
        simp only at hv
        subst hv
        simp only [hp]

/-- C25 (the code departs from it): when the first `x-time` value cannot be parsed,
`MetadataTimeFromContext` is the clock reading, so that the elapsed time by it is zero, while
`SubMetadataTimeFromContext` subtracts the value `strconv.ParseInt` returned with its error
(zero for a text that is no number). -/
theorem SubMetadataTimeFromContext_unparsable (env : Env) (md : Header) (v : String)
    (rest : List String) (hl : md.lookup "x-time" = some (v :: rest))
    (herr : (strconv.ParseInt v).2 ≠ none) :
    MetadataTimeFromContext env (some md) = NewTime env ∧
    SubMetadataTimeFromContext env (some md) =
      wrap64 (NewTime env - (strconv.ParseInt v).1) := by
  unfold SubMetadataTimeFromContext MetadataTimeFromContext
  simp only [Option.getD_some, hl]
  rcases hp : strconv.ParseInt v with ⟨n, e⟩
  rw [hp] at herr
  cases e with
  | none => exact absurd rfl herr
  | some e => simp

theorem SubMetadataTimeFromContext_unparsable_witness :
    MetadataTimeFromContext Sample.env (some [("x-time", ["abc"])]) = 1700000000123 ∧
    SubMetadataTimeFromContext Sample.env (some [("x-time", ["abc"])]) = 1700000000123 ∧
    SubMetadataTimeFromContext Sample.env (some []) = 0 := by
  have h := SubMetadataTimeFromContext_unparsable Sample.env [("x-time", ["abc"])] "abc" []
    rfl (by decide)
  refine ⟨h.1.trans (by decide), h.2.trans (by decide), by decide⟩

end traceTime

namespace nats

/-! ## C22: the wait counter -/

/-- C22 (the code departs from it): `NewNatsConn` adds one to the wait counter whether or
not the connect succeeds. After one connection is opened and a second connect is refused the
counter is 2; the closed event of the only connection leaves it at 1, and a `Drain` of that
connection stays blocked although every opened connection has closed. -/
theorem NewNatsConn_counts_refused_connect :
    (∀ (σ : Type) (tr : Transport σ) (env : Env) (c : Config) (w : World σ),
      (NewNatsConn tr env c w).2.2.waitGroup = w.waitGroup + 1) ∧
    (NewNatsConn Sample.firstOnly Sample.env Sample.config (Sample.world 0)).1.1 =
      some ⟨0⟩ ∧
    (NewNatsConn Sample.firstOnly Sample.env Sample.config
      (NewNatsConn Sample.firstOnly Sample.env Sample.config (Sample.world 0)).2.2).1.1 =
      none ∧
    (NewNatsConn Sample.firstOnly Sample.env Sample.config
      (NewNatsConn Sample.firstOnly Sample.env Sample.config
        (Sample.world 0)).2.2).2.2.waitGroup = 2 ∧
    (closedHandler (NewNatsConn Sample.firstOnly Sample.env Sample.config
      (NewNatsConn Sample.firstOnly Sample.env Sample.config
        (Sample.world 0)).2.2).2.2).waitGroup = 1 ∧
    (Drain Sample.firstOnly Sample.client [1]
      (NewNatsConn Sample.firstOnly Sample.env Sample.config
        (NewNatsConn Sample.firstOnly Sample.env Sample.config
          (Sample.world 0)).2.2).2.2).1 = .blocked := by
  refine ⟨?_, ?_, ?_, ?_, ?_, ?_⟩
  · intro σ tr env c w
    rfl
  · rfl
  · rfl
  · rfl
  · rfl
  · rfl

end nats

namespace time
open strconv

/-! ## C26: round trip of a duration through its text -/

/-- The duration read from a text `P[nY][nM][nD][T[nH][nM][nS]]` whose numerals are within
the range of `int`. -/
theorem ParseISO8601String_isoText (y m d : Option (List Char))
    (t : Option (Option (List Char) × Option (List Char) × Option (List Char)))
    (hy : ∀ ds, y = some ds → IsNumeral ds) (hm : ∀ ds, m = some ds → IsNumeral ds)
    (hd : ∀ ds, d = some ds → IsNumeral ds)
    (hh : ∀ ds, (clockParts t).1 = some ds → IsNumeral ds)
    (hmi : ∀ ds, (clockParts t).2.1 = some ds → IsNumeral ds)
    (hs : ∀ ds, (clockParts t).2.2 = some ds → IsNumeral ds) :
    ParseISO8601String (String.mk (isoText y m d t)) =
      (some ⟨componentValue y, componentValue m, componentValue d,
        componentValue (clockParts t).1, componentValue (clockParts t).2.1,
        componentValue (clockParts t).2.2⟩, .nil) := by
  obtain ⟨g0, g1, g3, g5, g7, g8, g10, g12, hg⟩ :=
    FindStringSubmatch_isoText y m d t hy hm hd hh hmi hs
  have hne : ¬ (String.mk (isoText y m d t) = "") := by
    rw [mk_eq_empty]
    simp [isoText]
  have hz : ∀ a2 a4 a6 a9 a11 a13 : String,
      (List.range 14).zip (SubexpNames.zip
        [g0, g1, a2, g3, a4, g5, a6, g7, g8, a9, g10, a11, g12, a13]) =
      [(0, "", g0), (1, "", g1), (2, "year", a2), (3, "", g3), (4, "month", a4),
        (5, "", g5), (6, "day", a6), (7, "", g7), (8, "", g8), (9, "hour", a9),
        (10, "", g10), (11, "minute", a11), (12, "", g12), (13, "second", a13)] := by
    intros
    rfl
  simp only [ParseISO8601String, hne, if_false, MatchString, hg, Option.isSome_some, if_true,
    hz, parseLoop_unnamed]
  rw [parseLoop_year 2 (by decide) y hy, parseLoop_unnamed,
    parseLoop_month 4 (by decide) m hm, parseLoop_unnamed,
    parseLoop_day 6 (by decide) d hd, parseLoop_unnamed, parseLoop_unnamed,
    parseLoop_hour 9 (by decide) _ hh, parseLoop_unnamed,
    parseLoop_minute 11 (by decide) _ hmi, parseLoop_unnamed,
    parseLoop_second 13 (by decide) _ hs]
  simp only [parseLoop, componentValue_eq]

/-- The text `%d` gives for a number of the range of a non-negative `int` is a numeral. -/
theorem FormatInt_numeral (i : Int) (h0 : 0 ≤ i) (h1 : i < 2 ^ 63) :
    FormatInt i = String.mk (Nat.repr i.natAbs).data ∧ IsNumeral (Nat.repr i.natAbs).data ∧
      componentValue (some (Nat.repr i.natAbs).data) = i := by
  obtain ⟨hne, hdig, hval⟩ := repr_digits i.natAbs
  refine ⟨?_, ⟨hne, hdig, ?_⟩, ?_⟩
  · simp only [FormatInt, if_neg (not_lt.mpr h0)]
  · rw [hval]
    omega
  · simp only [componentValue, hval]
    omega

/-- The text of a duration with fields that are not negative is of the form
`PnYnMnDTnHnMnS`. -/
theorem ISO8601String_isoText (d : Duration) (hY : 0 ≤ d.Years) (hM : 0 ≤ d.Months)
    (hD : 0 ≤ d.Days) (hH : 0 ≤ d.Hours) (hMi : 0 ≤ d.Minutes) (hS : 0 ≤ d.Seconds) :
    d.ISO8601String =
      String.mk (isoText (some (Nat.repr d.Years.natAbs).data)
        (some (Nat.repr d.Months.natAbs).data) (some (Nat.repr d.Days.natAbs).data)
        (some (some (Nat.repr d.Hours.natAbs).data, some (Nat.repr d.Minutes.natAbs).data,
          some (Nat.repr d.Seconds.natAbs).data))) := by
  apply String.ext
  simp only [Duration.ISO8601String, FormatInt, if_neg (not_lt.mpr hY), if_neg (not_lt.mpr hM),
    if_neg (not_lt.mpr hD), if_neg (not_lt.mpr hH), if_neg (not_lt.mpr hMi),
    if_neg (not_lt.mpr hS), String.data_append, isoText, componentText, clockText]
  simp

/-- C26: for every `Duration` whose six fields are not negative (and, being of Go's type
`int`, below `2 ^ 63`), `ParseISO8601String` of its `ISO8601String` returns that `Duration`
and no error. -/
theorem ParseISO8601String_ISO8601String (d : Duration)
    (hY : 0 ≤ d.Years ∧ d.Years < 2 ^ 63) (hM : 0 ≤ d.Months ∧ d.Months < 2 ^ 63)
    (hD : 0 ≤ d.Days ∧ d.Days < 2 ^ 63) (hH : 0 ≤ d.Hours ∧ d.Hours < 2 ^ 63)
    (hMi : 0 ≤ d.Minutes ∧ d.Minutes < 2 ^ 63) (hS : 0 ≤ d.Seconds ∧ d.Seconds < 2 ^ 63) :
    ParseISO8601String d.ISO8601String = (some d, .nil) := by
  have fY := FormatInt_numeral d.Years hY.1 hY.2
  have fM := FormatInt_numeral d.Months hM.1 hM.2
  have fD := FormatInt_numeral d.Days hD.1 hD.2
  have fH := FormatInt_numeral d.Hours hH.1 hH.2
  have fMi := FormatInt_numeral d.Minutes hMi.1 hMi.2
  have fS := FormatInt_numeral d.Seconds hS.1 hS.2
  rw [ISO8601String_isoText d hY.1 hM.1 hD.1 hH.1 hMi.1 hS.1,
    ParseISO8601String_isoText _ _ _ _
      (fun ds h => by cases h; exact fY.2.1) (fun ds h => by cases h; exact fM.2.1)
      (fun ds h => by cases h; exact fD.2.1) (fun ds h => by cases h; exact fH.2.1)
      (fun ds h => by cases h; exact fMi.2.1) (fun ds h => by cases h; exact fS.2.1)]
  simp only [clockParts, fY.2.2, fM.2.2, fD.2.2, fH.2.2, fMi.2.2, fS.2.2]

theorem ParseISO8601String_ISO8601String_witness :
    Duration.ISO8601String ⟨1, 2, 3, 4, 50, 0⟩ = "P1Y2M3DT4H50M0S" ∧
    ParseISO8601String (Duration.ISO8601String ⟨1, 2, 3, 4, 50, 0⟩) =
      (some ⟨1, 2, 3, 4, 50, 0⟩, .nil) :=
  ⟨by decide, ParseISO8601String_ISO8601String ⟨1, 2, 3, 4, 50, 0⟩ (by decide) (by decide)
    (by decide) (by decide) (by decide) (by decide)⟩

end time

end CommonTools
